import Mathlib

/-!
# Wildfire simulation (`wildfire.c`): embedding and verified properties

The C program keeps its configuration in file-level `static int` variables and works on
`int grid[size][size]` arrays.  The embedding below keeps the names of the source.

* A grid (and the parallel burn-counter matrix) is a function from two `int` indices to an
  `int` cell value; only the indices in `[0,size) × [0,size)` belong to the C array.
* `rand()` is modelled by an arbitrary infinite sequence `draws : Nat → Nat` of non-negative
  results together with the number `rng` of calls made so far (a field of the state).
* `for` loops over `0 .. size-1` are folds over `List.range size`, in the order of the source.
* The `double` comparison of the neighbour gate is taken over the rationals: both sides are
  quotients of small integers (`0 ≤ b ≤ t ≤ 8`, `0 ≤ neighbor_effect ≤ 100`), for which
  correctly rounded division preserves the order of the exact quotients.
* The `double` quotient of the lightning step, `(double)rand() / RAND_MAX`, is the IEEE 754
  binary64 quotient (round to nearest, ties to even), computed exactly as a rational by
  `double_div`; `lightning_chance` holds the exact value of the `double` variable.
* `int` arithmetic is taken in `Int`: with the validated configuration no expression of the
  program leaves the 32-bit range.
* Terminal output (`printf`, cursor control, `usleep`) is not modelled.
-/

namespace Wildfire

/-! ## Constants of the source -/

def EMPTY : Int := 0
def TREE : Int := 1
def BURNING : Int := 2
def BURNED : Int := 3
def BURN_STAGES : Int := 3

/-- The value of `RAND_MAX` (glibc). -/
def RAND_MAX : Nat := 2147483647

/-- An `int [size][size]` array, indexed by `int` row and column. -/
abbrev Grid := Int → Int → Int

/-- The assignment `g[r][c] = v`. -/
def setCell (g : Grid) (r c : Int) (v : Int) : Grid :=
  fun i j => if i = r ∧ j = c then v else g i j

/-- The file-level configuration variables of `wildfire.c`. -/
structure Config where
  size : Nat
  density : Int
  burning_percent : Int
  catch_fire_percent : Int
  neighbor_effect : Int
  max_cycles : Int
  lightning_active : Int
  lightning_chance : ℚ

/-- The mutable data of `run_sim`: the two grid buffers, the burn counters, the change
counters, the static `current_cycle` and the number of `rand()` calls made so far. -/
structure State where
  grid : Grid
  next : Grid
  burn_counter : Grid
  changes : Int
  cumulative_changes : Int
  current_cycle : Int
  rng : Nat

/-- The loop nest `for (r = 0; r < size; r++) for (c = 0; c < size; c++) body`. -/
def forRC {σ : Type} (size : Nat) (body : Nat → Nat → σ → σ) (st : σ) : σ :=
  (List.range size).foldl
    (fun s r => (List.range size).foldl (fun s2 c => body r c s2) s) st

/-- The state in which the loop nest of `forRC` reaches the cell `(r, c)`: all rows before
`r` and the columns before `c` of row `r` have been processed. -/
def forRCBefore {σ : Type} (size : Nat) (body : Nat → Nat → σ → σ) (r c : Nat) (st : σ) : σ :=
  (List.range c).foldl (fun s2 j => body r j s2)
    ((List.range r).foldl
      (fun s i => (List.range size).foldl (fun s2 j => body i j s2) s) st)

/-! ## Neighbourhood query -/

/-- Source: `count_burning_neighbors`. -/
def count_burning_neighbors (size : Nat) (grid : Grid) (row col : Int) : Int :=
  [row - 1, row, row + 1].foldl
    (fun acc i =>
      [col - 1, col, col + 1].foldl
        (fun acc2 j =>
          if i ≥ 0 ∧ i < (size : Int) ∧ j ≥ 0 ∧ j < (size : Int) then
            if ¬(i = row ∧ j = col) ∧ grid i j = BURNING then acc2 + 1 else acc2
          else acc2)
        acc)
    0

/-- Source: `count_tree_neighbors`. -/
def count_tree_neighbors (size : Nat) (grid : Grid) (row col : Int) : Int :=
  [row - 1, row, row + 1].foldl
    (fun acc i =>
      [col - 1, col, col + 1].foldl
        (fun acc2 j =>
          if i ≥ 0 ∧ i < (size : Int) ∧ j ≥ 0 ∧ j < (size : Int) then
            if ¬(i = row ∧ j = col) ∧ (grid i j = TREE ∨ grid i j = BURNING) then acc2 + 1
            else acc2
          else acc2)
        acc)
    0

/-! ## Transition engine -/

/-- The body of the loop nest of `update` at the cell `(r, c)`. -/
def update_cell (cfg : Config) (draws : Nat → Nat) (r c : Nat) (st : State) : State :=
  if st.grid r c = BURNING then
    let bc := setCell st.burn_counter r c (st.burn_counter r c + 1)
    if bc r c ≥ BURN_STAGES then
      { st with burn_counter := bc, next := setCell st.next r c BURNED,
                changes := st.changes + 1 }
    else
      { st with burn_counter := bc, next := setCell st.next r c BURNING,
                changes := st.changes + 1 }
  else if st.grid r c = TREE then
    let burning_neighbors := count_burning_neighbors cfg.size st.grid r c
    let total_neighbors := count_tree_neighbors cfg.size st.grid r c
    if total_neighbors > 0 then
      let proportion_burning : ℚ := (burning_neighbors : ℚ) / (total_neighbors : ℚ)
      if proportion_burning ≥ (cfg.neighbor_effect : ℚ) / 100 then
        if ((draws st.rng % 100 : Nat) : Int) < cfg.catch_fire_percent then
          { st with rng := st.rng + 1, next := setCell st.next r c BURNING,
                    burn_counter := setCell st.burn_counter r c 0,
                    changes := st.changes + 1 }
        else
          { st with rng := st.rng + 1, next := setCell st.next r c TREE }
      else
        { st with next := setCell st.next r c TREE }
    else
      { st with next := setCell st.next r c TREE }
  else
    { st with next := setCell st.next r c (st.grid r c) }

/-- Source: `update`.  The arrays `grid`, `next`, `burn_counter` and the cell `*changes` are
the fields of the state. -/
def update (cfg : Config) (draws : Nat → Nat) (st : State) : State :=
  forRC cfg.size (update_cell cfg draws) { st with changes := 0 }

/-- The state in which `update` reaches the cell `(r, c)`. -/
def update_before (cfg : Config) (draws : Nat → Nat) (r c : Nat) (st : State) : State :=
  forRCBefore cfg.size (update_cell cfg draws) r c { st with changes := 0 }

/-- The integer nearest to `n / m`, the even one of the two when `n / m` lies half-way. -/
def roundNearestEven (n m : Nat) : Nat :=
  if 2 * (n % m) < m then n / m
  else if m < 2 * (n % m) then n / m + 1
  else if (n / m) % 2 = 0 then n / m
  else n / m + 1

/-- The least `k`, searched from `k` on for `fuel` steps, with `2^52 ≤ n * 2^k / m`: the
number of binary places of the 53-bit significand of `n / m`. -/
def sigShift (n m : Nat) : Nat → Nat → Nat
  | 0, k => k
  | fuel + 1, k => if 2 ^ 52 * m ≤ n * 2 ^ k then k else sigShift n m fuel (k + 1)

/-- The value of the C expression `(double)n / m` for `int` values `0 ≤ n ≤ m`, `m > 0`:
both conversions are exact, and the quotient is rounded to the nearest number with a 53-bit
significand, ties to even (IEEE 754 binary64; the results lie in the normal range). -/
def double_div (n m : Nat) : ℚ :=
  if n = 0 then 0
  else
    ((roundNearestEven (n * 2 ^ sigShift n m 128 0) m : Nat) : ℚ)
      / ((2 ^ sigShift n m 128 0 : Nat) : ℚ)

/-- Source: `lightning`. -/
def lightning (cfg : Config) (draws : Nat → Nat) (st : State) : State :=
  if cfg.lightning_active ≠ 0 then
    if double_div (draws st.rng) RAND_MAX < cfg.lightning_chance then
      let strike_r : Int := ((draws (st.rng + 1) % cfg.size : Nat) : Int)
      let strike_c : Int := ((draws (st.rng + 2) % cfg.size : Nat) : Int)
      if st.grid strike_r strike_c = TREE then
        { st with rng := st.rng + 3, grid := setCell st.grid strike_r strike_c BURNING,
                  burn_counter := setCell st.burn_counter strike_r strike_c 0 }
      else
        { st with rng := st.rng + 3 }
    else
      { st with rng := st.rng + 1 }
  else
    st

/-! ## Grid initialisation -/

/-- The local variables of `init_grid` during its placement loop. -/
structure InitState where
  grid : Grid
  tot_trees : Int
  tot_burning : Int
  rng : Nat

/-- The body of the `while (tot_trees > 0)` loop of `init_grid`. -/
def init_step (cfg : Config) (draws : Nat → Nat) (s : InitState) : InitState :=
  let row : Int := ((draws s.rng % cfg.size : Nat) : Int)
  let col : Int := ((draws (s.rng + 1) % cfg.size : Nat) : Int)
  if s.grid row col = EMPTY then
    if s.tot_burning > 0 then
      { grid := setCell s.grid row col BURNING, tot_burning := s.tot_burning - 1,
        tot_trees := s.tot_trees - 1, rng := s.rng + 2 }
    else
      { grid := setCell s.grid row col TREE, tot_burning := s.tot_burning,
        tot_trees := s.tot_trees - 1, rng := s.rng + 2 }
  else
    { s with rng := s.rng + 2 }

/-- The `while (tot_trees > 0)` loop of `init_grid`; `fuel` bounds the number of times the
loop condition is evaluated, and `none` means that the bound was reached. -/
def init_loop (cfg : Config) (draws : Nat → Nat) : Nat → InitState → Option InitState
  | 0, _ => none
  | fuel + 1, s =>
    if s.tot_trees > 0 then init_loop cfg draws fuel (init_step cfg draws s) else some s

/-- The assignment `grid[r][c] = EMPTY` of the clearing loop of `init_grid`. -/
def clear_cell (r c : Nat) (g : Grid) : Grid := setCell g r c EMPTY

/-- The state of `init_grid` when it enters the placement loop: the targets are computed
(`/` of C truncates), every cell is cleared and the generator is seeded afresh. -/
def init_start (cfg : Config) (grid : Grid) : InitState :=
  let tot_cells : Int := (cfg.size : Int) * (cfg.size : Int)
  let tot_trees : Int := Int.tdiv (cfg.density * tot_cells) 100
  let tot_burning : Int := Int.tdiv (cfg.burning_percent * tot_trees) 100
  { grid := forRC cfg.size clear_cell grid,
    tot_trees := tot_trees, tot_burning := tot_burning, rng := 0 }

/-- Source: `init_grid`. -/
def init_grid (cfg : Config) (draws : Nat → Nat) (fuel : Nat) (grid : Grid) :
    Option InitState :=
  init_loop cfg draws fuel (init_start cfg grid)

/-! ## Simulation driver -/

/-- The scan of `run_sim` that computes `fires_out`: it looks through the rows of the array
it is given and leaves a row at the first `BURNING` cell. -/
def fires_out (size : Nat) (grid : Grid) : Bool :=
  (List.range size).all
    (fun r => !((List.range size).any (fun c => decide (grid r c = BURNING))))

/-- The assignment `grid[r][c] = next[r][c]` of the copy loop of `run_sim`. -/
def copy_cell (r c : Nat) (s : State) : State :=
  { s with grid := setCell s.grid r c (s.next r c) }

/-- The loop nest of `run_sim` that copies `next` into `grid`. -/
def copy_next (size : Nat) (st : State) : State :=
  forRC size copy_cell st

/-- The call `memset(next, EMPTY, sizeof(next))`. -/
def clear_next (size : Nat) (st : State) : State :=
  { st with next := fun i j =>
      if 0 ≤ i ∧ i < (size : Int) ∧ 0 ≤ j ∧ j < (size : Int) then EMPTY else st.next i j }

/-- How one pass through the `while (1)` loop of `run_sim` ends. -/
inductive Outcome where
  | cycleLimit
  | firesOut
  | again
deriving DecidableEq, Repr

/-- One pass through the `while (1)` loop of `run_sim`. -/
def loop_body (cfg : Config) (draws : Nat → Nat) (st : State) : Outcome × State :=
  if cfg.max_cycles ≠ -1 ∧ st.current_cycle ≥ cfg.max_cycles then
    (Outcome.cycleLimit, st)
  else
    let st1 := clear_next cfg.size st
    let st2 := lightning cfg draws { st1 with changes := 0 }
    let st3 := update cfg draws st2
    let st4 := { st3 with cumulative_changes := st3.cumulative_changes + st3.changes }
    if fires_out cfg.size st4.grid then
      (Outcome.firesOut, st4)
    else
      let st5 := copy_next cfg.size st4
      (Outcome.again, { st5 with current_cycle := st5.current_cycle + 1 })

/-- The `while (1)` loop of `run_sim`; `fuel` bounds the number of passes and `none` means
that the bound was reached. -/
def run_loop (cfg : Config) (draws : Nat → Nat) : Nat → State → Option (Outcome × State)
  | 0, _ => none
  | fuel + 1, st =>
    match loop_body cfg draws st with
    | (Outcome.again, st') => run_loop cfg draws fuel st'
    | (o, st') => some (o, st')

/-- The assignment `burn_counter[r][c] = 0` of the loop of `run_sim` that clears the burn
counters. -/
def zero_counter (r c : Nat) (s : State) : State :=
  { s with burn_counter := setCell s.burn_counter r c 0 }

/-- The state in which `run_sim` enters its loop, given the grid left by `init_grid`: the
burn counters are cleared, the counters are 0. -/
def run_start (cfg : Config) (init : InitState) (next burn_counter : Grid) : State :=
  forRC cfg.size zero_counter
    { grid := init.grid, next := next, burn_counter := burn_counter, changes := 0,
      cumulative_changes := 0, current_cycle := 0, rng := init.rng }

/-- Source: `run_sim`.  The three arrays are uninitialised locals, given as arguments. -/
def run_sim (cfg : Config) (draws : Nat → Nat) (fuel_init fuel_loop : Nat)
    (grid next burn_counter : Grid) : Option (Outcome × State) :=
  match init_grid cfg draws fuel_init grid with
  | none => none
  | some init => run_loop cfg draws fuel_loop (run_start cfg init next burn_counter)

/-- One simulation cycle without the lightning step: `update`, then the copy of `next`
into `grid`. -/
def update_copy (cfg : Config) (draws : Nat → Nat) (st : State) : State :=
  copy_next cfg.size (update cfg draws st)

/-! ## Command line -/

/-- The text that `main` prints when it refuses the value of option `-p`. -/
def p_range_message : String :=
  "(-pN) number of states to print must be an integer in [0...100000].\n"

/-- Source: `case 'p'` of the option switch of `main`; `n` is the value that `atoi` returns
for the text after `-p`.  `Except.error` is the `return EXIT_FAILURE` after the message,
`Except.ok` the `break` with which the scan of the options goes on. -/
def main_case_p (cfg : Config) (n : Int) : Except String Config :=
  if ({ cfg with max_cycles := n } : Config).max_cycles < 0
      ∨ ({ cfg with max_cycles := n } : Config).max_cycles > 10000 then
    Except.error p_range_message
  else
    Except.ok { cfg with max_cycles := n }

/-! ## Counting cells -/

/-- The number of cells of the `size × size` array whose value satisfies `p`. -/
def countCells (size : Nat) (p : Int → Bool) (g : Grid) : Nat :=
  ((Finset.range size ×ˢ Finset.range size).filter (fun q => p (g q.1 q.2) = true)).card

/-- No cell of the `size × size` array is `BURNING`. -/
def noBurning (size : Nat) (g : Grid) : Prop :=
  ∀ r c : Nat, r < size → c < size → g r c ≠ BURNING

/-! ## Auxiliary definitions for the statements -/

/-- The contribution of the coordinate `(i, j)` to a neighbour count: 1 when it lies inside
the array and its value satisfies `p`, else 0. -/
def nbInd (size : Nat) (g : Grid) (p : Int → Bool) (i j : Int) : Int :=
  if i ≥ 0 ∧ i < (size : Int) ∧ j ≥ 0 ∧ j < (size : Int) ∧ p (g i j) = true then 1 else 0

/-- The sum of `nbInd` over the eight coordinates around `(row, col)`. -/
def nbSum (size : Nat) (g : Grid) (p : Int → Bool) (row col : Int) : Int :=
  nbInd size g p (row - 1) (col - 1) + nbInd size g p (row - 1) col
    + nbInd size g p (row - 1) (col + 1) + nbInd size g p row (col - 1)
    + nbInd size g p row (col + 1) + nbInd size g p (row + 1) (col - 1)
    + nbInd size g p (row + 1) col + nbInd size g p (row + 1) (col + 1)

def isBurning (v : Int) : Bool := decide (v = BURNING)

def isTreeOrBurning (v : Int) : Bool := decide (v = TREE ∨ v = BURNING)

def isTree (v : Int) : Bool := decide (v = TREE)

def isNonEmpty (v : Int) : Bool := decide (v ≠ EMPTY)

/-- The coordinates `(i, j)` and `(row, col)` are at Chebyshev distance 1. -/
def adjacent (i j row col : Int) : Prop := max |i - row| |j - col| = 1

instance (i j row col : Int) : Decidable (adjacent i j row col) := by
  unfold adjacent
  infer_instance

/-- The default configuration of the program (the initial values of its variables). -/
def defaultConfig : Config :=
  { size := 10, density := 50, burning_percent := 10, catch_fire_percent := 30,
    neighbor_effect := 25, max_cycles := -1, lightning_active := 0,
    lightning_chance := 1 / 100 }

/-- A state whose grid holds one burning cell at `(0, 1)` among trees, all counters 0. -/
def sampleState : State :=
  { grid := fun i j => if i = 0 ∧ j = 1 then BURNING else TREE,
    next := fun _ _ => EMPTY, burn_counter := fun _ _ => 0, changes := 0,
    cumulative_changes := 0, current_cycle := 0, rng := 0 }

/-- A state whose grid holds a single tree, at `(0, 0)`, and is empty elsewhere. -/
def isolatedState : State :=
  { grid := fun i j => if i = 0 ∧ j = 0 then TREE else EMPTY,
    next := fun _ _ => EMPTY, burn_counter := fun _ _ => 0, changes := 0,
    cumulative_changes := 0, current_cycle := 0, rng := 0 }

/-- The default configuration with `neighbor_effect` set to 100 (option `-n100`). -/
def fullGateConfig : Config := { defaultConfig with neighbor_effect := 100 }

/-- The scenario of the specification: `size = 5`, `neighbor_effect = 0`,
`catch_fire_percent = 100` (options `-s5 -n0 -c100`). -/
def scenarioConfig : Config :=
  { defaultConfig with size := 5, neighbor_effect := 0, catch_fire_percent := 100 }

/-- The grid of the scenario: `(2, 2)` is burning with counter 0, every other cell is a
tree. -/
def scenarioState : State :=
  { grid := fun i j => if i = 2 ∧ j = 2 then BURNING else TREE,
    next := fun _ _ => EMPTY, burn_counter := fun _ _ => 0, changes := 0,
    cumulative_changes := 0, current_cycle := 0, rng := 0 }

/-- The state `sampleState` with every burn counter at 2. -/
def hotState : State := { sampleState with burn_counter := fun _ _ => 2 }

/-- A state whose only non-empty cell, `(0, 1)`, is burning in its last stage (counter 2). -/
def lastStageState : State :=
  { grid := fun i j => if i = 0 ∧ j = 1 then BURNING else EMPTY,
    next := fun _ _ => EMPTY, burn_counter := fun _ _ => 2, changes := 0,
    cumulative_changes := 0, current_cycle := 2, rng := 0 }

/-- The coordinates `(i, j)` of the array at Chebyshev distance 1 from `(row, col)` whose
cell value satisfies `p`. -/
def neighboursWith (size : Nat) (g : Grid) (p : Int → Bool) (row col : Int) :
    Finset (Nat × Nat) :=
  (Finset.range size ×ˢ Finset.range size).filter
    (fun q => adjacent (q.1 : Int) (q.2 : Int) row col ∧ p (g q.1 q.2) = true)

/-- The contribution of `(i, j)` to the number of neighbours of `(row, col)` with `p`. -/
def adjInd (size : Nat) (g : Grid) (p : Int → Bool) (row col i j : Int) : Int :=
  if adjacent i j row col then nbInd size g p i j else 0

/-- The number of further cycles in which a cell with value `v` and burn counter `b` can
still be burning: 3 for a tree, `3 - b` for a burning cell, 0 otherwise. -/
def fuelOf (v b : Int) : Nat :=
  if v = TREE then 3 else if v = BURNING then (3 - b).toNat else 0

/-- The sum of `fuelOf` over the cells of the array. -/
def potential (size : Nat) (st : State) : Nat :=
  ∑ q in Finset.range size ×ˢ Finset.range size,
    fuelOf (st.grid q.1 q.2) (st.burn_counter q.1 q.2)

/-- Every burning cell of the array has a burn counter in `{0, 1, 2}`. -/
def countersOk (size : Nat) (st : State) : Prop :=
  ∀ r c : Nat, r < size → c < size → st.grid r c = BURNING →
    0 ≤ st.burn_counter r c ∧ st.burn_counter r c ≤ 2

/-- The invariant of the placement loop of `init_grid` for the targets `T` (trees) and `B`
(burning): what is still to place, added to what the grid holds, gives the targets, and
every non-empty cell is `TREE` or `BURNING`. -/
def initInv (size : Nat) (T B : Int) (s : InitState) : Prop :=
  0 ≤ s.tot_burning ∧ s.tot_burning ≤ s.tot_trees
    ∧ (countCells size isNonEmpty s.grid : Int) + s.tot_trees = T
    ∧ (countCells size isBurning s.grid : Int) + s.tot_burning = B
    ∧ countCells size isTree s.grid + countCells size isBurning s.grid
        = countCells size isNonEmpty s.grid

/-- A small configuration: `size = 5`, `density = 4` (one tree), `burning_percent = 100`. -/
def tinyConfig : Config := { defaultConfig with size := 5, density := 4, burning_percent := 100 }

/-- A sequence of draws under which the coordinate draws of `init_grid` visit the cells
in row-major order: the draws `2k` and `2k+1` are the row and the column of cell number `k`. -/
def rowMajorDraws (size : Nat) : Nat → Nat :=
  fun n => if n % 2 = 0 then (n / 2) / size else (n / 2) % size

/-- The state of a pass of the driver loop after `memset` and the lightning step, when
`update` is called. -/
def cycle_mid (cfg : Config) (draws : Nat → Nat) (st : State) : State :=
  lightning cfg draws { clear_next cfg.size st with changes := 0 }

/-- The state at the end of a pass of the driver loop that goes on to another pass:
lightning step, `update`, change counters, copy of `next` into `grid`, cycle index plus 1. -/
def driver_cycle (cfg : Config) (draws : Nat → Nat) (st : State) : State :=
  let st3 := update cfg draws (cycle_mid cfg draws st)
  let st4 := { st3 with cumulative_changes := st3.cumulative_changes + st3.changes }
  let st5 := copy_next cfg.size st4
  { st5 with current_cycle := st5.current_cycle + 1 }

/-- The default configuration with lightning enabled as by option `-L1`. -/
def stormConfig : Config := { defaultConfig with lightning_active := -1, lightning_chance := 1 }

/-- A state whose grid holds a burned cell at `(0, 0)` and is empty elsewhere. -/
def burnedState : State :=
  { grid := fun i j => if i = 0 ∧ j = 0 then BURNED else EMPTY,
    next := fun _ _ => EMPTY, burn_counter := fun _ _ => 3, changes := 0,
    cumulative_changes := 0, current_cycle := 3, rng := 0 }

/-- The default configuration with a cycle limit of 0 (option `-p0`). -/
def limitZeroConfig : Config := { tinyConfig with max_cycles := 0 }

def isEmpty (v : Int) : Bool := decide (v = EMPTY)

/-- One evaluation of the condition of the `while (tot_trees > 0)` loop of `init_grid`,
followed by the loop body when the condition holds. -/
def init_pass (cfg : Config) (draws : Nat → Nat) (s : InitState) : InitState :=
  if s.tot_trees > 0 then init_step cfg draws s else s

/-- The number of the first `n` coordinate draws, taken from the state `s` on, that hit a
cell which is `EMPTY` when it is drawn. -/
def init_hits (cfg : Config) (draws : Nat → Nat) : Nat → InitState → Nat
  | 0, _ => 0
  | n + 1, s =>
    (if s.grid ((draws s.rng % cfg.size : Nat) : Int)
        ((draws (s.rng + 1) % cfg.size : Nat) : Int) = EMPTY then 1 else 0)
      + init_hits cfg draws n (init_step cfg draws s)

/-- What the pass of `update` at a cell adds to the change count: 1 for a cell that is
`BURNING` in the current grid and for a `TREE` that is `BURNING` in `next`, else 0. -/
def changeOf (g next : Grid) (r c : Int) : Int :=
  if g r c = BURNING then 1 else if g r c = TREE ∧ next r c = BURNING then 1 else 0

/-- The number of cells of the array that are `TREE` in `g` and `BURNING` in `next`. -/
def countIgnited (size : Nat) (g next : Grid) : Nat :=
  ((Finset.range size ×ˢ Finset.range size).filter
    (fun q => g q.1 q.2 = TREE ∧ next q.1 q.2 = BURNING)).card

/-- A state whose grid is all trees, with no fire, all counters 0. -/
def forestState : State :=
  { grid := fun _ _ => TREE, next := fun _ _ => EMPTY, burn_counter := fun _ _ => 0,
    changes := 0, cumulative_changes := 0, current_cycle := 0, rng := 0 }

/-- The default configuration with `neighbor_effect = 0` and `catch_fire_percent = 100`
(options `-n0 -c100`). -/
def zeroGateConfig : Config :=
  { defaultConfig with neighbor_effect := 0, catch_fire_percent := 100 }

/-! # Lemmas -/

/-! ## Loops over the cells -/

theorem foldl_range_succ {σ : Type} (f : σ → Nat → σ) (n : Nat) (s : σ) :
    (List.range (n + 1)).foldl f s = f ((List.range n).foldl f s) n := by
  rw [List.range_succ, List.foldl_append]
  rfl

theorem foldl_range_after {σ : Type} (P : σ → Prop) (f : σ → Nat → σ) (k n : Nat)
    (hk : k ≤ n) (h : ∀ i s, k ≤ i → i < n → P s → P (f s i)) (s : σ)
    (h0 : P ((List.range k).foldl f s)) : P ((List.range n).foldl f s) := by
  induction n with
  | zero =>
    have : k = 0 := by omega
    subst this
    exact h0
  | succ m ih =>
    by_cases hkm : k = m + 1
    · subst hkm
      exact h0
    · rw [foldl_range_succ]
      apply h m _ (by omega) (by omega)
      exact ih (by omega) (fun i s h1 h2 hp => h i s h1 (by omega) hp)

theorem foldl_range_inv {σ : Type} (P : σ → Prop) (f : σ → Nat → σ) (n : Nat)
    (h : ∀ i s, i < n → P s → P (f s i)) (s : σ) (h0 : P s) :
    P ((List.range n).foldl f s) :=
  foldl_range_after P f 0 n (Nat.zero_le n) (fun i s _ hi hp => h i s hi hp) s h0

theorem forRC_inv {σ : Type} (P : σ → Prop) (size : Nat) (body : Nat → Nat → σ → σ)
    (h : ∀ r c s, r < size → c < size → P s → P (body r c s)) (st : σ) (h0 : P st) :
    P (forRC size body st) := by
  unfold forRC
  apply foldl_range_inv P _ size _ st h0
  intro r s hr hs
  exact foldl_range_inv P _ size (fun c s2 hc hp => h r c s2 hr hc hp) s hs

theorem forRCBefore_inv {σ : Type} (P : σ → Prop) (size : Nat) (body : Nat → Nat → σ → σ)
    (r c : Nat)
    (h : ∀ i j s, (i < r ∧ j < size) ∨ (i = r ∧ j < c) → P s → P (body i j s))
    (st : σ) (h0 : P st) : P (forRCBefore size body r c st) := by
  unfold forRCBefore
  apply foldl_range_inv P _ c
  · intro j s hj hp
    exact h r j s (Or.inr ⟨rfl, hj⟩) hp
  · apply foldl_range_inv P _ r _ st h0
    intro i s hi hs
    exact foldl_range_inv P _ size (fun j s2 hj hp => h i j s2 (Or.inl ⟨hi, hj⟩) hp) s hs

/-- What the loop nest leaves in a part of the state that only the pass at `(r, c)` can
touch is what that pass left there. -/
theorem forRC_at {σ α : Type} (proj : σ → α) (size : Nat) (body : Nat → Nat → σ → σ)
    (r c : Nat) (hr : r < size) (hc : c < size)
    (h : ∀ i j s, ¬(i = r ∧ j = c) → proj (body i j s) = proj s) (st : σ) :
    proj (forRC size body st) = proj (body r c (forRCBefore size body r c st)) := by
  unfold forRC forRCBefore
  have key : ∀ v : α,
      proj (body r c ((List.range c).foldl (fun s2 j => body r j s2)
        ((List.range r).foldl
          (fun s i => (List.range size).foldl (fun s2 j => body i j s2) s) st))) = v →
      proj ((List.range size).foldl
        (fun s i => (List.range size).foldl (fun s2 j => body i j s2) s) st) = v := by
    intro v hv
    apply foldl_range_after (fun s => proj s = v) _ (r + 1) size (by omega)
    · intro i s hi _ hp
      apply foldl_range_inv (fun s => proj s = v) _ size _ s hp
      intro j s2 _ hp2
      show proj (body i j s2) = v
      rw [h i j s2 (by omega)]
      exact hp2
    · rw [foldl_range_succ]
      apply foldl_range_after (fun s => proj s = v) _ (c + 1) size (by omega)
      · intro j s2 hj _ hp2
        show proj (body r j s2) = v
        rw [h r j s2 (by omega)]
        exact hp2
      · rw [foldl_range_succ]
        exact hv
  exact key _ rfl

/-! ## Frame facts of `update` -/

theorem setCell_same (g : Grid) (r c v : Int) : setCell g r c v r c = v := by
  simp [setCell]

theorem setCell_other (g : Grid) (r c v i j : Int) (h : ¬(i = r ∧ j = c)) :
    setCell g r c v i j = g i j := by
  simp only [setCell, if_neg h]

theorem update_cell_grid (cfg : Config) (draws : Nat → Nat) (r c : Nat) (s : State) :
    (update_cell cfg draws r c s).grid = s.grid := by
  unfold update_cell
  dsimp only
  split_ifs <;> rfl

theorem update_cell_next_other (cfg : Config) (draws : Nat → Nat) (r c : Nat) (s : State)
    (i j : Int) (h : ¬(i = (r : Int) ∧ j = (c : Int))) :
    (update_cell cfg draws r c s).next i j = s.next i j := by
  unfold update_cell
  dsimp only
  split_ifs <;> simp only [setCell_other _ _ _ _ _ _ h]

theorem update_cell_bc_other (cfg : Config) (draws : Nat → Nat) (r c : Nat) (s : State)
    (i j : Int) (h : ¬(i = (r : Int) ∧ j = (c : Int))) :
    (update_cell cfg draws r c s).burn_counter i j = s.burn_counter i j := by
  unfold update_cell
  dsimp only
  split_ifs <;> simp only [setCell_other _ _ _ _ _ _ h]

theorem update_grid (cfg : Config) (draws : Nat → Nat) (st : State) :
    (update cfg draws st).grid = st.grid := by
  unfold update
  exact forRC_inv (fun s : State => s.grid = st.grid) cfg.size _
    (fun r c s _ _ hp => (update_cell_grid cfg draws r c s).trans hp) _ rfl

theorem update_before_grid (cfg : Config) (draws : Nat → Nat) (r c : Nat) (st : State) :
    (update_before cfg draws r c st).grid = st.grid := by
  unfold update_before
  exact forRCBefore_inv (fun s : State => s.grid = st.grid) cfg.size _ r c
    (fun i j s _ hp => (update_cell_grid cfg draws i j s).trans hp) _ rfl

theorem update_before_bc (cfg : Config) (draws : Nat → Nat) (r c : Nat) (st : State) :
    (update_before cfg draws r c st).burn_counter r c = st.burn_counter r c := by
  unfold update_before
  refine forRCBefore_inv (fun s : State => s.burn_counter r c = st.burn_counter r c)
    cfg.size _ r c ?_ _ rfl
  intro i j s hij hp
  show (update_cell cfg draws i j s).burn_counter r c = st.burn_counter r c
  rw [update_cell_bc_other _ _ _ _ _ _ _ (by omega)]
  exact hp

theorem update_next_at (cfg : Config) (draws : Nat → Nat) (st : State) (r c : Nat)
    (hr : r < cfg.size) (hc : c < cfg.size) :
    (update cfg draws st).next r c
      = (update_cell cfg draws r c (update_before cfg draws r c st)).next r c := by
  unfold update update_before
  exact forRC_at (fun s : State => s.next r c) cfg.size _ r c hr hc
    (fun i j s h => update_cell_next_other cfg draws i j s r c (by omega)) _

theorem update_bc_at (cfg : Config) (draws : Nat → Nat) (st : State) (r c : Nat)
    (hr : r < cfg.size) (hc : c < cfg.size) :
    (update cfg draws st).burn_counter r c
      = (update_cell cfg draws r c (update_before cfg draws r c st)).burn_counter r c := by
  unfold update update_before
  exact forRC_at (fun s : State => s.burn_counter r c) cfg.size _ r c hr hc
    (fun i j s h => update_cell_bc_other cfg draws i j s r c (by omega)) _

/-- Cells outside the array are not written by `update`. -/
theorem update_outside (cfg : Config) (draws : Nat → Nat) (st : State) (i j : Int)
    (h : ¬(0 ≤ i ∧ i < (cfg.size : Int) ∧ 0 ≤ j ∧ j < (cfg.size : Int))) :
    (update cfg draws st).next i j = st.next i j
      ∧ (update cfg draws st).burn_counter i j = st.burn_counter i j := by
  unfold update
  refine forRC_inv
    (fun s : State => s.next i j = st.next i j ∧ s.burn_counter i j = st.burn_counter i j)
    cfg.size _ ?_ _ ⟨rfl, rfl⟩
  intro r c s hr hc hp
  show (update_cell cfg draws r c s).next i j = st.next i j
    ∧ (update_cell cfg draws r c s).burn_counter i j = st.burn_counter i j
  rw [update_cell_next_other _ _ _ _ _ _ _ (by omega),
    update_cell_bc_other _ _ _ _ _ _ _ (by omega)]
  exact hp

/-! ## The loop body of `update`, case by case -/

/-- The `double` comparison of `update`, read over the rationals, is the integer comparison
`neighbor_effect * t ≤ 100 * b`. -/
theorem gate_iff (b t ne : Int) (ht : t > 0) :
    ((b : ℚ) / (t : ℚ) ≥ (ne : ℚ) / 100) ↔ 100 * b ≥ ne * t := by
  have ht' : (0 : ℚ) < (t : ℚ) := by exact_mod_cast ht
  rw [ge_iff_le, div_le_div_iff₀ (by norm_num) ht']
  constructor
  · intro h
    have h2 : ((ne * t : Int) : ℚ) ≤ ((b * 100 : Int) : ℚ) := by push_cast; exact h
    have h3 : ne * t ≤ b * 100 := by exact_mod_cast h2
    omega
  · intro h
    have h3 : ne * t ≤ b * 100 := by omega
    have h2 : ((ne * t : Int) : ℚ) ≤ ((b * 100 : Int) : ℚ) := by exact_mod_cast h3
    push_cast at h2
    exact h2

theorem update_cell_burning (cfg : Config) (draws : Nat → Nat) (r c : Nat) (s : State)
    (hB : s.grid r c = BURNING) :
    (update_cell cfg draws r c s).next r c
        = (if s.burn_counter r c + 1 ≥ BURN_STAGES then BURNED else BURNING)
      ∧ (update_cell cfg draws r c s).burn_counter r c = s.burn_counter r c + 1
      ∧ (update_cell cfg draws r c s).changes = s.changes + 1
      ∧ (update_cell cfg draws r c s).rng = s.rng := by
  unfold update_cell
  dsimp only
  rw [if_pos hB, setCell_same]
  split_ifs <;> simp only [setCell_same, and_self]

theorem update_cell_tree (cfg : Config) (draws : Nat → Nat) (r c : Nat) (s : State)
    (hT : s.grid r c = TREE) :
    (update_cell cfg draws r c s).next r c
        = (if count_tree_neighbors cfg.size s.grid r c > 0
              ∧ 100 * count_burning_neighbors cfg.size s.grid r c
                  ≥ cfg.neighbor_effect * count_tree_neighbors cfg.size s.grid r c
              ∧ ((draws s.rng % 100 : Nat) : Int) < cfg.catch_fire_percent
            then BURNING else TREE)
      ∧ (update_cell cfg draws r c s).burn_counter r c
        = (if count_tree_neighbors cfg.size s.grid r c > 0
              ∧ 100 * count_burning_neighbors cfg.size s.grid r c
                  ≥ cfg.neighbor_effect * count_tree_neighbors cfg.size s.grid r c
              ∧ ((draws s.rng % 100 : Nat) : Int) < cfg.catch_fire_percent
            then 0 else s.burn_counter r c)
      ∧ (update_cell cfg draws r c s).changes
        = (if count_tree_neighbors cfg.size s.grid r c > 0
              ∧ 100 * count_burning_neighbors cfg.size s.grid r c
                  ≥ cfg.neighbor_effect * count_tree_neighbors cfg.size s.grid r c
              ∧ ((draws s.rng % 100 : Nat) : Int) < cfg.catch_fire_percent
            then s.changes + 1 else s.changes)
      ∧ (update_cell cfg draws r c s).rng
        = (if count_tree_neighbors cfg.size s.grid r c > 0
              ∧ 100 * count_burning_neighbors cfg.size s.grid r c
                  ≥ cfg.neighbor_effect * count_tree_neighbors cfg.size s.grid r c
            then s.rng + 1 else s.rng) := by
  have hnB : ¬ s.grid r c = BURNING := by rw [hT]; decide
  unfold update_cell
  dsimp only
  rw [if_neg hnB, if_pos hT]
  by_cases ht : count_tree_neighbors cfg.size s.grid r c > 0
  · rw [if_pos ht]
    by_cases hg : 100 * count_burning_neighbors cfg.size s.grid r c
        ≥ cfg.neighbor_effect * count_tree_neighbors cfg.size s.grid r c
    · rw [if_pos ((gate_iff _ _ _ ht).mpr hg)]
      by_cases hd : ((draws s.rng % 100 : Nat) : Int) < cfg.catch_fire_percent
      · rw [if_pos hd]
        simp only [ht, hg, hd, and_self, if_true, setCell_same]
      · rw [if_neg hd]
        simp only [ht, hg, hd, and_self, and_false, and_true, if_true, if_false,
          setCell_same]
    · rw [if_neg (fun h => hg ((gate_iff _ _ _ ht).mp h))]
      simp only [ht, hg, and_self, and_false, false_and, true_and, if_false, setCell_same]
  · rw [if_neg ht]
    simp only [ht, false_and, if_false, setCell_same, and_self]

theorem update_cell_other (cfg : Config) (draws : Nat → Nat) (r c : Nat) (s : State)
    (hB : s.grid r c ≠ BURNING) (hT : s.grid r c ≠ TREE) :
    (update_cell cfg draws r c s).next r c = s.grid r c
      ∧ (update_cell cfg draws r c s).burn_counter r c = s.burn_counter r c
      ∧ (update_cell cfg draws r c s).changes = s.changes
      ∧ (update_cell cfg draws r c s).rng = s.rng := by
  unfold update_cell
  dsimp only
  rw [if_neg hB, if_neg hT]
  simp only [setCell_same, and_self]

/-! ## The neighbourhood query as a sum over the eight adjacent cells -/

theorem nbInd_nonneg (size : Nat) (g : Grid) (p : Int → Bool) (i j : Int) :
    0 ≤ nbInd size g p i j := by
  unfold nbInd
  split_ifs <;> omega

theorem nbInd_le_one (size : Nat) (g : Grid) (p : Int → Bool) (i j : Int) :
    nbInd size g p i j ≤ 1 := by
  unfold nbInd
  split_ifs <;> omega

theorem nbInd_outside (size : Nat) (g : Grid) (p : Int → Bool) (i j : Int)
    (h : ¬(0 ≤ i ∧ i < (size : Int) ∧ 0 ≤ j ∧ j < (size : Int))) :
    nbInd size g p i j = 0 := by
  unfold nbInd
  rw [if_neg]
  intro h2
  exact h ⟨h2.1, h2.2.1, h2.2.2.1, h2.2.2.2.1⟩

theorem nbInd_mono (size : Nat) (g : Grid) (p q : Int → Bool)
    (hpq : ∀ v, p v = true → q v = true) (i j : Int) :
    nbInd size g p i j ≤ nbInd size g q i j := by
  unfold nbInd
  split_ifs with h1 h2
  · omega
  · exact absurd ⟨h1.1, h1.2.1, h1.2.2.1, h1.2.2.2.1, hpq _ h1.2.2.2.2⟩ h2
  · omega
  · omega

theorem count_step_burning (size : Nat) (g : Grid) (row col i j acc : Int) :
    (if i ≥ 0 ∧ i < (size : Int) ∧ j ≥ 0 ∧ j < (size : Int) then
        if ¬(i = row ∧ j = col) ∧ g i j = BURNING then acc + 1 else acc
      else acc)
      = acc + (if i = row ∧ j = col then 0 else nbInd size g isBurning i j) := by
  unfold nbInd isBurning
  simp only [decide_eq_true_eq]
  split_ifs <;> omega

theorem count_step_tree (size : Nat) (g : Grid) (row col i j acc : Int) :
    (if i ≥ 0 ∧ i < (size : Int) ∧ j ≥ 0 ∧ j < (size : Int) then
        if ¬(i = row ∧ j = col) ∧ (g i j = TREE ∨ g i j = BURNING) then acc + 1 else acc
      else acc)
      = acc + (if i = row ∧ j = col then 0 else nbInd size g isTreeOrBurning i j) := by
  unfold nbInd isTreeOrBurning
  simp only [decide_eq_true_eq]
  split_ifs <;> omega

theorem count_burning_eq (size : Nat) (g : Grid) (row col : Int) :
    count_burning_neighbors size g row col = nbSum size g isBurning row col := by
  have h1 : ¬ (row - 1 = row) := by omega
  have h2 : ¬ (row + 1 = row) := by omega
  have h3 : ¬ (col - 1 = col) := by omega
  have h4 : ¬ (col + 1 = col) := by omega
  unfold count_burning_neighbors nbSum
  simp only [count_step_burning]
  simp only [List.foldl, h1, h2, h3, h4, false_and, and_false, and_self, if_true, if_false]
  omega

theorem count_tree_eq (size : Nat) (g : Grid) (row col : Int) :
    count_tree_neighbors size g row col = nbSum size g isTreeOrBurning row col := by
  have h1 : ¬ (row - 1 = row) := by omega
  have h2 : ¬ (row + 1 = row) := by omega
  have h3 : ¬ (col - 1 = col) := by omega
  have h4 : ¬ (col + 1 = col) := by omega
  unfold count_tree_neighbors nbSum
  simp only [count_step_tree]
  simp only [List.foldl, h1, h2, h3, h4, false_and, and_false, and_self, if_true, if_false]
  omega

theorem isBurning_imp (v : Int) (h : isBurning v = true) : isTreeOrBurning v = true := by
  unfold isBurning at h
  unfold isTreeOrBurning
  simp only [decide_eq_true_eq] at h ⊢
  exact Or.inr h

theorem count_burning_nonneg (size : Nat) (g : Grid) (row col : Int) :
    0 ≤ count_burning_neighbors size g row col := by
  rw [count_burning_eq]
  unfold nbSum
  have a1 := nbInd_nonneg size g isBurning (row - 1) (col - 1)
  have a2 := nbInd_nonneg size g isBurning (row - 1) col
  have a3 := nbInd_nonneg size g isBurning (row - 1) (col + 1)
  have a4 := nbInd_nonneg size g isBurning row (col - 1)
  have a5 := nbInd_nonneg size g isBurning row (col + 1)
  have a6 := nbInd_nonneg size g isBurning (row + 1) (col - 1)
  have a7 := nbInd_nonneg size g isBurning (row + 1) col
  have a8 := nbInd_nonneg size g isBurning (row + 1) (col + 1)
  omega

theorem count_burning_le_tree (size : Nat) (g : Grid) (row col : Int) :
    count_burning_neighbors size g row col ≤ count_tree_neighbors size g row col := by
  rw [count_burning_eq, count_tree_eq]
  unfold nbSum
  have a1 := nbInd_mono size g _ _ isBurning_imp (row - 1) (col - 1)
  have a2 := nbInd_mono size g _ _ isBurning_imp (row - 1) col
  have a3 := nbInd_mono size g _ _ isBurning_imp (row - 1) (col + 1)
  have a4 := nbInd_mono size g _ _ isBurning_imp row (col - 1)
  have a5 := nbInd_mono size g _ _ isBurning_imp row (col + 1)
  have a6 := nbInd_mono size g _ _ isBurning_imp (row + 1) (col - 1)
  have a7 := nbInd_mono size g _ _ isBurning_imp (row + 1) col
  have a8 := nbInd_mono size g _ _ isBurning_imp (row + 1) (col + 1)
  omega

/-! ## What `update` leaves in a cell -/

theorem update_at_burning (cfg : Config) (draws : Nat → Nat) (st : State) (r c : Nat)
    (hr : r < cfg.size) (hc : c < cfg.size) (hB : st.grid r c = BURNING) :
    (update cfg draws st).next r c
        = (if st.burn_counter r c + 1 ≥ BURN_STAGES then BURNED else BURNING)
      ∧ (update cfg draws st).burn_counter r c = st.burn_counter r c + 1 := by
  have hB2 : (update_before cfg draws r c st).grid r c = BURNING := by
    rw [update_before_grid]; exact hB
  have h := update_cell_burning cfg draws r c _ hB2
  rw [update_next_at cfg draws st r c hr hc, update_bc_at cfg draws st r c hr hc,
    h.1, h.2.1, update_before_bc]
  exact ⟨rfl, rfl⟩

theorem update_at_tree (cfg : Config) (draws : Nat → Nat) (st : State) (r c : Nat)
    (hr : r < cfg.size) (hc : c < cfg.size) (hT : st.grid r c = TREE) :
    (update cfg draws st).next r c
        = (if count_tree_neighbors cfg.size st.grid r c > 0
              ∧ 100 * count_burning_neighbors cfg.size st.grid r c
                  ≥ cfg.neighbor_effect * count_tree_neighbors cfg.size st.grid r c
              ∧ ((draws (update_before cfg draws r c st).rng % 100 : Nat) : Int)
                  < cfg.catch_fire_percent
            then BURNING else TREE)
      ∧ (update cfg draws st).burn_counter r c
        = (if count_tree_neighbors cfg.size st.grid r c > 0
              ∧ 100 * count_burning_neighbors cfg.size st.grid r c
                  ≥ cfg.neighbor_effect * count_tree_neighbors cfg.size st.grid r c
              ∧ ((draws (update_before cfg draws r c st).rng % 100 : Nat) : Int)
                  < cfg.catch_fire_percent
            then 0 else st.burn_counter r c) := by
  have hT2 : (update_before cfg draws r c st).grid r c = TREE := by
    rw [update_before_grid]; exact hT
  have h := update_cell_tree cfg draws r c _ hT2
  rw [update_before_grid, update_before_bc] at h
  rw [update_next_at cfg draws st r c hr hc, update_bc_at cfg draws st r c hr hc]
  exact ⟨h.1, h.2.1⟩

theorem update_at_other (cfg : Config) (draws : Nat → Nat) (st : State) (r c : Nat)
    (hr : r < cfg.size) (hc : c < cfg.size)
    (hB : st.grid r c ≠ BURNING) (hT : st.grid r c ≠ TREE) :
    (update cfg draws st).next r c = st.grid r c
      ∧ (update cfg draws st).burn_counter r c = st.burn_counter r c := by
  have hB2 : (update_before cfg draws r c st).grid r c ≠ BURNING := by
    rw [update_before_grid]; exact hB
  have hT2 : (update_before cfg draws r c st).grid r c ≠ TREE := by
    rw [update_before_grid]; exact hT
  have h := update_cell_other cfg draws r c _ hB2 hT2
  rw [update_before_grid, update_before_bc] at h
  rw [update_next_at cfg draws st r c hr hc, update_bc_at cfg draws st r c hr hc]
  exact ⟨h.1, h.2.1⟩

/-! ## The copy loop and the scan of the driver -/

theorem copy_next_frame (size : Nat) (st : State) :
    (copy_next size st).next = st.next
      ∧ (copy_next size st).burn_counter = st.burn_counter
      ∧ (copy_next size st).rng = st.rng
      ∧ (copy_next size st).current_cycle = st.current_cycle
      ∧ (copy_next size st).cumulative_changes = st.cumulative_changes
      ∧ (copy_next size st).changes = st.changes := by
  unfold copy_next
  exact forRC_inv
    (fun s : State => s.next = st.next ∧ s.burn_counter = st.burn_counter ∧ s.rng = st.rng
      ∧ s.current_cycle = st.current_cycle
      ∧ s.cumulative_changes = st.cumulative_changes ∧ s.changes = st.changes)
    size copy_cell (fun r c s _ _ hp => hp) st ⟨rfl, rfl, rfl, rfl, rfl, rfl⟩

theorem copy_next_grid_at (size : Nat) (st : State) (r c : Nat)
    (hr : r < size) (hc : c < size) :
    (copy_next size st).grid r c = st.next r c := by
  unfold copy_next
  rw [forRC_at (fun s : State => s.grid r c) size copy_cell r c hr hc
    (fun i j s h => setCell_other _ _ _ _ _ _ (by omega)) st]
  show setCell _ _ _ _ _ _ = _
  rw [setCell_same]
  exact congrFun (congrFun (forRCBefore_inv (fun s : State => s.next = st.next) size
    copy_cell r c (fun i j s _ hp => hp) st rfl) _) _

theorem fires_out_iff (size : Nat) (g : Grid) :
    fires_out size g = true ↔ noBurning size g := by
  unfold fires_out noBurning
  simp only [List.all_eq_true, List.mem_range, Bool.not_eq_true', List.any_eq_false,
    decide_eq_true_eq]
  constructor
  · intro h r c hr hc
    exact h r hr c hc
  · intro h r hr c hc
    exact h r c hr hc

theorem update_copy_grid_at (cfg : Config) (draws : Nat → Nat) (st : State) (r c : Nat)
    (hr : r < cfg.size) (hc : c < cfg.size) :
    (update_copy cfg draws st).grid r c = (update cfg draws st).next r c :=
  copy_next_grid_at cfg.size _ r c hr hc

theorem update_copy_bc (cfg : Config) (draws : Nat → Nat) (st : State) :
    (update_copy cfg draws st).burn_counter = (update cfg draws st).burn_counter :=
  (copy_next_frame cfg.size _).2.1

theorem adjacent_iff (i j row col : Int) :
    adjacent i j row col ↔
      (-1 ≤ i - row ∧ i - row ≤ 1 ∧ -1 ≤ j - col ∧ j - col ≤ 1 ∧ ¬(i = row ∧ j = col)) := by
  unfold adjacent
  rcases abs_cases (i - row) with ⟨h1, h2⟩ | ⟨h1, h2⟩ <;>
    rcases abs_cases (j - col) with ⟨h3, h4⟩ | ⟨h3, h4⟩ <;>
    rcases max_cases |i - row| |j - col| with ⟨h5, h6⟩ | ⟨h5, h6⟩ <;>
    rw [h5] <;> constructor <;> intro h <;> omega

/-- A neighbour in state `TREE` is counted among the tree-or-burning neighbours and not
among the burning ones. -/
theorem count_burning_lt_tree (size : Nat) (g : Grid) (row col i j : Int)
    (hi : 0 ≤ i ∧ i < (size : Int)) (hj : 0 ≤ j ∧ j < (size : Int))
    (hadj : adjacent i j row col) (hT : g i j = TREE) :
    count_burning_neighbors size g row col < count_tree_neighbors size g row col := by
  rw [count_burning_eq, count_tree_eq]
  unfold nbSum
  have a1 := nbInd_mono size g _ _ isBurning_imp (row - 1) (col - 1)
  have a2 := nbInd_mono size g _ _ isBurning_imp (row - 1) col
  have a3 := nbInd_mono size g _ _ isBurning_imp (row - 1) (col + 1)
  have a4 := nbInd_mono size g _ _ isBurning_imp row (col - 1)
  have a5 := nbInd_mono size g _ _ isBurning_imp row (col + 1)
  have a6 := nbInd_mono size g _ _ isBurning_imp (row + 1) (col - 1)
  have a7 := nbInd_mono size g _ _ isBurning_imp (row + 1) col
  have a8 := nbInd_mono size g _ _ isBurning_imp (row + 1) (col + 1)
  have hB : nbInd size g isBurning i j = 0 := by
    unfold nbInd isBurning
    rw [if_neg]
    rw [hT]
    simp [TREE, BURNING]
  have hTB : nbInd size g isTreeOrBurning i j = 1 := by
    unfold nbInd isTreeOrBurning
    rw [if_pos]
    refine ⟨hi.1, hi.2, hj.1, hj.2, ?_⟩
    rw [hT]
    simp
  have hcases := (adjacent_iff i j row col).mp hadj
  have hi' : i = row - 1 ∨ i = row ∨ i = row + 1 := by omega
  have hj' : j = col - 1 ∨ j = col ∨ j = col + 1 := by omega
  rcases hi' with h | h | h <;> rcases hj' with h' | h' | h' <;> subst h <;> subst h' <;>
    omega

/-! ## Further facts about `update`, `lightning` and the neighbour counts -/

theorem lightning_off (cfg : Config) (draws : Nat → Nat) (st : State)
    (h : cfg.lightning_active = 0) : lightning cfg draws st = st := by
  unfold lightning
  rw [if_neg (fun hx => hx h)]

theorem update_cell_static (cfg : Config) (draws : Nat → Nat) (r c : Nat) (s : State) :
    (update_cell cfg draws r c s).current_cycle = s.current_cycle
      ∧ (update_cell cfg draws r c s).cumulative_changes = s.cumulative_changes := by
  unfold update_cell
  dsimp only
  split_ifs <;> exact ⟨rfl, rfl⟩

theorem update_static (cfg : Config) (draws : Nat → Nat) (st : State) :
    (update cfg draws st).current_cycle = st.current_cycle
      ∧ (update cfg draws st).cumulative_changes = st.cumulative_changes := by
  unfold update
  exact forRC_inv
    (fun s : State => s.current_cycle = st.current_cycle
      ∧ s.cumulative_changes = st.cumulative_changes)
    cfg.size (update_cell cfg draws)
    (fun r c s _ _ hp =>
      ⟨(update_cell_static cfg draws r c s).1.trans hp.1,
        (update_cell_static cfg draws r c s).2.trans hp.2⟩) _ ⟨rfl, rfl⟩

theorem nbInd_congr (size : Nat) (g1 g2 : Grid) (p : Int → Bool) (i j : Int)
    (h : 0 ≤ i → i < (size : Int) → 0 ≤ j → j < (size : Int) → g1 i j = g2 i j) :
    nbInd size g1 p i j = nbInd size g2 p i j := by
  unfold nbInd
  by_cases hin : 0 ≤ i ∧ i < (size : Int) ∧ 0 ≤ j ∧ j < (size : Int)
  · rw [h hin.1 hin.2.1 hin.2.2.1 hin.2.2.2]
  · rw [if_neg (fun hx => hin ⟨hx.1, hx.2.1, hx.2.2.1, hx.2.2.2.1⟩),
      if_neg (fun hx => hin ⟨hx.1, hx.2.1, hx.2.2.1, hx.2.2.2.1⟩)]

theorem nbSum_congr (size : Nat) (g1 g2 : Grid) (p : Int → Bool) (row col : Int)
    (h : ∀ i j : Int, 0 ≤ i → i < (size : Int) → 0 ≤ j → j < (size : Int) →
      row - 1 ≤ i → i ≤ row + 1 → col - 1 ≤ j → j ≤ col + 1 → g1 i j = g2 i j) :
    nbSum size g1 p row col = nbSum size g2 p row col := by
  unfold nbSum
  rw [nbInd_congr size g1 g2 p (row - 1) (col - 1)
      (fun a b c d => h _ _ a b c d (by omega) (by omega) (by omega) (by omega)),
    nbInd_congr size g1 g2 p (row - 1) col
      (fun a b c d => h _ _ a b c d (by omega) (by omega) (by omega) (by omega)),
    nbInd_congr size g1 g2 p (row - 1) (col + 1)
      (fun a b c d => h _ _ a b c d (by omega) (by omega) (by omega) (by omega)),
    nbInd_congr size g1 g2 p row (col - 1)
      (fun a b c d => h _ _ a b c d (by omega) (by omega) (by omega) (by omega)),
    nbInd_congr size g1 g2 p row (col + 1)
      (fun a b c d => h _ _ a b c d (by omega) (by omega) (by omega) (by omega)),
    nbInd_congr size g1 g2 p (row + 1) (col - 1)
      (fun a b c d => h _ _ a b c d (by omega) (by omega) (by omega) (by omega)),
    nbInd_congr size g1 g2 p (row + 1) col
      (fun a b c d => h _ _ a b c d (by omega) (by omega) (by omega) (by omega)),
    nbInd_congr size g1 g2 p (row + 1) (col + 1)
      (fun a b c d => h _ _ a b c d (by omega) (by omega) (by omega) (by omega))]

/-- The value that `update` writes to `next` at a cell depends on the grid only through the
part of the 3×3 neighbourhood that lies inside the array, on the burn counter of the cell and
on the draw taken at the cell. -/
theorem update_next_local (cfg : Config) (draws1 draws2 : Nat → Nat) (st1 st2 : State)
    (r c : Nat) (hr : r < cfg.size) (hc : c < cfg.size)
    (hgrid : ∀ i j : Int, 0 ≤ i → i < (cfg.size : Int) → 0 ≤ j → j < (cfg.size : Int) →
      (r : Int) - 1 ≤ i → i ≤ (r : Int) + 1 → (c : Int) - 1 ≤ j → j ≤ (c : Int) + 1 →
      st1.grid i j = st2.grid i j)
    (hbc : st1.burn_counter r c = st2.burn_counter r c)
    (hdraw : draws1 (update_before cfg draws1 r c st1).rng % 100
      = draws2 (update_before cfg draws2 r c st2).rng % 100) :
    (update cfg draws1 st1).next r c = (update cfg draws2 st2).next r c := by
  have hcell : st1.grid r c = st2.grid r c :=
    hgrid r c (by omega) (by omega) (by omega) (by omega) (by omega) (by omega) (by omega)
      (by omega)
  by_cases hB : st1.grid r c = BURNING
  · rw [(update_at_burning cfg draws1 st1 r c hr hc hB).1,
      (update_at_burning cfg draws2 st2 r c hr hc (hcell ▸ hB)).1, hbc]
  · by_cases hT : st1.grid r c = TREE
    · rw [(update_at_tree cfg draws1 st1 r c hr hc hT).1,
        (update_at_tree cfg draws2 st2 r c hr hc (hcell ▸ hT)).1, hdraw,
        count_tree_eq, count_tree_eq, count_burning_eq, count_burning_eq,
        nbSum_congr cfg.size st1.grid st2.grid isTreeOrBurning r c hgrid,
        nbSum_congr cfg.size st1.grid st2.grid isBurning r c hgrid]
    · rw [(update_at_other cfg draws1 st1 r c hr hc hB hT).1,
        (update_at_other cfg draws2 st2 r c hr hc (hcell ▸ hB) (hcell ▸ hT)).1, hcell]

/-- How `update` changes the burn counter of a cell of the array. -/
theorem update_bc_change (cfg : Config) (draws : Nat → Nat) (st : State) (r c : Nat)
    (hr : r < cfg.size) (hc : c < cfg.size) :
    (update cfg draws st).burn_counter r c
      = (if st.grid r c = BURNING then st.burn_counter r c + 1
          else if st.grid r c = TREE ∧ (update cfg draws st).next r c = BURNING then 0
          else st.burn_counter r c) := by
  by_cases hB : st.grid r c = BURNING
  · rw [if_pos hB, (update_at_burning cfg draws st r c hr hc hB).2]
  · rw [if_neg hB]
    by_cases hT : st.grid r c = TREE
    · have h := update_at_tree cfg draws st r c hr hc hT
      rw [h.2, h.1]
      split_ifs with h1 h2 h3
      · rfl
      · exact absurd ⟨hT, rfl⟩ h2
      · exact absurd h3.2 (by decide)
      · rfl
    · rw [if_neg (fun hx => hT hx.1), (update_at_other cfg draws st r c hr hc hB hT).2]

/-! ## Claims about a single cell of `update` -/

/-- C1: for a cell holding `TREE`, with `d` the draw in `[0,100)` that `update` takes when it
reaches the cell, the next cell is `BURNING` exactly when the tree-or-burning neighbour count
`t` is positive, `100 * b ≥ neighbor_effect * t` for the burning neighbour count `b`, and
`d < catch_fire_percent`; in that case the burn counter is set to 0, and in every other case
the next cell is `TREE` and the burn counter is unchanged. -/
theorem C1_tree_ignition (cfg : Config) (draws : Nat → Nat) (st : State) (r c d : Nat)
    (hr : r < cfg.size) (hc : c < cfg.size) (hT : st.grid r c = TREE)
    (hdraw : draws (update_before cfg draws r c st).rng % 100 = d) :
    ((update cfg draws st).next r c = BURNING ∧ (update cfg draws st).burn_counter r c = 0
        ↔ (count_tree_neighbors cfg.size st.grid r c > 0
            ∧ 100 * count_burning_neighbors cfg.size st.grid r c
                ≥ cfg.neighbor_effect * count_tree_neighbors cfg.size st.grid r c
            ∧ (d : Int) < cfg.catch_fire_percent))
      ∧ (¬(count_tree_neighbors cfg.size st.grid r c > 0
            ∧ 100 * count_burning_neighbors cfg.size st.grid r c
                ≥ cfg.neighbor_effect * count_tree_neighbors cfg.size st.grid r c
            ∧ (d : Int) < cfg.catch_fire_percent)
          → (update cfg draws st).next r c = TREE
            ∧ (update cfg draws st).burn_counter r c = st.burn_counter r c) := by
  have h := update_at_tree cfg draws st r c hr hc hT
  rw [hdraw] at h
  rw [h.1, h.2]
  constructor
  · constructor
    · intro hx
      by_contra hcon
      rw [if_neg hcon] at hx
      exact absurd hx.1 (by decide)
    · intro hx
      rw [if_pos hx, if_pos hx]
      exact ⟨rfl, rfl⟩
  · intro hx
    rw [if_neg hx, if_neg hx]
    exact ⟨rfl, rfl⟩

theorem lightning_strike_counter (cfg : Config) (draws : Nat → Nat) (st : State) (i j : Int)
    (hT : st.grid i j = TREE) (hB : (lightning cfg draws st).grid i j = BURNING) :
    (lightning cfg draws st).burn_counter i j = 0 := by
  have hTB : ¬ (TREE = BURNING) := by decide
  unfold lightning at hB ⊢
  dsimp only at hB ⊢
  by_cases h1 : cfg.lightning_active ≠ 0
  · rw [if_pos h1] at hB ⊢
    by_cases h2 : double_div (draws st.rng) RAND_MAX < cfg.lightning_chance
    · rw [if_pos h2] at hB ⊢
      by_cases h3 : st.grid ((draws (st.rng + 1) % cfg.size : Nat) : Int)
          ((draws (st.rng + 2) % cfg.size : Nat) : Int) = TREE
      · rw [if_pos h3] at hB ⊢
        by_cases hcell : i = ((draws (st.rng + 1) % cfg.size : Nat) : Int)
            ∧ j = ((draws (st.rng + 2) % cfg.size : Nat) : Int)
        · show setCell st.burn_counter _ _ 0 i j = 0
          rw [hcell.1, hcell.2, setCell_same]
        · have hB2 : setCell st.grid _ _ BURNING i j = BURNING := hB
          rw [setCell_other _ _ _ _ _ _ hcell, hT] at hB2
          exact absurd hB2 hTB
      · rw [if_neg h3] at hB
        have hB2 : st.grid i j = BURNING := hB
        rw [hT] at hB2
        exact absurd hB2 hTB
    · rw [if_neg h2] at hB
      have hB2 : st.grid i j = BURNING := hB
      rw [hT] at hB2
      exact absurd hB2 hTB
  · rw [if_neg h1] at hB
    rw [hT] at hB
    exact absurd hB hTB

theorem run_start_counter (cfg : Config) (init : InitState) (next burn_counter : Grid)
    (r c : Nat) (hr : r < cfg.size) (hc : c < cfg.size) :
    (run_start cfg init next burn_counter).burn_counter r c = 0 := by
  unfold run_start
  rw [forRC_at (fun s : State => s.burn_counter r c) cfg.size zero_counter r c hr hc
    (fun i j s h => setCell_other _ _ _ _ _ _ (by omega)) _]
  exact setCell_same _ _ _ _

/-- C9: with `neighbor_effect = 100`, a `TREE` cell that has a neighbour in state `TREE`
stays `TREE` in the next grid whatever the draws are, its burn counter is unchanged, and the
pass of `update` at that cell makes no call of `rand()`. -/
theorem C9_threshold_gate (cfg : Config) (draws : Nat → Nat) (st : State) (r c : Nat)
    (i j : Int) (hr : r < cfg.size) (hc : c < cfg.size)
    (hne : cfg.neighbor_effect = 100) (hT : st.grid r c = TREE)
    (hi : 0 ≤ i ∧ i < (cfg.size : Int)) (hj : 0 ≤ j ∧ j < (cfg.size : Int))
    (hadj : adjacent i j r c) (hN : st.grid i j = TREE) :
    (update cfg draws st).next r c = TREE
      ∧ (update cfg draws st).burn_counter r c = st.burn_counter r c
      ∧ (update_cell cfg draws r c (update_before cfg draws r c st)).rng
          = (update_before cfg draws r c st).rng := by
  have hlt := count_burning_lt_tree cfg.size st.grid r c i j hi hj hadj hN
  have hgate : ¬ (100 * count_burning_neighbors cfg.size st.grid r c
      ≥ cfg.neighbor_effect * count_tree_neighbors cfg.size st.grid r c) := by
    rw [hne]; omega
  have h := update_at_tree cfg draws st r c hr hc hT
  have hT2 : (update_before cfg draws r c st).grid r c = TREE := by
    rw [update_before_grid]; exact hT
  have h2 := update_cell_tree cfg draws r c _ hT2
  rw [update_before_grid] at h2
  refine ⟨?_, ?_, ?_⟩
  · rw [h.1, if_neg (fun hx => hgate hx.2.1)]
  · rw [h.2, if_neg (fun hx => hgate hx.2.1)]
  · rw [h2.2.2.2, if_neg (fun hx => hgate hx.2)]

/-- C10: a `TREE` cell whose tree-or-burning neighbour count is 0 is `TREE` in the next grid,
its burn counter is unchanged, and the pass of `update` at that cell leaves the change count
(and the number of draws taken) as it was, for every configuration and draw. -/
theorem C10_isolated_tree (cfg : Config) (draws : Nat → Nat) (st : State) (r c : Nat)
    (hr : r < cfg.size) (hc : c < cfg.size) (hT : st.grid r c = TREE)
    (ht : count_tree_neighbors cfg.size st.grid r c = 0) :
    (update cfg draws st).next r c = TREE
      ∧ (update cfg draws st).burn_counter r c = st.burn_counter r c
      ∧ (update_cell cfg draws r c (update_before cfg draws r c st)).changes
          = (update_before cfg draws r c st).changes
      ∧ (update_cell cfg draws r c (update_before cfg draws r c st)).rng
          = (update_before cfg draws r c st).rng := by
  have hgate : ¬ (count_tree_neighbors cfg.size st.grid r c > 0) := by rw [ht]; decide
  have h := update_at_tree cfg draws st r c hr hc hT
  have hT2 : (update_before cfg draws r c st).grid r c = TREE := by
    rw [update_before_grid]; exact hT
  have h2 := update_cell_tree cfg draws r c _ hT2
  rw [update_before_grid] at h2
  refine ⟨?_, ?_, ?_, ?_⟩
  · rw [h.1, if_neg (fun hx => hgate hx.1)]
  · rw [h.2, if_neg (fun hx => hgate hx.1)]
  · rw [h2.2.2.1, if_neg (fun hx => hgate hx.1)]
  · rw [h2.2.2.2, if_neg (fun hx => hgate hx.1)]

/-! ## Instances of the claims with hypotheses -/

theorem C1_tree_ignition_witness :
    ((update defaultConfig (fun _ => 7) sampleState).next (0 : Nat) (0 : Nat) = BURNING
        ∧ (update defaultConfig (fun _ => 7) sampleState).burn_counter (0 : Nat) (0 : Nat) = 0
        ↔ (count_tree_neighbors defaultConfig.size sampleState.grid (0 : Nat) (0 : Nat) > 0
            ∧ 100 * count_burning_neighbors defaultConfig.size sampleState.grid
                  (0 : Nat) (0 : Nat)
                ≥ defaultConfig.neighbor_effect
                  * count_tree_neighbors defaultConfig.size sampleState.grid (0 : Nat) (0 : Nat)
            ∧ ((7 : Nat) : Int) < defaultConfig.catch_fire_percent))
      ∧ (¬(count_tree_neighbors defaultConfig.size sampleState.grid (0 : Nat) (0 : Nat) > 0
            ∧ 100 * count_burning_neighbors defaultConfig.size sampleState.grid
                  (0 : Nat) (0 : Nat)
                ≥ defaultConfig.neighbor_effect
                  * count_tree_neighbors defaultConfig.size sampleState.grid (0 : Nat) (0 : Nat)
            ∧ ((7 : Nat) : Int) < defaultConfig.catch_fire_percent)
          → (update defaultConfig (fun _ => 7) sampleState).next (0 : Nat) (0 : Nat) = TREE
            ∧ (update defaultConfig (fun _ => 7) sampleState).burn_counter (0 : Nat) (0 : Nat)
                = sampleState.burn_counter (0 : Nat) (0 : Nat)) :=
  C1_tree_ignition defaultConfig (fun _ => 7) sampleState 0 0 7 (by decide) (by decide)
    (by decide) rfl

theorem C9_threshold_gate_witness :
    (update fullGateConfig (fun _ => 7) sampleState).next (0 : Nat) (0 : Nat) = TREE
      ∧ (update fullGateConfig (fun _ => 7) sampleState).burn_counter (0 : Nat) (0 : Nat)
          = sampleState.burn_counter (0 : Nat) (0 : Nat)
      ∧ (update_cell fullGateConfig (fun _ => 7) 0 0
            (update_before fullGateConfig (fun _ => 7) 0 0 sampleState)).rng
          = (update_before fullGateConfig (fun _ => 7) 0 0 sampleState).rng :=
  C9_threshold_gate fullGateConfig (fun _ => 7) sampleState 0 0 1 0 (by decide) (by decide)
    rfl (by decide) (by decide) (by decide)
    ((adjacent_iff 1 0 ((0 : Nat) : Int) ((0 : Nat) : Int)).mpr (by decide)) (by decide)

theorem C10_isolated_tree_witness :
    (update defaultConfig (fun _ => 7) isolatedState).next (0 : Nat) (0 : Nat) = TREE
      ∧ (update defaultConfig (fun _ => 7) isolatedState).burn_counter (0 : Nat) (0 : Nat)
          = isolatedState.burn_counter (0 : Nat) (0 : Nat)
      ∧ (update_cell defaultConfig (fun _ => 7) 0 0
            (update_before defaultConfig (fun _ => 7) 0 0 isolatedState)).changes
          = (update_before defaultConfig (fun _ => 7) 0 0 isolatedState).changes
      ∧ (update_cell defaultConfig (fun _ => 7) 0 0
            (update_before defaultConfig (fun _ => 7) 0 0 isolatedState)).rng
          = (update_before defaultConfig (fun _ => 7) 0 0 isolatedState).rng :=
  C10_isolated_tree defaultConfig (fun _ => 7) isolatedState 0 0 (by decide) (by decide)
    (by decide) (by decide)

/-! ## The synchronous step -/

/-- C8 as stated fails: the states `sampleState` and `hotState` have the same grid (hence
the same 3×3 neighbourhood of `(0, 1)`) and `update` runs on the same draws, but the cell
`(0, 1)` of `next` is `BURNING` for the first and `BURNED` for the second, because the burn
counter of the cell differs. -/
theorem C8_counterexample :
    sampleState.grid = hotState.grid
      ∧ (update defaultConfig (fun _ => 7) sampleState).next (0 : Nat) (1 : Nat) = BURNING
      ∧ (update defaultConfig (fun _ => 7) hotState).next (0 : Nat) (1 : Nat) = BURNED := by
  refine ⟨rfl, ?_, ?_⟩
  · rw [(update_at_burning defaultConfig (fun _ => 7) sampleState 0 1 (by decide) (by decide)
      (by decide)).1]
    decide
  · rw [(update_at_burning defaultConfig (fun _ => 7) hotState 0 1 (by decide) (by decide)
      (by decide)).1]
    decide

/-- C8, amended: `update` leaves the current grid unchanged; the value it writes to a cell
of `next` is determined by the current grid's values in the cell's 3×3 neighbourhood, by the
cell's own burn counter and by the draw taken at the cell; and the burn counter changes only
at cells that are `BURNING` in the current grid (plus 1) or that ignite (set to 0), cells
outside the array included. -/
theorem C8_synchronous_step (cfg : Config) (draws : Nat → Nat) (st : State) :
    (update cfg draws st).grid = st.grid
      ∧ (∀ (draws2 : Nat → Nat) (st2 : State) (r c : Nat), r < cfg.size → c < cfg.size →
          (∀ i j : Int, 0 ≤ i → i < (cfg.size : Int) → 0 ≤ j → j < (cfg.size : Int) →
            (r : Int) - 1 ≤ i → i ≤ (r : Int) + 1 → (c : Int) - 1 ≤ j → j ≤ (c : Int) + 1 →
            st.grid i j = st2.grid i j) →
          st.burn_counter r c = st2.burn_counter r c →
          draws (update_before cfg draws r c st).rng % 100
            = draws2 (update_before cfg draws2 r c st2).rng % 100 →
          (update cfg draws st).next r c = (update cfg draws2 st2).next r c)
      ∧ (∀ r c : Nat, r < cfg.size → c < cfg.size →
          (update cfg draws st).burn_counter r c
            = (if st.grid r c = BURNING then st.burn_counter r c + 1
                else if st.grid r c = TREE ∧ (update cfg draws st).next r c = BURNING then 0
                else st.burn_counter r c))
      ∧ (∀ i j : Int, ¬(0 ≤ i ∧ i < (cfg.size : Int) ∧ 0 ≤ j ∧ j < (cfg.size : Int)) →
          (update cfg draws st).burn_counter i j = st.burn_counter i j) :=
  ⟨update_grid cfg draws st,
    fun draws2 st2 r c hr hc hg hb hd =>
      update_next_local cfg draws draws2 st st2 r c hr hc hg hb hd,
    fun r c hr hc => update_bc_change cfg draws st r c hr hc,
    fun i j h => (update_outside cfg draws st i j h).2⟩

theorem C8_synchronous_step_witness :
    (update defaultConfig (fun _ => 7) sampleState).next (0 : Nat) (1 : Nat)
      = (update defaultConfig (fun _ => 107) sampleState).next (0 : Nat) (1 : Nat) :=
  (C8_synchronous_step defaultConfig (fun _ => 7) sampleState).2.1 (fun _ => 107) sampleState
    0 1 (by decide) (by decide) (fun _ _ _ _ _ _ _ _ _ _ => rfl) rfl rfl

/-! ## The 5×5 scenario -/

theorem scenario_tree_neighbors :
    ∀ r : Nat, r < 5 → ∀ c : Nat, c < 5 →
      count_tree_neighbors 5 scenarioState.grid r c > 0 := by
  decide

/-- In the scenario every tree ignites in the first application of `update`. -/
theorem scenario_first_step (draws : Nat → Nat) (r c : Nat) (hr : r < 5) (hc : c < 5) :
    (update scenarioConfig draws scenarioState).next r c = BURNING := by
  by_cases hcell : r = 2 ∧ c = 2
  · obtain ⟨h1, h2⟩ := hcell
    subst h1
    subst h2
    rw [(update_at_burning scenarioConfig draws scenarioState 2 2 (by decide) (by decide)
      (by decide)).1]
    decide
  · have hT : scenarioState.grid r c = TREE := by
      show (if (r : Int) = 2 ∧ (c : Int) = 2 then BURNING else TREE) = TREE
      rw [if_neg (by omega)]
    rw [(update_at_tree scenarioConfig draws scenarioState r c hr hc hT).1]
    rw [if_pos]
    refine ⟨scenario_tree_neighbors r hr c hc, ?_, ?_⟩
    · have hb := count_burning_nonneg scenarioConfig.size scenarioState.grid r c
      show 100 * count_burning_neighbors scenarioConfig.size scenarioState.grid r c
        ≥ 0 * count_tree_neighbors scenarioConfig.size scenarioState.grid r c
      omega
    · have hm := Nat.mod_lt (draws (update_before scenarioConfig draws r c scenarioState).rng)
        (by decide : 100 > 0)
      show ((draws (update_before scenarioConfig draws r c scenarioState).rng % 100 : Nat)
        : Int) < 100
      omega

/-- C2 as stated fails: in the scenario the corner `(0, 0)`, which is not one of the eight
neighbours of `(2, 2)`, is `BURNING` in the next grid after one application of `update`
(its proportion of burning neighbours, 0, passes the gate `≥ 0`, and every draw is below
`catch_fire_percent = 100`). -/
theorem C2_counterexample :
    ¬ adjacent 0 0 2 2
      ∧ (update scenarioConfig (fun _ => 0) scenarioState).next (0 : Nat) (0 : Nat)
          = BURNING :=
  ⟨fun h => absurd ((adjacent_iff 0 0 2 2).mp h) (by decide),
    scenario_first_step (fun _ => 0) 0 0 (by decide) (by decide)⟩

/-- C2, amended: in the scenario, for every sequence of draws, one application of `update`
yields a next grid in which all 24 trees have become `BURNING` and `(2, 2)` is still
`BURNING` with burn counter 1; and the third application makes `(2, 2)` `BURNED`. -/
theorem C2_scenario (draws : Nat → Nat) :
    (∀ r c : Nat, r < 5 → c < 5 →
        (update scenarioConfig draws scenarioState).next r c = BURNING)
      ∧ (update scenarioConfig draws scenarioState).burn_counter (2 : Nat) (2 : Nat) = 1
      ∧ (update scenarioConfig draws
          (update_copy scenarioConfig draws
            (update_copy scenarioConfig draws scenarioState))).next (2 : Nat) (2 : Nat)
          = BURNED := by
  have hin : (2 : Nat) < scenarioConfig.size := by decide
  have h1 := update_at_burning scenarioConfig draws scenarioState 2 2 hin hin (by decide)
  have g1 : (update_copy scenarioConfig draws scenarioState).grid (2 : Nat) (2 : Nat)
      = BURNING := by
    rw [update_copy_grid_at scenarioConfig draws scenarioState 2 2 hin hin, h1.1]
    decide
  have b1 : (update_copy scenarioConfig draws scenarioState).burn_counter (2 : Nat) (2 : Nat)
      = 1 := by
    rw [update_copy_bc, h1.2]
    decide
  have h2 := update_at_burning scenarioConfig draws _ 2 2 hin hin g1
  rw [b1] at h2
  have g2 : (update_copy scenarioConfig draws
      (update_copy scenarioConfig draws scenarioState)).grid (2 : Nat) (2 : Nat)
      = BURNING := by
    rw [update_copy_grid_at scenarioConfig draws _ 2 2 hin hin, h2.1]
    decide
  have b2 : (update_copy scenarioConfig draws
      (update_copy scenarioConfig draws scenarioState)).burn_counter (2 : Nat) (2 : Nat)
      = 2 := by
    rw [update_copy_bc, h2.2]
    decide
  have h3 := update_at_burning scenarioConfig draws _ 2 2 hin hin g2
  rw [b2] at h3
  refine ⟨fun r c hr hc => scenario_first_step draws r c hr hc, ?_, ?_⟩
  · rw [h1.2]
    decide
  · rw [h3.1]
    decide

theorem C2_scenario_witness :
    (update scenarioConfig (fun _ => 99) scenarioState).next (4 : Nat) (0 : Nat) = BURNING :=
  (C2_scenario (fun _ => 99)).1 4 0 (by decide) (by decide)

/-! ## One pass of the driver loop -/

/-- The outcome and the resulting state of a pass of the driver loop that is not stopped
by the cycle limit. -/
theorem loop_body_unlimited (cfg : Config) (draws : Nat → Nat) (st : State)
    (hlim : ¬(cfg.max_cycles ≠ -1 ∧ st.current_cycle ≥ cfg.max_cycles)) :
    ((loop_body cfg draws st).1 = Outcome.firesOut
        ↔ noBurning cfg.size
            (lightning cfg draws { clear_next cfg.size st with changes := 0 }).grid)
      ∧ (¬ noBurning cfg.size
            (lightning cfg draws { clear_next cfg.size st with changes := 0 }).grid →
          (loop_body cfg draws st).1 = Outcome.again
          ∧ (∀ r c : Nat, r < cfg.size → c < cfg.size →
              (loop_body cfg draws st).2.grid r c
                = (update cfg draws
                    (lightning cfg draws
                      { clear_next cfg.size st with changes := 0 })).next r c)
          ∧ (loop_body cfg draws st).2.current_cycle
              = (lightning cfg draws
                  { clear_next cfg.size st with changes := 0 }).current_cycle + 1) := by
  unfold loop_body
  rw [if_neg hlim]
  dsimp only
  rw [update_grid]
  by_cases hf : fires_out cfg.size
      (lightning cfg draws { clear_next cfg.size st with changes := 0 }).grid = true
  · rw [if_pos hf]
    have hnb := (fires_out_iff _ _).mp hf
    exact ⟨⟨fun _ => hnb, fun _ => rfl⟩, fun h => absurd hnb h⟩
  · rw [if_neg hf]
    have hnb : ¬ noBurning cfg.size
        (lightning cfg draws { clear_next cfg.size st with changes := 0 }).grid :=
      fun h => hf ((fires_out_iff _ _).mpr h)
    have hne : ¬ (Outcome.again = Outcome.firesOut) := by decide
    refine ⟨⟨fun h => absurd h hne, fun h => absurd h hnb⟩, fun _ => ⟨rfl, ?_, ?_⟩⟩
    · intro r c hr hc
      exact copy_next_grid_at cfg.size _ r c hr hc
    · show (copy_next cfg.size _).current_cycle + 1 = _
      rw [(copy_next_frame cfg.size _).2.2.2.1]
      show (update cfg draws _).current_cycle + 1 = _
      rw [(update_static cfg draws _).1]

theorem lightning_static (cfg : Config) (draws : Nat → Nat) (st : State) :
    (lightning cfg draws st).current_cycle = st.current_cycle := by
  unfold lightning
  dsimp only
  split_ifs <;> rfl

/-- C3 as stated fails: for `lastStageState` (its only fire is in its last stage) under the
default configuration, the next grid written by `update` contains no `BURNING` cell, but the
pass of the driver loop does not halt: the scan looks at the current grid, which still
holds the fire. -/
theorem C3_counterexample :
    noBurning defaultConfig.size
        (update defaultConfig (fun _ => 7)
          (lightning defaultConfig (fun _ => 7)
            { clear_next defaultConfig.size lastStageState with changes := 0 })).next
      ∧ (loop_body defaultConfig (fun _ => 7) lastStageState).1 = Outcome.again := by
  have hl : lightning defaultConfig (fun _ => 7)
      { clear_next defaultConfig.size lastStageState with changes := 0 }
      = { clear_next defaultConfig.size lastStageState with changes := 0 } :=
    lightning_off _ _ _ rfl
  constructor
  · rw [hl]
    intro r c hr hc
    by_cases hcell : r = 0 ∧ c = 1
    · obtain ⟨h1, h2⟩ := hcell
      subst h1
      subst h2
      rw [(update_at_burning defaultConfig (fun _ => 7) _ 0 1 (by decide) (by decide)
        (by decide)).1]
      decide
    · have hE : ({ clear_next defaultConfig.size lastStageState with changes := 0 } : State).grid
          r c = EMPTY := by
        show (if (r : Int) = 0 ∧ (c : Int) = 1 then BURNING else EMPTY) = EMPTY
        rw [if_neg (by omega)]
      rw [(update_at_other defaultConfig (fun _ => 7) _ r c hr hc
        (by rw [hE]; decide) (by rw [hE]; decide)).1, hE]
      decide
  · refine ((loop_body_unlimited defaultConfig (fun _ => 7) lastStageState
      (by decide)).2 ?_).1
    rw [hl]
    intro h
    exact h 0 1 (by decide) (by decide) (by decide)

/-- C3, amended: in a pass of the driver loop that is not stopped by the cycle limit, after
the lightning step and `update` the driver halts as `fires extinguished` if and only if the
current grid (as the lightning step left it) contains no `BURNING` cell; otherwise it copies
`next`, as written by `update`, into the current grid and increments the cycle index. -/
theorem C3_driver_halts (cfg : Config) (draws : Nat → Nat) (st : State)
    (hlim : ¬(cfg.max_cycles ≠ -1 ∧ st.current_cycle ≥ cfg.max_cycles)) :
    ((loop_body cfg draws st).1 = Outcome.firesOut
        ↔ noBurning cfg.size
            (lightning cfg draws { clear_next cfg.size st with changes := 0 }).grid)
      ∧ (¬ noBurning cfg.size
            (lightning cfg draws { clear_next cfg.size st with changes := 0 }).grid →
          (loop_body cfg draws st).1 = Outcome.again
          ∧ (∀ r c : Nat, r < cfg.size → c < cfg.size →
              (loop_body cfg draws st).2.grid r c
                = (update cfg draws
                    (lightning cfg draws
                      { clear_next cfg.size st with changes := 0 })).next r c)
          ∧ (loop_body cfg draws st).2.current_cycle = st.current_cycle + 1) := by
  have h := loop_body_unlimited cfg draws st hlim
  rw [lightning_static] at h
  exact h

theorem C3_driver_halts_witness :
    ((loop_body defaultConfig (fun _ => 7) sampleState).1 = Outcome.firesOut
        ↔ noBurning defaultConfig.size
            (lightning defaultConfig (fun _ => 7)
              { clear_next defaultConfig.size sampleState with changes := 0 }).grid)
      ∧ (¬ noBurning defaultConfig.size
            (lightning defaultConfig (fun _ => 7)
              { clear_next defaultConfig.size sampleState with changes := 0 }).grid →
          (loop_body defaultConfig (fun _ => 7) sampleState).1 = Outcome.again
          ∧ (∀ r c : Nat, r < defaultConfig.size → c < defaultConfig.size →
              (loop_body defaultConfig (fun _ => 7) sampleState).2.grid r c
                = (update defaultConfig (fun _ => 7)
                    (lightning defaultConfig (fun _ => 7)
                      { clear_next defaultConfig.size sampleState with changes := 0 })).next
                    r c)
          ∧ (loop_body defaultConfig (fun _ => 7) sampleState).2.current_cycle
              = sampleState.current_cycle + 1) :=
  C3_driver_halts defaultConfig (fun _ => 7) sampleState (by decide)

/-! ## The neighbourhood query counts the adjacent cells -/

/-- A sum over `0 .. S-1` of a function that vanishes outside the window `k-1 .. k+1`. -/
theorem sum_window_aux (k : Int) (f : Int → Int)
    (hwin : ∀ i : Int, (i < k - 1 ∨ k + 1 < i) → f i = 0) (S : Nat) :
    ∑ i in Finset.range S, f (i : Int)
      = (if 0 ≤ k - 1 ∧ k - 1 < (S : Int) then f (k - 1) else 0)
        + (if 0 ≤ k ∧ k < (S : Int) then f k else 0)
        + (if 0 ≤ k + 1 ∧ k + 1 < (S : Int) then f (k + 1) else 0) := by
  induction S with
  | zero =>
    simp only [Finset.range_zero, Finset.sum_empty, Nat.cast_zero]
    split_ifs <;> omega
  | succ n ih =>
    rw [Finset.sum_range_succ, ih]
    push_cast
    by_cases h1 : (n : Int) = k - 1
    · have e : k - 1 = (n : Int) := h1.symm
      rw [e]
      split_ifs <;> omega
    · by_cases h2 : (n : Int) = k
      · have e : k = (n : Int) := h2.symm
        rw [e]
        split_ifs <;> omega
      · by_cases h3 : (n : Int) = k + 1
        · have e : k + 1 = (n : Int) := h3.symm
          rw [e]
          split_ifs <;> omega
        · rw [hwin n (by omega)]
          split_ifs <;> omega

theorem sum_window (k : Int) (f : Int → Int) (S : Nat)
    (hwin : ∀ i : Int, (i < k - 1 ∨ k + 1 < i) → f i = 0)
    (hrange : ∀ i : Int, (i < 0 ∨ (S : Int) ≤ i) → f i = 0) :
    ∑ i in Finset.range S, f (i : Int) = f (k - 1) + f k + f (k + 1) := by
  rw [sum_window_aux k f hwin S]
  have e : ∀ x : Int, (if 0 ≤ x ∧ x < (S : Int) then f x else 0) = f x := by
    intro x
    split_ifs with h
    · rfl
    · exact (hrange x (by omega)).symm
  rw [e, e, e]

theorem adjInd_row_outside (size : Nat) (g : Grid) (p : Int → Bool) (row col i j : Int)
    (h : i < row - 1 ∨ row + 1 < i ∨ i < 0 ∨ (size : Int) ≤ i) :
    adjInd size g p row col i j = 0 := by
  unfold adjInd
  split_ifs with ha
  · have hx := (adjacent_iff i j row col).mp ha
    exact nbInd_outside size g p i j (by omega)
  · rfl

theorem adjInd_col_outside (size : Nat) (g : Grid) (p : Int → Bool) (row col i j : Int)
    (h : j < col - 1 ∨ col + 1 < j ∨ j < 0 ∨ (size : Int) ≤ j) :
    adjInd size g p row col i j = 0 := by
  unfold adjInd
  split_ifs with ha
  · have hx := (adjacent_iff i j row col).mp ha
    exact nbInd_outside size g p i j (by omega)
  · rfl

theorem adjInd_centre (size : Nat) (g : Grid) (p : Int → Bool) (row col : Int) :
    adjInd size g p row col row col = 0 := by
  unfold adjInd
  rw [if_neg]
  intro ha
  have hx := (adjacent_iff row col row col).mp ha
  exact hx.2.2.2.2 ⟨rfl, rfl⟩

theorem adjInd_adjacent (size : Nat) (g : Grid) (p : Int → Bool) (row col i j : Int)
    (h : -1 ≤ i - row ∧ i - row ≤ 1 ∧ -1 ≤ j - col ∧ j - col ≤ 1 ∧ ¬(i = row ∧ j = col)) :
    adjInd size g p row col i j = nbInd size g p i j := by
  unfold adjInd
  rw [if_pos ((adjacent_iff i j row col).mpr h)]

theorem card_neighboursWith (size : Nat) (g : Grid) (p : Int → Bool) (row col : Int) :
    ((neighboursWith size g p row col).card : Int) = nbSum size g p row col := by
  unfold neighboursWith
  rw [Finset.card_filter, Finset.sum_product]
  push_cast
  have hcell : ∀ i ∈ Finset.range size, ∀ j ∈ Finset.range size,
      (if adjacent (i : Int) (j : Int) row col ∧ p (g i j) = true then (1 : Int) else 0)
        = adjInd size g p row col i j := by
    intro i hi j hj
    have hi' := Finset.mem_range.mp hi
    have hj' := Finset.mem_range.mp hj
    unfold adjInd nbInd
    by_cases ha : adjacent (i : Int) (j : Int) row col
    · by_cases hp : p (g i j) = true
      · rw [if_pos ⟨ha, hp⟩, if_pos ha, if_pos]
        exact ⟨by omega, by omega, by omega, by omega, hp⟩
      · rw [if_neg (fun hx => hp hx.2), if_pos ha, if_neg (fun hx => hp hx.2.2.2.2)]
    · rw [if_neg (fun hx => ha hx.1), if_neg ha]
  rw [Finset.sum_congr rfl (fun i hi => Finset.sum_congr rfl (fun j hj => hcell i hi j hj))]
  have hinner : ∀ i : Int,
      ∑ j in Finset.range size, adjInd size g p row col i (j : Int)
        = adjInd size g p row col i (col - 1) + adjInd size g p row col i col
          + adjInd size g p row col i (col + 1) := by
    intro i
    exact sum_window col (fun j => adjInd size g p row col i j) size
      (fun j hj => adjInd_col_outside size g p row col i j (by omega))
      (fun j hj => adjInd_col_outside size g p row col i j (by omega))
  have e2 : ∑ i in Finset.range size, ∑ j in Finset.range size,
        adjInd size g p row col (i : Int) (j : Int)
      = ∑ i in Finset.range size,
          (fun x : Int => adjInd size g p row col x (col - 1) + adjInd size g p row col x col
            + adjInd size g p row col x (col + 1)) (i : Int) :=
    Finset.sum_congr rfl (fun i _ => hinner (i : Int))
  have hout : ∀ i : Int, (i < row - 1 ∨ row + 1 < i ∨ i < 0 ∨ (size : Int) ≤ i) →
      (fun x : Int => adjInd size g p row col x (col - 1) + adjInd size g p row col x col
        + adjInd size g p row col x (col + 1)) i = 0 := by
    intro i hi
    show adjInd size g p row col i (col - 1) + adjInd size g p row col i col
      + adjInd size g p row col i (col + 1) = 0
    rw [adjInd_row_outside size g p row col i _ hi,
      adjInd_row_outside size g p row col i _ hi,
      adjInd_row_outside size g p row col i _ hi]
    rfl
  rw [e2, sum_window row _ size (fun i hi => hout i (by omega))
    (fun i hi => hout i (by omega))]
  show adjInd size g p row col (row - 1) (col - 1) + adjInd size g p row col (row - 1) col
      + adjInd size g p row col (row - 1) (col + 1)
    + (adjInd size g p row col row (col - 1) + adjInd size g p row col row col
      + adjInd size g p row col row (col + 1))
    + (adjInd size g p row col (row + 1) (col - 1) + adjInd size g p row col (row + 1) col
      + adjInd size g p row col (row + 1) (col + 1)) = nbSum size g p row col
  rw [adjInd_centre, adjInd_adjacent size g p row col (row - 1) (col - 1) (by omega),
    adjInd_adjacent size g p row col (row - 1) col (by omega),
    adjInd_adjacent size g p row col (row - 1) (col + 1) (by omega),
    adjInd_adjacent size g p row col row (col - 1) (by omega),
    adjInd_adjacent size g p row col row (col + 1) (by omega),
    adjInd_adjacent size g p row col (row + 1) (col - 1) (by omega),
    adjInd_adjacent size g p row col (row + 1) col (by omega),
    adjInd_adjacent size g p row col (row + 1) (col + 1) (by omega)]
  unfold nbSum
  omega

theorem nbInd_inside (size : Nat) (g : Grid) (p : Int → Bool) (i j : Int) :
    nbInd size g p i j = 0 ∨ (0 ≤ i ∧ i < (size : Int) ∧ 0 ≤ j ∧ j < (size : Int)) := by
  by_cases h : 0 ≤ i ∧ i < (size : Int) ∧ 0 ≤ j ∧ j < (size : Int)
  · exact Or.inr h
  · exact Or.inl (nbInd_outside size g p i j h)

/-- The tree-or-burning neighbour count is at most 8, at most 5 for a cell on the border of
the array and at most 3 for a corner cell. -/
theorem count_tree_bounds (size : Nat) (g : Grid) (row col : Nat) :
    count_tree_neighbors size g row col ≤ 8
      ∧ ((row = 0 ∨ row + 1 = size ∨ col = 0 ∨ col + 1 = size) →
          count_tree_neighbors size g row col ≤ 5)
      ∧ (((row = 0 ∨ row + 1 = size) ∧ (col = 0 ∨ col + 1 = size)) →
          count_tree_neighbors size g row col ≤ 3) := by
  rw [count_tree_eq]
  unfold nbSum
  have a1 := nbInd_le_one size g isTreeOrBurning ((row : Int) - 1) ((col : Int) - 1)
  have a2 := nbInd_le_one size g isTreeOrBurning ((row : Int) - 1) col
  have a3 := nbInd_le_one size g isTreeOrBurning ((row : Int) - 1) ((col : Int) + 1)
  have a4 := nbInd_le_one size g isTreeOrBurning row ((col : Int) - 1)
  have a5 := nbInd_le_one size g isTreeOrBurning row ((col : Int) + 1)
  have a6 := nbInd_le_one size g isTreeOrBurning ((row : Int) + 1) ((col : Int) - 1)
  have a7 := nbInd_le_one size g isTreeOrBurning ((row : Int) + 1) col
  have a8 := nbInd_le_one size g isTreeOrBurning ((row : Int) + 1) ((col : Int) + 1)
  refine ⟨by omega, ?_, ?_⟩
  · intro h
    rcases h with h | h | h | h
    · have b1 := nbInd_outside size g isTreeOrBurning ((row : Int) - 1) ((col : Int) - 1)
        (by omega)
      have b2 := nbInd_outside size g isTreeOrBurning ((row : Int) - 1) col (by omega)
      have b3 := nbInd_outside size g isTreeOrBurning ((row : Int) - 1) ((col : Int) + 1)
        (by omega)
      omega
    · have b1 := nbInd_outside size g isTreeOrBurning ((row : Int) + 1) ((col : Int) - 1)
        (by omega)
      have b2 := nbInd_outside size g isTreeOrBurning ((row : Int) + 1) col (by omega)
      have b3 := nbInd_outside size g isTreeOrBurning ((row : Int) + 1) ((col : Int) + 1)
        (by omega)
      omega
    · have b1 := nbInd_outside size g isTreeOrBurning ((row : Int) - 1) ((col : Int) - 1)
        (by omega)
      have b2 := nbInd_outside size g isTreeOrBurning row ((col : Int) - 1) (by omega)
      have b3 := nbInd_outside size g isTreeOrBurning ((row : Int) + 1) ((col : Int) - 1)
        (by omega)
      omega
    · have b1 := nbInd_outside size g isTreeOrBurning ((row : Int) - 1) ((col : Int) + 1)
        (by omega)
      have b2 := nbInd_outside size g isTreeOrBurning row ((col : Int) + 1) (by omega)
      have b3 := nbInd_outside size g isTreeOrBurning ((row : Int) + 1) ((col : Int) + 1)
        (by omega)
      omega
  · intro h
    have c1 := nbInd_inside size g isTreeOrBurning ((row : Int) - 1) ((col : Int) - 1)
    have c2 := nbInd_inside size g isTreeOrBurning ((row : Int) - 1) col
    have c3 := nbInd_inside size g isTreeOrBurning ((row : Int) - 1) ((col : Int) + 1)
    have c4 := nbInd_inside size g isTreeOrBurning row ((col : Int) - 1)
    have c5 := nbInd_inside size g isTreeOrBurning row ((col : Int) + 1)
    have c6 := nbInd_inside size g isTreeOrBurning ((row : Int) + 1) ((col : Int) - 1)
    have c7 := nbInd_inside size g isTreeOrBurning ((row : Int) + 1) col
    have c8 := nbInd_inside size g isTreeOrBurning ((row : Int) + 1) ((col : Int) + 1)
    rcases h with ⟨h1 | h1, h2 | h2⟩ <;> omega

/-- C7: for every coordinate `(row, col)`, `count_burning_neighbors` is the number of
coordinates of the array at Chebyshev distance 1 whose cell is `BURNING`, and
`count_tree_neighbors` the number of those whose cell is `TREE` or `BURNING`; hence
`0 ≤ burning ≤ tree-or-burning ≤ 8`, with at most 3 at a corner and 5 on an edge. -/
theorem C7_neighbor_counts (size : Nat) (g : Grid) (row col : Nat) :
    count_burning_neighbors size g row col
        = ((neighboursWith size g isBurning row col).card : Int)
      ∧ count_tree_neighbors size g row col
        = ((neighboursWith size g isTreeOrBurning row col).card : Int)
      ∧ 0 ≤ count_burning_neighbors size g row col
      ∧ count_burning_neighbors size g row col ≤ count_tree_neighbors size g row col
      ∧ count_tree_neighbors size g row col ≤ 8
      ∧ (((row = 0 ∨ row + 1 = size) ∧ (col = 0 ∨ col + 1 = size)) →
          count_tree_neighbors size g row col ≤ 3)
      ∧ ((row = 0 ∨ row + 1 = size ∨ col = 0 ∨ col + 1 = size) →
          count_tree_neighbors size g row col ≤ 5) := by
  have hb := count_tree_bounds size g row col
  exact ⟨by rw [card_neighboursWith, count_burning_eq],
    by rw [card_neighboursWith, count_tree_eq],
    count_burning_nonneg size g row col, count_burning_le_tree size g row col,
    hb.1, hb.2.2, hb.2.1⟩

theorem C7_neighbor_counts_witness :
    count_burning_neighbors 10 sampleState.grid (0 : Nat) (0 : Nat)
        = ((neighboursWith 10 sampleState.grid isBurning (0 : Nat) (0 : Nat)).card : Int)
      ∧ count_tree_neighbors 10 sampleState.grid (0 : Nat) (0 : Nat)
        = ((neighboursWith 10 sampleState.grid isTreeOrBurning (0 : Nat) (0 : Nat)).card : Int)
      ∧ 0 ≤ count_burning_neighbors 10 sampleState.grid (0 : Nat) (0 : Nat)
      ∧ count_burning_neighbors 10 sampleState.grid (0 : Nat) (0 : Nat)
          ≤ count_tree_neighbors 10 sampleState.grid (0 : Nat) (0 : Nat)
      ∧ count_tree_neighbors 10 sampleState.grid (0 : Nat) (0 : Nat) ≤ 8
      ∧ ((((0 : Nat) = 0 ∨ 0 + 1 = 10) ∧ ((0 : Nat) = 0 ∨ 0 + 1 = 10)) →
          count_tree_neighbors 10 sampleState.grid (0 : Nat) (0 : Nat) ≤ 3)
      ∧ (((0 : Nat) = 0 ∨ 0 + 1 = 10 ∨ (0 : Nat) = 0 ∨ 0 + 1 = 10) →
          count_tree_neighbors 10 sampleState.grid (0 : Nat) (0 : Nat) ≤ 5) :=
  C7_neighbor_counts 10 sampleState.grid 0 0

/-! ## Termination: the burn potential decreases -/

theorem fuelOf_tree (b : Int) : fuelOf TREE b = 3 := by
  unfold fuelOf
  rw [if_pos rfl]

theorem fuelOf_burning (b : Int) : fuelOf BURNING b = (3 - b).toNat := by
  unfold fuelOf
  rw [if_neg (by decide), if_pos rfl]

theorem fuelOf_burned (b : Int) : fuelOf BURNED b = 0 := by
  unfold fuelOf
  rw [if_neg (by decide), if_neg (by decide)]

theorem fuel_step (cfg : Config) (draws : Nat → Nat) (st : State) (r c : Nat)
    (hr : r < cfg.size) (hc : c < cfg.size)
    (hok : st.grid r c = BURNING → 0 ≤ st.burn_counter r c ∧ st.burn_counter r c ≤ 2) :
    fuelOf ((update cfg draws st).next r c) ((update cfg draws st).burn_counter r c)
        ≤ fuelOf (st.grid r c) (st.burn_counter r c)
      ∧ (st.grid r c = BURNING →
          fuelOf ((update cfg draws st).next r c) ((update cfg draws st).burn_counter r c) + 1
            ≤ fuelOf (st.grid r c) (st.burn_counter r c))
      ∧ ((update cfg draws st).next r c = BURNING →
          0 ≤ (update cfg draws st).burn_counter r c
            ∧ (update cfg draws st).burn_counter r c ≤ 2) := by
  have hTB : ¬ (TREE = BURNING) := by decide
  have hDB : ¬ (BURNED = BURNING) := by decide
  by_cases hB : st.grid r c = BURNING
  · have h := update_at_burning cfg draws st r c hr hc hB
    have hk := hok hB
    rw [h.1, h.2, hB, fuelOf_burning]
    by_cases h3 : st.burn_counter r c + 1 ≥ BURN_STAGES
    · rw [if_pos h3, fuelOf_burned]
      unfold BURN_STAGES at h3
      exact ⟨by omega, fun _ => by omega, fun hx => absurd hx hDB⟩
    · rw [if_neg h3, fuelOf_burning]
      unfold BURN_STAGES at h3
      exact ⟨by omega, fun _ => by omega, fun _ => by omega⟩
  · by_cases hT : st.grid r c = TREE
    · have h := update_at_tree cfg draws st r c hr hc hT
      rw [h.1, h.2, hT, fuelOf_tree]
      by_cases hc1 : count_tree_neighbors cfg.size st.grid r c > 0
          ∧ 100 * count_burning_neighbors cfg.size st.grid r c
              ≥ cfg.neighbor_effect * count_tree_neighbors cfg.size st.grid r c
          ∧ ((draws (update_before cfg draws r c st).rng % 100 : Nat) : Int)
              < cfg.catch_fire_percent
      · rw [if_pos hc1, if_pos hc1, fuelOf_burning]
        exact ⟨by omega, fun hx => absurd hx hTB, fun _ => by omega⟩
      · rw [if_neg hc1, if_neg hc1, fuelOf_tree]
        exact ⟨le_refl _, fun hx => absurd hx hTB, fun hx => absurd hx hTB⟩
    · have h := update_at_other cfg draws st r c hr hc hB hT
      rw [h.1, h.2]
      exact ⟨le_refl _, fun hx => absurd hx hB, fun hx => absurd hx hB⟩

/-- One cycle, seen from the cells: if `st2` holds in every cell of the array what `update`
wrote to `next` and to the burn counters from `st`, then the counters stay in range and the
potential does not grow, and it falls when `st` has a burning cell. -/
theorem potential_step (cfg : Config) (draws : Nat → Nat) (st st2 : State)
    (hg : ∀ r c : Nat, r < cfg.size → c < cfg.size →
      st2.grid r c = (update cfg draws st).next r c)
    (hb : ∀ r c : Nat, r < cfg.size → c < cfg.size →
      st2.burn_counter r c = (update cfg draws st).burn_counter r c)
    (hok : countersOk cfg.size st) :
    countersOk cfg.size st2
      ∧ potential cfg.size st2 ≤ potential cfg.size st
      ∧ (¬ noBurning cfg.size st.grid → potential cfg.size st2 + 1 ≤ potential cfg.size st) := by
  have hcell : ∀ q ∈ Finset.range cfg.size ×ˢ Finset.range cfg.size,
      fuelOf (st2.grid q.1 q.2) (st2.burn_counter q.1 q.2)
        ≤ fuelOf (st.grid q.1 q.2) (st.burn_counter q.1 q.2) := by
    intro q hq
    have hq' := Finset.mem_product.mp hq
    have h1 := Finset.mem_range.mp hq'.1
    have h2 := Finset.mem_range.mp hq'.2
    rw [hg q.1 q.2 h1 h2, hb q.1 q.2 h1 h2]
    exact (fuel_step cfg draws st q.1 q.2 h1 h2 (hok q.1 q.2 h1 h2)).1
  refine ⟨?_, Finset.sum_le_sum hcell, ?_⟩
  · intro r c hr hc hB
    rw [hg r c hr hc] at hB
    rw [hb r c hr hc]
    exact (fuel_step cfg draws st r c hr hc (hok r c hr hc)).2.2 hB
  · intro hnb
    unfold noBurning at hnb
    push_neg at hnb
    obtain ⟨r, c, hr, hc, hB⟩ := hnb
    have hlt : potential cfg.size st2 < potential cfg.size st := by
      apply Finset.sum_lt_sum hcell
      refine ⟨(r, c), Finset.mem_product.mpr ⟨Finset.mem_range.mpr hr, Finset.mem_range.mpr hc⟩,
        ?_⟩
      show fuelOf (st2.grid r c) (st2.burn_counter r c)
        < fuelOf (st.grid r c) (st.burn_counter r c)
      rw [hg r c hr hc, hb r c hr hc]
      have := (fuel_step cfg draws st r c hr hc (hok r c hr hc)).2.1 hB
      omega
    omega

theorem potential_update_copy (cfg : Config) (draws : Nat → Nat) (st : State)
    (hok : countersOk cfg.size st) :
    countersOk cfg.size (update_copy cfg draws st)
      ∧ potential cfg.size (update_copy cfg draws st) ≤ potential cfg.size st
      ∧ (¬ noBurning cfg.size st.grid →
          potential cfg.size (update_copy cfg draws st) + 1 ≤ potential cfg.size st) :=
  potential_step cfg draws st _
    (fun r c hr hc => update_copy_grid_at cfg draws st r c hr hc)
    (fun r c _ _ => by rw [update_copy_bc]) hok

theorem potential_iterate (cfg : Config) (draws : Nat → Nat) (st : State)
    (hok : countersOk cfg.size st) (k : Nat)
    (hfire : ∀ i : Nat, i < k → ¬ noBurning cfg.size ((update_copy cfg draws)^[i] st).grid) :
    countersOk cfg.size ((update_copy cfg draws)^[k] st)
      ∧ potential cfg.size ((update_copy cfg draws)^[k] st) + k ≤ potential cfg.size st := by
  induction k with
  | zero => exact ⟨hok, le_refl _⟩
  | succ n ih =>
    have h := ih (fun i hi => hfire i (by omega))
    rw [Function.iterate_succ_apply']
    have hs := potential_update_copy cfg draws _ h.1
    have hd := hs.2.2 (hfire n (by omega))
    exact ⟨hs.1, by omega⟩

theorem fuelOf_le (v b : Int) (hb : v = BURNING → 0 ≤ b) :
    fuelOf v b ≤ 3 * (if isNonEmpty v = true then 1 else 0) := by
  unfold fuelOf isNonEmpty
  by_cases hT : v = TREE
  · rw [if_pos hT, hT]
    decide
  · rw [if_neg hT]
    by_cases hB : v = BURNING
    · have h0 := hb hB
      rw [if_pos hB, hB]
      have hne : decide (BURNING ≠ EMPTY) = true := by decide
      rw [if_pos hne]
      omega
    · rw [if_neg hB]
      omega

theorem potential_le (size : Nat) (st : State)
    (hb : ∀ r c : Nat, r < size → c < size → st.grid r c = BURNING → 0 ≤ st.burn_counter r c) :
    potential size st ≤ 3 * countCells size isNonEmpty st.grid := by
  unfold potential countCells
  rw [Finset.card_filter, Finset.mul_sum]
  apply Finset.sum_le_sum
  intro q hq
  have hq' := Finset.mem_product.mp hq
  exact fuelOf_le _ _ (hb q.1 q.2 (Finset.mem_range.mp hq'.1) (Finset.mem_range.mp hq'.2))

/-- Within `potential` many cycles the grid has no burning cell. -/
theorem exists_noBurning (cfg : Config) (draws : Nat → Nat) (st : State)
    (hok : countersOk cfg.size st) :
    ∃ k : Nat, k ≤ potential cfg.size st
      ∧ noBurning cfg.size ((update_copy cfg draws)^[k] st).grid := by
  by_contra hcon
  push_neg at hcon
  have h := potential_iterate cfg draws st hok (potential cfg.size st + 1)
    (fun i hi => hcon i (by omega))
  omega

/-- A pass of the driver loop with no cycle limit and lightning disabled. -/
theorem loop_body_quiet (cfg : Config) (draws : Nat → Nat) (st : State)
    (hmax : cfg.max_cycles = -1) (hl : cfg.lightning_active = 0) :
    (noBurning cfg.size st.grid →
        ∃ fin : State, loop_body cfg draws st = (Outcome.firesOut, fin)
          ∧ fin.current_cycle = st.current_cycle)
      ∧ (¬ noBurning cfg.size st.grid →
        ∃ st2 : State, loop_body cfg draws st = (Outcome.again, st2)
          ∧ st2.current_cycle = st.current_cycle + 1
          ∧ (∀ r c : Nat, r < cfg.size → c < cfg.size →
              st2.grid r c
                = (update cfg draws { clear_next cfg.size st with changes := 0 }).next r c)
          ∧ (∀ r c : Nat, r < cfg.size → c < cfg.size →
              st2.burn_counter r c
                = (update cfg draws
                    { clear_next cfg.size st with changes := 0 }).burn_counter r c)) := by
  have hlim : ¬(cfg.max_cycles ≠ -1 ∧ st.current_cycle ≥ cfg.max_cycles) :=
    fun h => h.1 hmax
  unfold loop_body
  rw [if_neg hlim]
  dsimp only
  rw [lightning_off cfg draws _ hl, update_grid]
  constructor
  · intro hnb
    have hf : fires_out cfg.size st.grid = true := (fires_out_iff _ _).mpr hnb
    refine ⟨_, if_pos hf, ?_⟩
    exact (update_static cfg draws _).1
  · intro hnb
    have hf : ¬ fires_out cfg.size st.grid = true := fun h => hnb ((fires_out_iff _ _).mp h)
    refine ⟨_, if_neg hf, ?_, ?_, ?_⟩
    · show (copy_next cfg.size _).current_cycle + 1 = _
      rw [(copy_next_frame cfg.size _).2.2.2.1]
      show (update cfg draws _).current_cycle + 1 = _
      rw [(update_static cfg draws _).1]
      rfl
    · intro r c hr hc
      exact copy_next_grid_at cfg.size _ r c hr hc
    · intro r c _ _
      show (copy_next cfg.size _).burn_counter r c = _
      rw [(copy_next_frame cfg.size _).2.1]

/-- With no cycle limit and lightning disabled, the driver loop halts as `fires out` within
`potential` many increments of the cycle index, given enough fuel. -/
theorem run_loop_halts (cfg : Config) (draws : Nat → Nat)
    (hmax : cfg.max_cycles = -1) (hl : cfg.lightning_active = 0) (fuel : Nat) :
    ∀ st : State, countersOk cfg.size st → potential cfg.size st < fuel →
      ∃ fin : State, run_loop cfg draws fuel st = some (Outcome.firesOut, fin)
        ∧ fin.current_cycle ≤ st.current_cycle + (potential cfg.size st : Int) := by
  induction fuel with
  | zero =>
    intro st _ h
    omega
  | succ n ih =>
    intro st hok hpot
    have hq := loop_body_quiet cfg draws st hmax hl
    by_cases hnb : noBurning cfg.size st.grid
    · obtain ⟨fin, hfin, hcyc⟩ := hq.1 hnb
      refine ⟨fin, ?_, ?_⟩
      · unfold run_loop
        rw [hfin]
      · rw [hcyc]
        omega
    · obtain ⟨st2, hst2, hcyc, hg, hb⟩ := hq.2 hnb
      have hstep := potential_step cfg draws
        { clear_next cfg.size st with changes := 0 } st2 hg hb hok
      have hdec : potential cfg.size st2 + 1 ≤ potential cfg.size st := hstep.2.2 hnb
      obtain ⟨fin, hfin, hle⟩ := ih st2 hstep.1 (by omega)
      refine ⟨fin, ?_, ?_⟩
      · unfold run_loop
        rw [hst2]
        exact hfin
      · rw [hcyc] at hle
        omega

/-- C5: from a grid with `N` non-empty cells and all burn counters 0, for every
configuration and every sequence of draws, one of the grids reached by at most `3 * N`
applications of `update` has no `BURNING` cell; and with lightning disabled and no cycle
limit the driver loop of `run_sim` halts (given fuel above `3 * N`) as `fires out`, having
increased the cycle index by at most `3 * N`. -/
theorem C5_termination (cfg : Config) (draws : Nat → Nat) (st : State)
    (hzero : ∀ r c : Nat, r < cfg.size → c < cfg.size → st.burn_counter r c = 0) :
    (∃ k : Nat, k ≤ 3 * countCells cfg.size isNonEmpty st.grid
        ∧ noBurning cfg.size ((update_copy cfg draws)^[k] st).grid)
      ∧ (cfg.max_cycles = -1 → cfg.lightning_active = 0 →
          ∀ fuel : Nat, 3 * countCells cfg.size isNonEmpty st.grid < fuel →
            ∃ fin : State, run_loop cfg draws fuel st = some (Outcome.firesOut, fin)
              ∧ fin.current_cycle
                  ≤ st.current_cycle + 3 * (countCells cfg.size isNonEmpty st.grid : Int)) := by
  have hok : countersOk cfg.size st := by
    intro r c hr hc _
    rw [hzero r c hr hc]
    exact ⟨le_refl _, by decide⟩
  have hpot : potential cfg.size st ≤ 3 * countCells cfg.size isNonEmpty st.grid :=
    potential_le cfg.size st (fun r c hr hc hB => (hok r c hr hc hB).1)
  constructor
  · obtain ⟨k, hk, hnb⟩ := exists_noBurning cfg draws st hok
    exact ⟨k, by omega, hnb⟩
  · intro hmax hl fuel hfuel
    obtain ⟨fin, hfin, hle⟩ := run_loop_halts cfg draws hmax hl fuel st hok (by omega)
    exact ⟨fin, hfin, by omega⟩

/-! ## Grid initialisation -/

theorem countCells_eq_sum (size : Nat) (p : Int → Bool) (g : Grid) :
    countCells size p g
      = ∑ q in Finset.range size ×ˢ Finset.range size,
          (if p (g q.1 q.2) = true then 1 else 0) := by
  unfold countCells
  rw [Finset.card_filter]

/-- The effect of one assignment to a cell of the array on a cell count. -/
theorem countCells_setCell (size : Nat) (p : Int → Bool) (g : Grid) (r c : Nat) (v : Int)
    (hr : r < size) (hc : c < size) :
    countCells size p (setCell g r c v) + (if p (g r c) = true then 1 else 0)
      = countCells size p g + (if p v = true then 1 else 0) := by
  have hmem : (r, c) ∈ Finset.range size ×ˢ Finset.range size :=
    Finset.mem_product.mpr ⟨Finset.mem_range.mpr hr, Finset.mem_range.mpr hc⟩
  rw [countCells_eq_sum, countCells_eq_sum,
    ← Finset.add_sum_erase _ (fun q : Nat × Nat =>
      if p (setCell g r c v q.1 q.2) = true then 1 else 0) hmem,
    ← Finset.add_sum_erase _ (fun q : Nat × Nat => if p (g q.1 q.2) = true then 1 else 0) hmem]
  have hrest : ∑ q in (Finset.range size ×ˢ Finset.range size).erase (r, c),
        (if p (setCell g r c v q.1 q.2) = true then 1 else 0)
      = ∑ q in (Finset.range size ×ˢ Finset.range size).erase (r, c),
        (if p (g q.1 q.2) = true then 1 else 0) := by
    apply Finset.sum_congr rfl
    intro q hq
    have hne : q ≠ (r, c) := (Finset.mem_erase.mp hq).1
    have hne2 : ¬((q.1 : Int) = (r : Int) ∧ (q.2 : Int) = (c : Int)) := by
      intro h
      apply hne
      exact Prod.ext (by exact_mod_cast h.1) (by exact_mod_cast h.2)
    rw [setCell_other _ _ _ _ _ _ hne2]
  rw [hrest]
  show (if p (setCell g r c v r c) = true then 1 else 0) + _ + _ = _
  rw [setCell_same]
  show _ = (if p (g r c) = true then 1 else 0) + _ + _
  omega

theorem clear_grid_at (size : Nat) (g : Grid) (r c : Nat) (hr : r < size) (hc : c < size) :
    forRC size clear_cell g r c = EMPTY := by
  rw [forRC_at (fun x : Grid => x r c) size clear_cell r c hr hc
    (fun i j x h => setCell_other _ _ _ _ _ _ (by omega)) g]
  exact setCell_same _ _ _ _

theorem countCells_zero (size : Nat) (p : Int → Bool) (g : Grid)
    (h : ∀ r c : Nat, r < size → c < size → p (g r c) = false) :
    countCells size p g = 0 := by
  unfold countCells
  rw [Finset.card_eq_zero, Finset.filter_eq_empty_iff]
  intro q hq
  have hq' := Finset.mem_product.mp hq
  rw [h q.1 q.2 (Finset.mem_range.mp hq'.1) (Finset.mem_range.mp hq'.2)]
  decide

theorem init_step_inv (cfg : Config) (draws : Nat → Nat) (T B : Int) (s : InitState)
    (hsize : 0 < cfg.size) (hpos : s.tot_trees > 0) (hinv : initInv cfg.size T B s) :
    initInv cfg.size T B (init_step cfg draws s) := by
  obtain ⟨h1, h2, h3, h4, h5⟩ := hinv
  have hrow : draws s.rng % cfg.size < cfg.size := Nat.mod_lt _ hsize
  have hcol : draws (s.rng + 1) % cfg.size < cfg.size := Nat.mod_lt _ hsize
  unfold init_step
  dsimp only
  by_cases hE : s.grid ((draws s.rng % cfg.size : Nat) : Int)
      ((draws (s.rng + 1) % cfg.size : Nat) : Int) = EMPTY
  · rw [if_pos hE]
    have eN0 : (if isNonEmpty (s.grid ((draws s.rng % cfg.size : Nat) : Int)
        ((draws (s.rng + 1) % cfg.size : Nat) : Int)) = true then 1 else 0) = 0 := by
      rw [hE]; decide
    have eB0 : (if isBurning (s.grid ((draws s.rng % cfg.size : Nat) : Int)
        ((draws (s.rng + 1) % cfg.size : Nat) : Int)) = true then 1 else 0) = 0 := by
      rw [hE]; decide
    have eT0 : (if isTree (s.grid ((draws s.rng % cfg.size : Nat) : Int)
        ((draws (s.rng + 1) % cfg.size : Nat) : Int)) = true then 1 else 0) = 0 := by
      rw [hE]; decide
    by_cases hb : s.tot_burning > 0
    · rw [if_pos hb]
      have cN := countCells_setCell cfg.size isNonEmpty s.grid _ _ BURNING hrow hcol
      have cB := countCells_setCell cfg.size isBurning s.grid _ _ BURNING hrow hcol
      have cT := countCells_setCell cfg.size isTree s.grid _ _ BURNING hrow hcol
      rw [eN0, show (if isNonEmpty BURNING = true then 1 else 0) = 1 by decide] at cN
      rw [eB0, show (if isBurning BURNING = true then 1 else 0) = 1 by decide] at cB
      rw [eT0, show (if isTree BURNING = true then 1 else 0) = 0 by decide] at cT
      unfold initInv
      dsimp only
      refine ⟨by omega, by omega, by omega, by omega, by omega⟩
    · rw [if_neg hb]
      have cN := countCells_setCell cfg.size isNonEmpty s.grid _ _ TREE hrow hcol
      have cB := countCells_setCell cfg.size isBurning s.grid _ _ TREE hrow hcol
      have cT := countCells_setCell cfg.size isTree s.grid _ _ TREE hrow hcol
      rw [eN0, show (if isNonEmpty TREE = true then 1 else 0) = 1 by decide] at cN
      rw [eB0, show (if isBurning TREE = true then 1 else 0) = 0 by decide] at cB
      rw [eT0, show (if isTree TREE = true then 1 else 0) = 1 by decide] at cT
      unfold initInv
      dsimp only
      refine ⟨by omega, by omega, by omega, by omega, by omega⟩
  · rw [if_neg hE]
    exact ⟨h1, h2, h3, h4, h5⟩

theorem init_loop_inv (cfg : Config) (draws : Nat → Nat) (T B : Int) (hsize : 0 < cfg.size)
    (fuel : Nat) :
    ∀ s s2 : InitState, initInv cfg.size T B s → init_loop cfg draws fuel s = some s2 →
      initInv cfg.size T B s2 ∧ s2.tot_trees ≤ 0 := by
  induction fuel with
  | zero =>
    intro s s2 _ h
    exact absurd h (by simp [init_loop])
  | succ n ih =>
    intro s s2 hinv h
    unfold init_loop at h
    by_cases hpos : s.tot_trees > 0
    · rw [if_pos hpos] at h
      exact ih _ s2 (init_step_inv cfg draws T B s hsize hpos hinv) h
    · rw [if_neg hpos] at h
      have e : s = s2 := Option.some.inj h
      rw [← e]
      exact ⟨hinv, by omega⟩

theorem init_start_inv (cfg : Config) (grid : Grid)
    (hD : 0 ≤ cfg.density) (hB : 0 ≤ cfg.burning_percent ∧ cfg.burning_percent ≤ 100) :
    initInv cfg.size
      (cfg.density * ((cfg.size : Int) * (cfg.size : Int)) / 100)
      (cfg.burning_percent
        * (cfg.density * ((cfg.size : Int) * (cfg.size : Int)) / 100) / 100)
      (init_start cfg grid) := by
  have hS : (0 : Int) ≤ (cfg.size : Int) * (cfg.size : Int) :=
    mul_nonneg (Int.ofNat_nonneg _) (Int.ofNat_nonneg _)
  have hDS : 0 ≤ cfg.density * ((cfg.size : Int) * (cfg.size : Int)) := mul_nonneg hD hS
  have hT0 : 0 ≤ cfg.density * ((cfg.size : Int) * (cfg.size : Int)) / 100 :=
    Int.ediv_nonneg hDS (by decide)
  have hBT : 0 ≤ cfg.burning_percent
      * (cfg.density * ((cfg.size : Int) * (cfg.size : Int)) / 100) := mul_nonneg hB.1 hT0
  have e1 : Int.tdiv (cfg.density * ((cfg.size : Int) * (cfg.size : Int))) 100
      = cfg.density * ((cfg.size : Int) * (cfg.size : Int)) / 100 :=
    Int.tdiv_eq_ediv hDS (by decide)
  have e2 : Int.tdiv (cfg.burning_percent
      * (cfg.density * ((cfg.size : Int) * (cfg.size : Int)) / 100)) 100
      = cfg.burning_percent
        * (cfg.density * ((cfg.size : Int) * (cfg.size : Int)) / 100) / 100 :=
    Int.tdiv_eq_ediv hBT (by decide)
  have hcount : ∀ p : Int → Bool, p EMPTY = false →
      countCells cfg.size p (forRC cfg.size clear_cell grid) = 0 := by
    intro p hp
    apply countCells_zero
    intro r c hr hc
    rw [clear_grid_at cfg.size grid r c hr hc, hp]
  unfold initInv init_start
  dsimp only
  rw [e1, e2, hcount isNonEmpty (by decide), hcount isBurning (by decide),
    hcount isTree (by decide)]
  refine ⟨Int.ediv_nonneg hBT (by decide), ?_, by simp, by simp, rfl⟩
  have hle : cfg.burning_percent
      * (cfg.density * ((cfg.size : Int) * (cfg.size : Int)) / 100)
      ≤ 100 * (cfg.density * ((cfg.size : Int) * (cfg.size : Int)) / 100) :=
    mul_le_mul_of_nonneg_right hB.2 hT0
  omega

/-- Under the row-major draws the placement loop places a tree in every pass, so it
finishes within `n + 1` evaluations of its condition when at most `n` trees remain. -/
theorem init_loop_rowMajor (cfg : Config) (hsize : 0 < cfg.size) (n : Nat) :
    ∀ (k : Nat) (s : InitState), s.rng = 2 * k →
      (∀ r c : Nat, r < cfg.size → c < cfg.size → k ≤ r * cfg.size + c →
        s.grid r c = EMPTY) →
      s.tot_trees ≤ (n : Int) → k + n ≤ cfg.size * cfg.size →
      ∃ s2 : InitState, init_loop cfg (rowMajorDraws cfg.size) (n + 1) s = some s2 := by
  induction n with
  | zero =>
    intro k s _ _ htt _
    refine ⟨s, ?_⟩
    unfold init_loop
    rw [if_neg (by omega)]
  | succ m ih =>
    intro k s hrng hempty htt hk
    unfold init_loop
    by_cases hpos : s.tot_trees > 0
    · rw [if_pos hpos]
      have hklt : k < cfg.size * cfg.size := by omega
      have hdiv : k / cfg.size < cfg.size := (Nat.div_lt_iff_lt_mul hsize).mpr hklt
      have hmod : k % cfg.size < cfg.size := Nat.mod_lt _ hsize
      have hrow : rowMajorDraws cfg.size s.rng % cfg.size = k / cfg.size := by
        unfold rowMajorDraws
        rw [hrng, if_pos (by omega), show 2 * k / 2 = k by omega, Nat.mod_eq_of_lt hdiv]
      have hcol : rowMajorDraws cfg.size (s.rng + 1) % cfg.size = k % cfg.size := by
        unfold rowMajorDraws
        rw [hrng, if_neg (by omega), show (2 * k + 1) / 2 = k by omega, Nat.mod_mod]
      have hidx : k / cfg.size * cfg.size + k % cfg.size = k := Nat.div_add_mod' k cfg.size
      have hE : s.grid ((k / cfg.size : Nat) : Int) ((k % cfg.size : Nat) : Int) = EMPTY :=
        hempty _ _ hdiv hmod (by omega)
      have hother : ∀ r c : Nat, k + 1 ≤ r * cfg.size + c →
          ¬((r : Int) = ((k / cfg.size : Nat) : Int)
            ∧ (c : Int) = ((k % cfg.size : Nat) : Int)) := by
        intro r c hrc hx
        have e1 : r = k / cfg.size := by exact_mod_cast hx.1
        have e2 : c = k % cfg.size := by exact_mod_cast hx.2
        rw [e1, e2] at hrc
        omega
      apply ih (k + 1) (init_step cfg (rowMajorDraws cfg.size) s)
      · unfold init_step
        dsimp only
        split_ifs <;> simp only [hrng] <;> omega
      · intro r c hr hc hrc
        unfold init_step
        dsimp only
        rw [hrow, hcol, if_pos hE]
        split_ifs
        · show setCell s.grid _ _ BURNING r c = EMPTY
          rw [setCell_other _ _ _ _ _ _ (hother r c hrc)]
          exact hempty r c hr hc (by omega)
        · show setCell s.grid _ _ TREE r c = EMPTY
          rw [setCell_other _ _ _ _ _ _ (hother r c hrc)]
          exact hempty r c hr hc (by omega)
      · unfold init_step
        dsimp only
        rw [hrow, hcol, if_pos hE]
        split_ifs
        · show s.tot_trees - 1 ≤ (m : Int)
          push_cast at htt
          omega
        · show s.tot_trees - 1 ≤ (m : Int)
          push_cast at htt
          omega
      · omega
    · rw [if_neg hpos]
      exact ⟨s, rfl⟩

/-- For every validated configuration there is a sequence of draws on which `init_grid`
finishes. -/
theorem init_grid_finishes (cfg : Config) (grid : Grid) (hsize : 0 < cfg.size)
    (hD : 0 ≤ cfg.density ∧ cfg.density ≤ 100) :
    ∃ s : InitState,
      init_grid cfg (rowMajorDraws cfg.size) (cfg.size * cfg.size + 1) grid = some s := by
  unfold init_grid
  apply init_loop_rowMajor cfg hsize (cfg.size * cfg.size) 0 (init_start cfg grid) rfl
  · intro r c hr hc _
    exact clear_grid_at cfg.size grid r c hr hc
  · have hS : (0 : Int) ≤ (cfg.size : Int) * (cfg.size : Int) :=
      mul_nonneg (Int.ofNat_nonneg _) (Int.ofNat_nonneg _)
    have hDS : 0 ≤ cfg.density * ((cfg.size : Int) * (cfg.size : Int)) := mul_nonneg hD.1 hS
    have hle : cfg.density * ((cfg.size : Int) * (cfg.size : Int))
        ≤ 100 * ((cfg.size : Int) * (cfg.size : Int)) := mul_le_mul_of_nonneg_right hD.2 hS
    show Int.tdiv (cfg.density * ((cfg.size : Int) * (cfg.size : Int))) 100
      ≤ ((cfg.size * cfg.size : Nat) : Int)
    rw [Int.tdiv_eq_ediv hDS (by decide)]
    push_cast
    omega
  · omega

/-- C6: for `size` in `[5,40]`, `density` and `burning_percent` in `[1,100]` and every
sequence of draws on which the placement loop of `init_grid` finishes (there is one: the
row-major draws), the grid has exactly `floor(D*S*S/100)` non-empty cells, exactly
`floor(B*floor(D*S*S/100)/100)` of them are `BURNING` and all the others are `TREE`; the
burning target does not exceed the tree target. -/
theorem C6_density_invariant (cfg : Config) (grid : Grid)
    (hS : 5 ≤ cfg.size ∧ cfg.size ≤ 40)
    (hD : 1 ≤ cfg.density ∧ cfg.density ≤ 100)
    (hB : 1 ≤ cfg.burning_percent ∧ cfg.burning_percent ≤ 100) :
    (∀ (draws : Nat → Nat) (fuel : Nat) (s : InitState),
        init_grid cfg draws fuel grid = some s →
        (countCells cfg.size isNonEmpty s.grid : Int)
            = cfg.density * ((cfg.size : Int) * (cfg.size : Int)) / 100
          ∧ (countCells cfg.size isBurning s.grid : Int)
            = cfg.burning_percent
                * (cfg.density * ((cfg.size : Int) * (cfg.size : Int)) / 100) / 100
          ∧ countCells cfg.size isTree s.grid + countCells cfg.size isBurning s.grid
            = countCells cfg.size isNonEmpty s.grid)
      ∧ cfg.burning_percent
            * (cfg.density * ((cfg.size : Int) * (cfg.size : Int)) / 100) / 100
          ≤ cfg.density * ((cfg.size : Int) * (cfg.size : Int)) / 100
      ∧ (∃ s : InitState,
          init_grid cfg (rowMajorDraws cfg.size) (cfg.size * cfg.size + 1) grid = some s) := by
  have h0 := init_start_inv cfg grid (by omega) ⟨by omega, hB.2⟩
  have hle : cfg.burning_percent
        * (cfg.density * ((cfg.size : Int) * (cfg.size : Int)) / 100) / 100
      ≤ cfg.density * ((cfg.size : Int) * (cfg.size : Int)) / 100 := by
    have hT0 : 0 ≤ cfg.density * ((cfg.size : Int) * (cfg.size : Int)) / 100 :=
      Int.ediv_nonneg
        (mul_nonneg (by omega) (mul_nonneg (Int.ofNat_nonneg _) (Int.ofNat_nonneg _)))
        (by decide)
    have hm : cfg.burning_percent
        * (cfg.density * ((cfg.size : Int) * (cfg.size : Int)) / 100)
        ≤ 100 * (cfg.density * ((cfg.size : Int) * (cfg.size : Int)) / 100) :=
      mul_le_mul_of_nonneg_right hB.2 hT0
    omega
  refine ⟨?_, hle, init_grid_finishes cfg grid (by omega) ⟨by omega, hD.2⟩⟩
  intro draws fuel s hfin
  obtain ⟨⟨h1, h2, h3, h4, h5⟩, hz⟩ :=
    init_loop_inv cfg draws _ _ (by omega) fuel _ s h0 hfin
  exact ⟨by omega, by omega, h5⟩

theorem C6_density_invariant_witness :
    (countCells tinyConfig.size isNonEmpty
          (init_step tinyConfig (fun _ => 0) (init_start tinyConfig (fun _ _ => 7))).grid : Int)
        = tinyConfig.density * ((tinyConfig.size : Int) * (tinyConfig.size : Int)) / 100
      ∧ (countCells tinyConfig.size isBurning
          (init_step tinyConfig (fun _ => 0) (init_start tinyConfig (fun _ _ => 7))).grid : Int)
        = tinyConfig.burning_percent
            * (tinyConfig.density * ((tinyConfig.size : Int) * (tinyConfig.size : Int)) / 100)
            / 100
      ∧ countCells tinyConfig.size isTree
            (init_step tinyConfig (fun _ => 0) (init_start tinyConfig (fun _ _ => 7))).grid
          + countCells tinyConfig.size isBurning
            (init_step tinyConfig (fun _ => 0) (init_start tinyConfig (fun _ _ => 7))).grid
        = countCells tinyConfig.size isNonEmpty
            (init_step tinyConfig (fun _ => 0) (init_start tinyConfig (fun _ _ => 7))).grid :=
  (C6_density_invariant tinyConfig (fun _ _ => 7) (by decide) (by decide) (by decide)).1
    (fun _ => 0) 2
    (init_step tinyConfig (fun _ => 0) (init_start tinyConfig (fun _ _ => 7))) (by rfl)

theorem C5_termination_witness :
    (∃ k : Nat, k ≤ 3 * countCells defaultConfig.size isNonEmpty sampleState.grid
        ∧ noBurning defaultConfig.size
            ((update_copy defaultConfig (fun _ => 7))^[k] sampleState).grid)
      ∧ (defaultConfig.max_cycles = -1 → defaultConfig.lightning_active = 0 →
          ∀ fuel : Nat, 3 * countCells defaultConfig.size isNonEmpty sampleState.grid < fuel →
            ∃ fin : State,
              run_loop defaultConfig (fun _ => 7) fuel sampleState
                  = some (Outcome.firesOut, fin)
              ∧ fin.current_cycle
                  ≤ sampleState.current_cycle
                    + 3 * (countCells defaultConfig.size isNonEmpty sampleState.grid : Int)) :=
  C5_termination defaultConfig (fun _ => 7) sampleState (fun _ _ _ _ => rfl)

/-! ## The lightning step -/

/-- Every cell is either left as it was by the lightning step, or it was a tree and is now
burning with burn counter 0. -/
theorem lightning_cell (cfg : Config) (draws : Nat → Nat) (st : State) (i j : Int) :
    ((lightning cfg draws st).grid i j = st.grid i j
        ∧ (lightning cfg draws st).burn_counter i j = st.burn_counter i j)
      ∨ (st.grid i j = TREE ∧ (lightning cfg draws st).grid i j = BURNING
        ∧ (lightning cfg draws st).burn_counter i j = 0) := by
  unfold lightning
  dsimp only
  by_cases h1 : cfg.lightning_active ≠ 0
  · rw [if_pos h1]
    by_cases h2 : double_div (draws st.rng) RAND_MAX < cfg.lightning_chance
    · rw [if_pos h2]
      by_cases h3 : st.grid ((draws (st.rng + 1) % cfg.size : Nat) : Int)
          ((draws (st.rng + 2) % cfg.size : Nat) : Int) = TREE
      · rw [if_pos h3]
        by_cases hcell : i = ((draws (st.rng + 1) % cfg.size : Nat) : Int)
            ∧ j = ((draws (st.rng + 2) % cfg.size : Nat) : Int)
        · right
          rw [hcell.1, hcell.2]
          exact ⟨h3, setCell_same _ _ _ _, setCell_same _ _ _ _⟩
        · left
          exact ⟨setCell_other _ _ _ _ _ _ hcell, setCell_other _ _ _ _ _ _ hcell⟩
      · rw [if_neg h3]
        exact Or.inl ⟨rfl, rfl⟩
    · rw [if_neg h2]
      exact Or.inl ⟨rfl, rfl⟩
  · rw [if_neg h1]
    exact Or.inl ⟨rfl, rfl⟩

/-- The lightning step leaves every cell other than the drawn coordinate as it was. -/
theorem lightning_frame (cfg : Config) (draws : Nat → Nat) (st : State) (i j : Int)
    (h : ¬(i = ((draws (st.rng + 1) % cfg.size : Nat) : Int)
      ∧ j = ((draws (st.rng + 2) % cfg.size : Nat) : Int))) :
    (lightning cfg draws st).grid i j = st.grid i j
      ∧ (lightning cfg draws st).burn_counter i j = st.burn_counter i j := by
  unfold lightning
  dsimp only
  split_ifs
  · exact ⟨setCell_other _ _ _ _ _ _ h, setCell_other _ _ _ _ _ _ h⟩
  · exact ⟨rfl, rfl⟩
  · exact ⟨rfl, rfl⟩
  · exact ⟨rfl, rfl⟩

theorem lightning_strike (cfg : Config) (draws : Nat → Nat) (st : State)
    (h1 : cfg.lightning_active ≠ 0)
    (h2 : double_div (draws st.rng) RAND_MAX < cfg.lightning_chance)
    (h3 : st.grid ((draws (st.rng + 1) % cfg.size : Nat) : Int)
      ((draws (st.rng + 2) % cfg.size : Nat) : Int) = TREE) :
    (lightning cfg draws st).grid ((draws (st.rng + 1) % cfg.size : Nat) : Int)
        ((draws (st.rng + 2) % cfg.size : Nat) : Int) = BURNING
      ∧ (lightning cfg draws st).burn_counter ((draws (st.rng + 1) % cfg.size : Nat) : Int)
        ((draws (st.rng + 2) % cfg.size : Nat) : Int) = 0 := by
  unfold lightning
  dsimp only
  rw [if_pos h1, if_pos h2, if_pos h3]
  exact ⟨setCell_same _ _ _ _, setCell_same _ _ _ _⟩

theorem lightning_miss (cfg : Config) (draws : Nat → Nat) (st : State)
    (h : ¬(cfg.lightning_active ≠ 0
      ∧ double_div (draws st.rng) RAND_MAX < cfg.lightning_chance
      ∧ st.grid ((draws (st.rng + 1) % cfg.size : Nat) : Int)
        ((draws (st.rng + 2) % cfg.size : Nat) : Int) = TREE)) :
    (lightning cfg draws st).grid = st.grid
      ∧ (lightning cfg draws st).burn_counter = st.burn_counter := by
  unfold lightning
  dsimp only
  split_ifs with h1 h2 h3
  · exact absurd ⟨h1, h2, h3⟩ h
  · exact ⟨rfl, rfl⟩
  · exact ⟨rfl, rfl⟩
  · exact ⟨rfl, rfl⟩

theorem draw_ratio_nonneg (d : Nat) : ¬ (double_div d RAND_MAX < 0) := by
  have h : (0 : ℚ) ≤ double_div d RAND_MAX := by
    unfold double_div
    split_ifs
    · exact le_refl _
    · exact div_nonneg (Nat.cast_nonneg _) (Nat.cast_nonneg _)
  exact not_lt.mpr h

/-- The quotient `(double)1073741823 / RAND_MAX` rounds to `(2^31 - 1) / 2^32`, above the
exact quotient. -/
theorem double_div_rounds_up :
    double_div 1073741823 RAND_MAX = 2147483647 / 4294967296
      ∧ ((1073741823 : ℚ) / 2147483647 < 2147483647 / 4294967296) := by
  have h : sigShift 1073741823 RAND_MAX 128 0 = 54 := by decide
  have h2 : roundNearestEven (1073741823 * 2 ^ 54) RAND_MAX = 9007199250546688 := by decide
  constructor
  · unfold double_div
    rw [h, h2]
    norm_num
  · norm_num

/-- C13: the lightning step changes at most one cell.  Grid and burn counters stay as they
were at every coordinate other than the drawn one; at the drawn coordinate the cell becomes
`BURNING` with burn counter 0 when lightning is enabled, the probability draw is below
`lightning_chance` and the cell is `TREE`; in every other case, and always when
`lightning_chance = 0`, grid and counters are unchanged. -/
theorem C13_lightning_one_cell (cfg : Config) (draws : Nat → Nat) (st : State) :
    (∀ i j : Int,
        ¬(i = ((draws (st.rng + 1) % cfg.size : Nat) : Int)
          ∧ j = ((draws (st.rng + 2) % cfg.size : Nat) : Int)) →
        (lightning cfg draws st).grid i j = st.grid i j
          ∧ (lightning cfg draws st).burn_counter i j = st.burn_counter i j)
      ∧ ((cfg.lightning_active ≠ 0
            ∧ double_div (draws st.rng) RAND_MAX < cfg.lightning_chance
            ∧ st.grid ((draws (st.rng + 1) % cfg.size : Nat) : Int)
                ((draws (st.rng + 2) % cfg.size : Nat) : Int) = TREE) →
          (lightning cfg draws st).grid ((draws (st.rng + 1) % cfg.size : Nat) : Int)
              ((draws (st.rng + 2) % cfg.size : Nat) : Int) = BURNING
            ∧ (lightning cfg draws st).burn_counter
                ((draws (st.rng + 1) % cfg.size : Nat) : Int)
                ((draws (st.rng + 2) % cfg.size : Nat) : Int) = 0)
      ∧ (¬(cfg.lightning_active ≠ 0
            ∧ double_div (draws st.rng) RAND_MAX < cfg.lightning_chance
            ∧ st.grid ((draws (st.rng + 1) % cfg.size : Nat) : Int)
                ((draws (st.rng + 2) % cfg.size : Nat) : Int) = TREE) →
          (lightning cfg draws st).grid = st.grid
            ∧ (lightning cfg draws st).burn_counter = st.burn_counter)
      ∧ (cfg.lightning_chance = 0 →
          (lightning cfg draws st).grid = st.grid
            ∧ (lightning cfg draws st).burn_counter = st.burn_counter) :=
  ⟨fun i j h => lightning_frame cfg draws st i j h,
    fun h => lightning_strike cfg draws st h.1 h.2.1 h.2.2,
    fun h => lightning_miss cfg draws st h,
    fun h0 => lightning_miss cfg draws st
      (fun h => draw_ratio_nonneg (draws st.rng) (h0 ▸ h.2.1))⟩

theorem C13_lightning_one_cell_witness :
    (lightning stormConfig (fun _ => 0) sampleState).grid 0 0 = BURNING
      ∧ (lightning stormConfig (fun _ => 0) sampleState).burn_counter 0 0 = 0 :=
  (C13_lightning_one_cell stormConfig (fun _ => 0) sampleState).2.1
    ⟨by decide, by norm_num [double_div, stormConfig, defaultConfig], by decide⟩

/-! ## Passes of the driver loop -/

theorem loop_body_eq (cfg : Config) (draws : Nat → Nat) (st : State) :
    loop_body cfg draws st
      = (if cfg.max_cycles ≠ -1 ∧ st.current_cycle ≥ cfg.max_cycles then
          (Outcome.cycleLimit, st)
        else if fires_out cfg.size (cycle_mid cfg draws st).grid then
          (Outcome.firesOut,
            { update cfg draws (cycle_mid cfg draws st) with
              cumulative_changes :=
                (update cfg draws (cycle_mid cfg draws st)).cumulative_changes
                  + (update cfg draws (cycle_mid cfg draws st)).changes })
        else (Outcome.again, driver_cycle cfg draws st)) := by
  unfold loop_body driver_cycle cycle_mid
  dsimp only
  rw [update_grid]

theorem cycle_mid_cell (cfg : Config) (draws : Nat → Nat) (st : State) (i j : Int) :
    ((cycle_mid cfg draws st).grid i j = st.grid i j
        ∧ (cycle_mid cfg draws st).burn_counter i j = st.burn_counter i j)
      ∨ (st.grid i j = TREE ∧ (cycle_mid cfg draws st).grid i j = BURNING
        ∧ (cycle_mid cfg draws st).burn_counter i j = 0) :=
  lightning_cell cfg draws { clear_next cfg.size st with changes := 0 } i j

theorem cycle_mid_off (cfg : Config) (draws : Nat → Nat) (st : State)
    (hl : cfg.lightning_active = 0) :
    (cycle_mid cfg draws st).grid = st.grid
      ∧ (cycle_mid cfg draws st).burn_counter = st.burn_counter
      ∧ (cycle_mid cfg draws st).rng = st.rng := by
  unfold cycle_mid
  rw [lightning_off cfg draws _ hl]
  exact ⟨rfl, rfl, rfl⟩

theorem driver_cycle_grid_at (cfg : Config) (draws : Nat → Nat) (st : State) (r c : Nat)
    (hr : r < cfg.size) (hc : c < cfg.size) :
    (driver_cycle cfg draws st).grid r c
      = (update cfg draws (cycle_mid cfg draws st)).next r c := by
  unfold driver_cycle
  dsimp only
  exact copy_next_grid_at cfg.size _ r c hr hc

theorem driver_cycle_bc (cfg : Config) (draws : Nat → Nat) (st : State) :
    (driver_cycle cfg draws st).burn_counter
      = (update cfg draws (cycle_mid cfg draws st)).burn_counter := by
  unfold driver_cycle
  dsimp only
  rw [(copy_next_frame cfg.size _).2.1]

theorem driver_cycle_index (cfg : Config) (draws : Nat → Nat) (st : State) :
    (driver_cycle cfg draws st).current_cycle = st.current_cycle + 1 := by
  unfold driver_cycle
  dsimp only
  rw [(copy_next_frame cfg.size _).2.2.2.1]
  show (update cfg draws _).current_cycle + 1 = _
  rw [(update_static cfg draws _).1]
  unfold cycle_mid
  rw [lightning_static]
  rfl

/-- A cell whose value is neither `TREE` nor `BURNING` keeps it through the lightning step,
through `update` and through a whole pass of the driver loop. -/
theorem stable_pass (cfg : Config) (draws : Nat → Nat) (st : State) (r c : Nat) (v : Int)
    (hr : r < cfg.size) (hc : c < cfg.size) (hT : v ≠ TREE) (hB : v ≠ BURNING)
    (hv : st.grid r c = v) :
    (lightning cfg draws st).grid r c = v
      ∧ (update cfg draws st).next r c = v
      ∧ (cycle_mid cfg draws st).grid r c = v
      ∧ (driver_cycle cfg draws st).grid r c = v
      ∧ (loop_body cfg draws st).2.grid r c = v := by
  have hl : (lightning cfg draws st).grid r c = v := by
    rcases lightning_cell cfg draws st r c with h | h
    · rw [h.1, hv]
    · exact absurd (hv ▸ h.1) hT
  have hu : ∀ s : State, s.grid r c = v → (update cfg draws s).next r c = v := by
    intro s hs
    rw [(update_at_other cfg draws s r c hr hc (by rw [hs]; exact hB)
      (by rw [hs]; exact hT)).1, hs]
  have hm : (cycle_mid cfg draws st).grid r c = v := by
    rcases cycle_mid_cell cfg draws st r c with h | h
    · rw [h.1, hv]
    · exact absurd (hv ▸ h.1) hT
  have hd : (driver_cycle cfg draws st).grid r c = v := by
    rw [driver_cycle_grid_at cfg draws st r c hr hc]
    exact hu _ hm
  refine ⟨hl, hu st hv, hm, hd, ?_⟩
  rw [loop_body_eq]
  split_ifs
  · exact hv
  · show (update cfg draws (cycle_mid cfg draws st)).grid r c = v
    rw [update_grid]
    exact hm
  · exact hd

theorem stable_cycles (cfg : Config) (draws : Nat → Nat) (st : State) (r c : Nat) (v : Int)
    (hr : r < cfg.size) (hc : c < cfg.size) (hT : v ≠ TREE) (hB : v ≠ BURNING)
    (hv : st.grid r c = v) (k : Nat) :
    ((driver_cycle cfg draws)^[k] st).grid r c = v := by
  induction k with
  | zero => exact hv
  | succ n ih =>
    rw [Function.iterate_succ_apply']
    exact (stable_pass cfg draws _ r c v hr hc hT hB ih).2.2.2.1

/-- C11: a cell that is `BURNED` in the current grid is `BURNED` after the lightning step,
in the next grid written by `update`, in the grid left by a pass of the driver loop however
the pass ends, and in the grid after any number of driver cycles, for every configuration
and all draws. -/
theorem C11_burned_permanent (cfg : Config) (draws : Nat → Nat) (st : State) (r c : Nat)
    (hr : r < cfg.size) (hc : c < cfg.size) (hv : st.grid r c = BURNED) :
    (lightning cfg draws st).grid r c = BURNED
      ∧ (update cfg draws st).next r c = BURNED
      ∧ (loop_body cfg draws st).2.grid r c = BURNED
      ∧ (∀ k : Nat, ((driver_cycle cfg draws)^[k] st).grid r c = BURNED) := by
  have hT : BURNED ≠ TREE := by decide
  have hB : BURNED ≠ BURNING := by decide
  have h := stable_pass cfg draws st r c BURNED hr hc hT hB hv
  exact ⟨h.1, h.2.1, h.2.2.2.2,
    fun k => stable_cycles cfg draws st r c BURNED hr hc hT hB hv k⟩

theorem C11_burned_permanent_witness :
    (lightning stormConfig (fun _ => 0) burnedState).grid (0 : Nat) (0 : Nat) = BURNED
      ∧ (update stormConfig (fun _ => 0) burnedState).next (0 : Nat) (0 : Nat) = BURNED
      ∧ (loop_body stormConfig (fun _ => 0) burnedState).2.grid (0 : Nat) (0 : Nat) = BURNED
      ∧ (∀ k : Nat,
          ((driver_cycle stormConfig (fun _ => 0))^[k] burnedState).grid (0 : Nat) (0 : Nat)
            = BURNED) :=
  C11_burned_permanent stormConfig (fun _ => 0) burnedState 0 0 (by decide) (by decide)
    (by decide)

/-- C12: a cell that is `EMPTY` in the current grid is `EMPTY` after the lightning step, in
the next grid written by `update`, in the grid left by a pass of the driver loop however the
pass ends, and in the grid after any number of driver cycles, for every configuration and
all draws. -/
theorem C12_empty_permanent (cfg : Config) (draws : Nat → Nat) (st : State) (r c : Nat)
    (hr : r < cfg.size) (hc : c < cfg.size) (hv : st.grid r c = EMPTY) :
    (lightning cfg draws st).grid r c = EMPTY
      ∧ (update cfg draws st).next r c = EMPTY
      ∧ (update cfg draws (lightning cfg draws st)).next r c = EMPTY
      ∧ (loop_body cfg draws st).2.grid r c = EMPTY
      ∧ (∀ k : Nat, ((driver_cycle cfg draws)^[k] st).grid r c = EMPTY) := by
  have hT : EMPTY ≠ TREE := by decide
  have hB : EMPTY ≠ BURNING := by decide
  have h := stable_pass cfg draws st r c EMPTY hr hc hT hB hv
  have h2 := stable_pass cfg draws (lightning cfg draws st) r c EMPTY hr hc hT hB h.1
  exact ⟨h.1, h.2.1, h2.2.1, h.2.2.2.2,
    fun k => stable_cycles cfg draws st r c EMPTY hr hc hT hB hv k⟩

theorem C12_empty_permanent_witness :
    (lightning stormConfig (fun _ => 0) burnedState).grid (0 : Nat) (1 : Nat) = EMPTY
      ∧ (update stormConfig (fun _ => 0) burnedState).next (0 : Nat) (1 : Nat) = EMPTY
      ∧ (update stormConfig (fun _ => 0)
          (lightning stormConfig (fun _ => 0) burnedState)).next (0 : Nat) (1 : Nat) = EMPTY
      ∧ (loop_body stormConfig (fun _ => 0) burnedState).2.grid (0 : Nat) (1 : Nat) = EMPTY
      ∧ (∀ k : Nat,
          ((driver_cycle stormConfig (fun _ => 0))^[k] burnedState).grid (0 : Nat) (1 : Nat)
            = EMPTY) :=
  C12_empty_permanent stormConfig (fun _ => 0) burnedState 0 1 (by decide) (by decide)
    (by decide)

/-! ## The cycle limit -/

theorem loop_body_limit (cfg : Config) (draws : Nat → Nat) (st : State)
    (h : cfg.max_cycles ≠ -1 ∧ st.current_cycle ≥ cfg.max_cycles) :
    loop_body cfg draws st = (Outcome.cycleLimit, st) := by
  unfold loop_body
  rw [if_pos h]

theorem cycle_mid_index (cfg : Config) (draws : Nat → Nat) (st : State) :
    (cycle_mid cfg draws st).current_cycle = st.current_cycle := by
  unfold cycle_mid
  rw [lightning_static]
  rfl

/-- Whatever the driver loop returns has a cycle index within the limit. -/
theorem run_loop_index_le (cfg : Config) (draws : Nat → Nat) (m : Int)
    (hm : 0 ≤ m) (hmax : cfg.max_cycles = m) (fuel : Nat) :
    ∀ (st : State) (o : Outcome) (fin : State), st.current_cycle ≤ m →
      run_loop cfg draws fuel st = some (o, fin) → fin.current_cycle ≤ m := by
  induction fuel with
  | zero =>
    intro st o fin _ h
    exact absurd h (by simp [run_loop])
  | succ n ih =>
    intro st o fin hle h
    unfold run_loop at h
    rw [loop_body_eq] at h
    by_cases hlim : cfg.max_cycles ≠ -1 ∧ st.current_cycle ≥ cfg.max_cycles
    · rw [if_pos hlim] at h
      have e := (Prod.mk.inj (Option.some.inj h)).2
      rw [← e]
      exact hle
    · rw [if_neg hlim] at h
      have hlt : st.current_cycle < m := by
        by_contra hcon
        exact hlim ⟨by rw [hmax]; omega, by rw [hmax]; omega⟩
      by_cases hf : fires_out cfg.size (cycle_mid cfg draws st).grid = true
      · rw [if_pos hf] at h
        have e := (Prod.mk.inj (Option.some.inj h)).2
        rw [← e]
        show (update cfg draws (cycle_mid cfg draws st)).current_cycle ≤ m
        rw [(update_static cfg draws _).1, cycle_mid_index]
        exact hle
      · rw [if_neg hf] at h
        refine ih (driver_cycle cfg draws st) o fin ?_ h
        rw [driver_cycle_index]
        omega

/-- With a cycle limit `m` the driver loop returns within `m - current_cycle + 1` passes. -/
theorem run_loop_limit_halts (cfg : Config) (draws : Nat → Nat) (m : Int)
    (hm : 0 ≤ m) (hmax : cfg.max_cycles = m) (n : Nat) :
    ∀ st : State, st.current_cycle ≤ m → m - st.current_cycle ≤ (n : Int) →
      ∃ (o : Outcome) (fin : State), run_loop cfg draws (n + 1) st = some (o, fin) := by
  induction n with
  | zero =>
    intro st hle hn
    refine ⟨Outcome.cycleLimit, st, ?_⟩
    unfold run_loop
    rw [loop_body_limit cfg draws st ⟨by rw [hmax]; omega, by rw [hmax]; omega⟩]
  | succ k ih =>
    intro st hle hn
    unfold run_loop
    rw [loop_body_eq]
    by_cases hlim : cfg.max_cycles ≠ -1 ∧ st.current_cycle ≥ cfg.max_cycles
    · rw [if_pos hlim]
      exact ⟨_, _, rfl⟩
    · rw [if_neg hlim]
      have hlt : st.current_cycle < m := by
        by_contra hcon
        exact hlim ⟨by rw [hmax]; omega, by rw [hmax]; omega⟩
      by_cases hf : fires_out cfg.size (cycle_mid cfg draws st).grid = true
      · rw [if_pos hf]
        exact ⟨_, _, rfl⟩
      · rw [if_neg hf]
        have hi := driver_cycle_index cfg draws st
        exact ih (driver_cycle cfg draws st) (by rw [hi]; omega) (by rw [hi]; push_cast at hn; omega)

theorem run_start_frame (cfg : Config) (init : InitState) (next burn_counter : Grid) :
    (run_start cfg init next burn_counter).current_cycle = 0
      ∧ (run_start cfg init next burn_counter).rng = init.rng
      ∧ (run_start cfg init next burn_counter).grid = init.grid := by
  unfold run_start
  exact forRC_inv
    (fun s : State => s.current_cycle = 0 ∧ s.rng = init.rng ∧ s.grid = init.grid)
    cfg.size zero_counter (fun r c s _ _ hp => hp) _ ⟨rfl, rfl, rfl⟩

/-- C14: with a cycle limit `m ≥ 0`, a pass of the driver loop entered with cycle index at
least `m` stops at once and leaves the state as it is (no lightning step, no `update`, no
draw); whatever the loop returns has a cycle index of at most `m`, and it does return within
`m + 1` passes from cycle index 0.  With `m = 0`, `run_sim` makes exactly one pass: it stops
by the cycle limit in the state in which it entered the loop, with cycle index 0 and with
the number of draws left by `init_grid`. -/
theorem C14_cycle_limit (cfg : Config) (draws : Nat → Nat) (m : Int)
    (hm : 0 ≤ m) (hmax : cfg.max_cycles = m) :
    (∀ st : State, st.current_cycle ≥ m →
        loop_body cfg draws st = (Outcome.cycleLimit, st))
      ∧ (∀ (fuel : Nat) (st : State) (o : Outcome) (fin : State), st.current_cycle ≤ m →
          run_loop cfg draws fuel st = some (o, fin) → fin.current_cycle ≤ m)
      ∧ (∀ (n : Nat) (st : State), st.current_cycle ≤ m → m - st.current_cycle ≤ (n : Int) →
          ∃ (o : Outcome) (fin : State), run_loop cfg draws (n + 1) st = some (o, fin))
      ∧ (m = 0 → ∀ (fuel_init : Nat) (grid next burn_counter : Grid) (init : InitState),
          init_grid cfg draws fuel_init grid = some init →
          run_sim cfg draws fuel_init 1 grid next burn_counter
              = some (Outcome.cycleLimit, run_start cfg init next burn_counter)
            ∧ (run_start cfg init next burn_counter).current_cycle = 0
            ∧ (run_start cfg init next burn_counter).rng = init.rng) := by
  refine ⟨?_, ?_, ?_, ?_⟩
  · intro st hst
    exact loop_body_limit cfg draws st ⟨by rw [hmax]; omega, by rw [hmax]; exact hst⟩
  · intro fuel
    exact run_loop_index_le cfg draws m hm hmax fuel
  · intro n
    exact run_loop_limit_halts cfg draws m hm hmax n
  · intro h0 fuel_init grid next burn_counter init hinit
    have hf := run_start_frame cfg init next burn_counter
    refine ⟨?_, hf.1, hf.2.1⟩
    unfold run_sim
    rw [hinit]
    show run_loop cfg draws 1 (run_start cfg init next burn_counter) = _
    unfold run_loop
    rw [loop_body_limit cfg draws _ ⟨by rw [hmax]; omega, by rw [hmax, hf.1]; omega⟩]

theorem C14_cycle_limit_witness :
    run_sim limitZeroConfig (fun _ => 0) 2 1 (fun _ _ => 7) (fun _ _ => 7) (fun _ _ => 7)
        = some (Outcome.cycleLimit,
            run_start limitZeroConfig
              (init_step limitZeroConfig (fun _ => 0)
                (init_start limitZeroConfig (fun _ _ => 7)))
              (fun _ _ => 7) (fun _ _ => 7))
      ∧ (run_start limitZeroConfig
          (init_step limitZeroConfig (fun _ => 0) (init_start limitZeroConfig (fun _ _ => 7)))
          (fun _ _ => 7) (fun _ _ => 7)).current_cycle = 0
      ∧ (run_start limitZeroConfig
          (init_step limitZeroConfig (fun _ => 0) (init_start limitZeroConfig (fun _ _ => 7)))
          (fun _ _ => 7) (fun _ _ => 7)).rng
        = (init_step limitZeroConfig (fun _ => 0)
            (init_start limitZeroConfig (fun _ _ => 7))).rng :=
  (C14_cycle_limit limitZeroConfig (fun _ => 0) 0 (by decide) rfl).2.2.2 rfl 2
    (fun _ _ => 7) (fun _ _ => 7) (fun _ _ => 7)
    (init_step limitZeroConfig (fun _ => 0) (init_start limitZeroConfig (fun _ _ => 7)))
    (by rfl)

/-! ## Progress of the placement loop -/

theorem countCells_empty_add (size : Nat) (g : Grid) :
    countCells size isEmpty g + countCells size isNonEmpty g = size * size := by
  unfold countCells
  have h : (Finset.range size ×ˢ Finset.range size).filter
        (fun q : Nat × Nat => isNonEmpty (g q.1 q.2) = true)
      = (Finset.range size ×ˢ Finset.range size).filter
        (fun q : Nat × Nat => ¬ (isEmpty (g q.1 q.2) = true)) := by
    apply Finset.filter_congr
    intro q _
    unfold isNonEmpty isEmpty
    simp only [decide_eq_true_eq, ne_eq]
  rw [h, Finset.filter_card_add_filter_neg_card_eq_card, Finset.card_product,
    Finset.card_range]

theorem init_step_hit (cfg : Config) (draws : Nat → Nat) (s : InitState)
    (h : s.grid ((draws s.rng % cfg.size : Nat) : Int)
      ((draws (s.rng + 1) % cfg.size : Nat) : Int) = EMPTY) :
    (init_step cfg draws s).tot_trees = s.tot_trees - 1 := by
  unfold init_step
  dsimp only
  rw [if_pos h]
  split_ifs <;> rfl

theorem init_step_miss (cfg : Config) (draws : Nat → Nat) (s : InitState)
    (h : ¬ s.grid ((draws s.rng % cfg.size : Nat) : Int)
      ((draws (s.rng + 1) % cfg.size : Nat) : Int) = EMPTY) :
    (init_step cfg draws s).grid = s.grid
      ∧ (init_step cfg draws s).tot_trees = s.tot_trees
      ∧ (init_step cfg draws s).tot_burning = s.tot_burning := by
  unfold init_step
  dsimp only
  rw [if_neg h]
  exact ⟨rfl, rfl, rfl⟩

theorem init_step_hit_empty (cfg : Config) (draws : Nat → Nat) (s : InitState)
    (hsize : 0 < cfg.size)
    (h : s.grid ((draws s.rng % cfg.size : Nat) : Int)
      ((draws (s.rng + 1) % cfg.size : Nat) : Int) = EMPTY) :
    countCells cfg.size isEmpty (init_step cfg draws s).grid + 1
      = countCells cfg.size isEmpty s.grid := by
  have hrow : draws s.rng % cfg.size < cfg.size := Nat.mod_lt _ hsize
  have hcol : draws (s.rng + 1) % cfg.size < cfg.size := Nat.mod_lt _ hsize
  have e0 : (if isEmpty (s.grid ((draws s.rng % cfg.size : Nat) : Int)
      ((draws (s.rng + 1) % cfg.size : Nat) : Int)) = true then 1 else 0) = 1 := by
    rw [h]; decide
  unfold init_step
  dsimp only
  rw [if_pos h]
  split_ifs
  · have c := countCells_setCell cfg.size isEmpty s.grid _ _ BURNING hrow hcol
    rw [e0, show (if isEmpty BURNING = true then 1 else 0) = 0 by decide] at c
    exact c
  · have c := countCells_setCell cfg.size isEmpty s.grid _ _ TREE hrow hcol
    rw [e0, show (if isEmpty TREE = true then 1 else 0) = 0 by decide] at c
    exact c

theorem init_pass_inv (cfg : Config) (draws : Nat → Nat) (T B : Int) (hsize : 0 < cfg.size)
    (s : InitState) (hinv : initInv cfg.size T B s) (k : Nat) :
    initInv cfg.size T B ((init_pass cfg draws)^[k] s) := by
  induction k with
  | zero => exact hinv
  | succ n ih =>
    rw [Function.iterate_succ_apply']
    unfold init_pass
    split_ifs with hpos
    · exact init_step_inv cfg draws T B _ hsize hpos ih
    · exact ih

/-- While trees remain to be placed, at least as many cells are empty. -/
theorem initInv_room (size : Nat) (T B : Int) (s : InitState)
    (hT : T ≤ ((size * size : Nat) : Int)) (hinv : initInv size T B s) :
    s.tot_trees ≤ (countCells size isEmpty s.grid : Int) := by
  obtain ⟨_, _, h3, _, _⟩ := hinv
  have h := countCells_empty_add size s.grid
  have h' : (countCells size isEmpty s.grid : Int) + (countCells size isNonEmpty s.grid : Int)
      = ((size * size : Nat) : Int) := by exact_mod_cast h
  omega

theorem init_iter_tot (cfg : Config) (draws : Nat → Nat) (n : Nat) :
    ∀ s : InitState,
      ((init_step cfg draws)^[n] s).tot_trees = s.tot_trees - (init_hits cfg draws n s : Int) := by
  induction n with
  | zero =>
    intro s
    simp [init_hits]
  | succ k ih =>
    intro s
    have e : init_hits cfg draws (k + 1) s
        = (if s.grid ((draws s.rng % cfg.size : Nat) : Int)
              ((draws (s.rng + 1) % cfg.size : Nat) : Int) = EMPTY then 1 else 0)
          + init_hits cfg draws k (init_step cfg draws s) := rfl
    rw [Function.iterate_succ_apply, ih (init_step cfg draws s), e]
    by_cases h : s.grid ((draws s.rng % cfg.size : Nat) : Int)
        ((draws (s.rng + 1) % cfg.size : Nat) : Int) = EMPTY
    · rw [init_step_hit cfg draws s h, if_pos h]
      push_cast
      omega
    · rw [(init_step_miss cfg draws s h).2.1, if_neg h]
      push_cast
      omega

theorem init_loop_of_iter (cfg : Config) (draws : Nat → Nat) (n : Nat) :
    ∀ s : InitState, ((init_step cfg draws)^[n] s).tot_trees ≤ 0 →
      ∃ s2 : InitState, init_loop cfg draws (n + 1) s = some s2 := by
  induction n with
  | zero =>
    intro s h
    refine ⟨s, ?_⟩
    unfold init_loop
    rw [if_neg (by
      have h' : s.tot_trees ≤ 0 := h
      omega)]
  | succ k ih =>
    intro s h
    unfold init_loop
    by_cases hpos : s.tot_trees > 0
    · rw [if_pos hpos]
      rw [Function.iterate_succ_apply] at h
      exact ih _ h
    · rw [if_neg hpos]
      exact ⟨s, rfl⟩

theorem tree_target_le (cfg : Config) (hD : 0 ≤ cfg.density ∧ cfg.density ≤ 100) :
    cfg.density * ((cfg.size : Int) * (cfg.size : Int)) / 100
      ≤ ((cfg.size * cfg.size : Nat) : Int) := by
  have hS : (0 : Int) ≤ (cfg.size : Int) * (cfg.size : Int) :=
    mul_nonneg (Int.ofNat_nonneg _) (Int.ofNat_nonneg _)
  have hle : cfg.density * ((cfg.size : Int) * (cfg.size : Int))
      ≤ 100 * ((cfg.size : Int) * (cfg.size : Int)) := mul_le_mul_of_nonneg_right hD.2 hS
  push_cast
  omega

/-- C15: for `size` in `[5,40]`, `density` and `burning_percent` in `[1,100]`: whenever the
placement loop of `init_grid` finds `tot_trees > 0`, at least `tot_trees` cells (so at least
one) are `EMPTY`; a draw that hits an `EMPTY` cell lowers `tot_trees` by exactly 1 and the
number of empty cells by 1, any other draw leaves grid and targets as they are; and on every
draw sequence whose first `n` coordinate draws contain `tot_trees` hits of empty cells the
loop finishes within `n + 1` evaluations of its condition, with `tot_trees = 0` and exactly
the target number of cells placed. -/
theorem C15_placement_progress (cfg : Config) (grid : Grid)
    (hS : 5 ≤ cfg.size ∧ cfg.size ≤ 40)
    (hD : 1 ≤ cfg.density ∧ cfg.density ≤ 100)
    (hB : 1 ≤ cfg.burning_percent ∧ cfg.burning_percent ≤ 100) :
    (∀ (draws : Nat → Nat) (k : Nat),
        ((init_pass cfg draws)^[k] (init_start cfg grid)).tot_trees > 0 →
        ((init_pass cfg draws)^[k] (init_start cfg grid)).tot_trees
            ≤ (countCells cfg.size isEmpty
                ((init_pass cfg draws)^[k] (init_start cfg grid)).grid : Int)
          ∧ 1 ≤ countCells cfg.size isEmpty
                ((init_pass cfg draws)^[k] (init_start cfg grid)).grid)
      ∧ (∀ (draws : Nat → Nat) (s : InitState),
          s.grid ((draws s.rng % cfg.size : Nat) : Int)
              ((draws (s.rng + 1) % cfg.size : Nat) : Int) = EMPTY →
          (init_step cfg draws s).tot_trees = s.tot_trees - 1
            ∧ countCells cfg.size isEmpty (init_step cfg draws s).grid + 1
                = countCells cfg.size isEmpty s.grid)
      ∧ (∀ (draws : Nat → Nat) (s : InitState),
          ¬ s.grid ((draws s.rng % cfg.size : Nat) : Int)
              ((draws (s.rng + 1) % cfg.size : Nat) : Int) = EMPTY →
          (init_step cfg draws s).grid = s.grid
            ∧ (init_step cfg draws s).tot_trees = s.tot_trees
            ∧ (init_step cfg draws s).tot_burning = s.tot_burning)
      ∧ (∀ (draws : Nat → Nat) (n : Nat),
          (init_start cfg grid).tot_trees
              ≤ (init_hits cfg draws n (init_start cfg grid) : Int) →
          ∃ s2 : InitState, init_grid cfg draws (n + 1) grid = some s2
            ∧ s2.tot_trees = 0
            ∧ (countCells cfg.size isNonEmpty s2.grid : Int)
                = cfg.density * ((cfg.size : Int) * (cfg.size : Int)) / 100) := by
  have hsize : 0 < cfg.size := by omega
  have h0 := init_start_inv cfg grid (by omega) ⟨by omega, hB.2⟩
  have hT := tree_target_le cfg ⟨by omega, hD.2⟩
  refine ⟨?_, ?_, ?_, ?_⟩
  · intro draws k hpos
    have hinv := init_pass_inv cfg draws _ _ hsize _ h0 k
    have hroom := initInv_room cfg.size _ _ _ hT hinv
    exact ⟨hroom, by omega⟩
  · intro draws s h
    exact ⟨init_step_hit cfg draws s h, init_step_hit_empty cfg draws s hsize h⟩
  · intro draws s h
    exact init_step_miss cfg draws s h
  · intro draws n hn
    have htot := init_iter_tot cfg draws n (init_start cfg grid)
    obtain ⟨s2, hs2⟩ := init_loop_of_iter cfg draws n (init_start cfg grid) (by omega)
    obtain ⟨⟨h1, h2, h3, _, _⟩, hz⟩ := init_loop_inv cfg draws _ _ hsize (n + 1) _ s2 h0 hs2
    exact ⟨s2, hs2, by omega, by omega⟩

theorem C15_placement_progress_witness :
    ∃ s2 : InitState, init_grid tinyConfig (fun _ => 0) (1 + 1) (fun _ _ => 7) = some s2
      ∧ s2.tot_trees = 0
      ∧ (countCells tinyConfig.size isNonEmpty s2.grid : Int)
          = tinyConfig.density * ((tinyConfig.size : Int) * (tinyConfig.size : Int)) / 100 :=
  (C15_placement_progress tinyConfig (fun _ _ => 7) (by decide) (by decide)
    (by decide)).2.2.2 (fun _ => 0) 1 (by decide)

/-! ## The option `-p` -/

theorem main_case_p_ok_iff (cfg : Config) (n : Int) :
    (∃ cfg2 : Config, main_case_p cfg n = Except.ok cfg2) ↔ (0 ≤ n ∧ n ≤ 10000) := by
  unfold main_case_p
  dsimp only
  constructor
  · intro h
    obtain ⟨cfg2, h2⟩ := h
    by_contra hcon
    rw [if_pos (by omega)] at h2
    cases h2
  · intro h
    rw [if_neg (by omega)]
    exact ⟨_, rfl⟩

/-- C16: `main` refuses `-p50000` with the range message although 50000 lies in the range
`[0...100000]` that the message documents; the test in the code accepts exactly the values
in `[0, 10000]`. -/
theorem C16_p_option_range :
    main_case_p defaultConfig 50000 = Except.error p_range_message
      ∧ ((0 : Int) ≤ 50000 ∧ (50000 : Int) ≤ 100000)
      ∧ (∀ (cfg : Config) (n : Int),
          (∃ cfg2 : Config, main_case_p cfg n = Except.ok cfg2) ↔ (0 ≤ n ∧ n ≤ 10000)) :=
  ⟨rfl, by decide, fun cfg n => main_case_p_ok_iff cfg n⟩

/-! ## The change count of `update` -/

theorem forRCBefore_succ {σ : Type} (size : Nat) (body : Nat → Nat → σ → σ) (r c : Nat)
    (st : σ) :
    forRCBefore size body r (c + 1) st = body r c (forRCBefore size body r c st) := by
  unfold forRCBefore
  rw [foldl_range_succ]

theorem forRCBefore_row {σ : Type} (size : Nat) (body : Nat → Nat → σ → σ) (r : Nat)
    (st : σ) :
    forRCBefore size body (r + 1) 0 st = forRCBefore size body r size st := by
  unfold forRCBefore
  rw [foldl_range_succ]
  rfl

theorem forRC_eq_before {σ : Type} (size : Nat) (body : Nat → Nat → σ → σ) (st : σ) :
    forRC size body st = forRCBefore size body size 0 st := rfl

/-- A quantity to which the pass at each cell adds `inc r c` has grown by the sum of the
`inc r c` when the loop nest ends. -/
theorem forRC_sum {σ : Type} (proj : σ → Int) (size : Nat) (body : Nat → Nat → σ → σ)
    (inc : Nat → Nat → Int) (st : σ)
    (h : ∀ r c : Nat, r < size → c < size →
      proj (body r c (forRCBefore size body r c st))
        = proj (forRCBefore size body r c st) + inc r c) :
    proj (forRC size body st)
      = proj st + ∑ r in Finset.range size, ∑ c in Finset.range size, inc r c := by
  have hcol : ∀ r : Nat, r < size → ∀ c : Nat, c ≤ size →
      proj (forRCBefore size body r c st)
        = proj (forRCBefore size body r 0 st) + ∑ j in Finset.range c, inc r j := by
    intro r hr c
    induction c with
    | zero =>
      intro _
      simp
    | succ n ih =>
      intro hn
      rw [forRCBefore_succ, h r n hr (by omega), ih (by omega), Finset.sum_range_succ]
      omega
  have hrow : ∀ r : Nat, r ≤ size →
      proj (forRCBefore size body r 0 st)
        = proj st + ∑ i in Finset.range r, ∑ j in Finset.range size, inc i j := by
    intro r
    induction r with
    | zero =>
      intro _
      simp [forRCBefore]
    | succ n ih =>
      intro hn
      rw [forRCBefore_row, hcol n (by omega) size (le_refl _), ih (by omega),
        Finset.sum_range_succ]
      omega
  rw [forRC_eq_before]
  exact hrow size (le_refl _)

theorem update_cell_changes (cfg : Config) (draws : Nat → Nat) (st : State) (r c : Nat)
    (hr : r < cfg.size) (hc : c < cfg.size) :
    (update_cell cfg draws r c (update_before cfg draws r c st)).changes
      = (update_before cfg draws r c st).changes
        + changeOf st.grid (update cfg draws st).next r c := by
  unfold changeOf
  rw [update_next_at cfg draws st r c hr hc]
  by_cases hB : st.grid r c = BURNING
  · have hB2 : (update_before cfg draws r c st).grid r c = BURNING := by
      rw [update_before_grid]; exact hB
    rw [(update_cell_burning cfg draws r c _ hB2).2.2.1, if_pos hB]
  · rw [if_neg hB]
    by_cases hT : st.grid r c = TREE
    · have hT2 : (update_before cfg draws r c st).grid r c = TREE := by
        rw [update_before_grid]; exact hT
      have h := update_cell_tree cfg draws r c _ hT2
      rw [h.1, h.2.2.1]
      have hTB : ¬ (TREE = BURNING) := by decide
      split_ifs with h1 h2 h3
      · rfl
      · exact absurd ⟨hT, rfl⟩ h2
      · exact absurd h3.2 hTB
      · omega
    · have hB2 : (update_before cfg draws r c st).grid r c ≠ BURNING := by
        rw [update_before_grid]; exact hB
      have hT2 : (update_before cfg draws r c st).grid r c ≠ TREE := by
        rw [update_before_grid]; exact hT
      rw [(update_cell_other cfg draws r c _ hB2 hT2).2.2.1, if_neg (fun hx => hT hx.1)]
      omega

theorem sum_changeOf (size : Nat) (g next : Grid) :
    ∑ r in Finset.range size, ∑ c in Finset.range size, changeOf g next r c
      = (countCells size isBurning g : Int) + (countIgnited size g next : Int) := by
  unfold countCells countIgnited
  rw [Finset.card_filter, Finset.card_filter, ← Finset.sum_product']
  push_cast
  rw [← Finset.sum_add_distrib]
  apply Finset.sum_congr rfl
  intro q _
  unfold changeOf isBurning
  have hTB : ¬ (TREE = BURNING) := by decide
  by_cases hB : g q.1 q.2 = BURNING
  · have hnT : ¬ (g q.1 q.2 = TREE ∧ next q.1 q.2 = BURNING) := by
      intro hx
      rw [hB] at hx
      exact hTB hx.1.symm
    rw [if_pos hB, if_pos (decide_eq_true hB), if_neg hnT]
    rfl
  · have hd : ¬ (decide (g q.1 q.2 = BURNING) = true) := fun hx => hB (of_decide_eq_true hx)
    rw [if_neg hB, if_neg hd]
    split_ifs <;> rfl

theorem update_changes (cfg : Config) (draws : Nat → Nat) (st : State) :
    (update cfg draws st).changes
      = (countCells cfg.size isBurning st.grid : Int)
        + (countIgnited cfg.size st.grid (update cfg draws st).next : Int) := by
  have h := forRC_sum (fun s : State => s.changes) cfg.size (update_cell cfg draws)
    (fun r c => changeOf st.grid (update cfg draws st).next r c) { st with changes := 0 }
    (fun r c hr hc => update_cell_changes cfg draws st r c hr hc)
  rw [sum_changeOf] at h
  have h2 : (update cfg draws st).changes
      = 0 + ((countCells cfg.size isBurning st.grid : Int)
        + (countIgnited cfg.size st.grid (update cfg draws st).next : Int)) := h
  omega

/-- C17: the change count that `update` returns is the number of cells that are `BURNING`
in the current grid plus the number of cells that are `TREE` in the current grid and
`BURNING` in the next grid; the pass at a cell adds 1 in these two cases and 0 otherwise
(empty cells, burned cells, trees that do not ignite). -/
theorem C17_change_count (cfg : Config) (draws : Nat → Nat) (st : State) :
    (update cfg draws st).changes
        = (countCells cfg.size isBurning st.grid : Int)
          + (countIgnited cfg.size st.grid (update cfg draws st).next : Int)
      ∧ (∀ r c : Nat, r < cfg.size → c < cfg.size →
          (update_cell cfg draws r c (update_before cfg draws r c st)).changes
            = (update_before cfg draws r c st).changes
              + (if st.grid r c = BURNING then 1
                  else if st.grid r c = TREE ∧ (update cfg draws st).next r c = BURNING then 1
                  else 0)) :=
  ⟨update_changes cfg draws st, fun r c hr hc => update_cell_changes cfg draws st r c hr hc⟩

theorem C17_change_count_witness :
    (update_cell defaultConfig (fun _ => 7) 0 1
        (update_before defaultConfig (fun _ => 7) 0 1 sampleState)).changes
      = (update_before defaultConfig (fun _ => 7) 0 1 sampleState).changes
        + (if sampleState.grid (0 : Nat) (1 : Nat) = BURNING then 1
            else if sampleState.grid (0 : Nat) (1 : Nat) = TREE
                ∧ (update defaultConfig (fun _ => 7) sampleState).next (0 : Nat) (1 : Nat)
                  = BURNING then 1
            else 0) :=
  (C17_change_count defaultConfig (fun _ => 7) sampleState).2 0 1 (by decide) (by decide)

/-! ## Cell states only move forward -/

theorem countCells_congr (size : Nat) (p : Int → Bool) (g1 g2 : Grid)
    (h : ∀ r c : Nat, r < size → c < size → p (g1 r c) = p (g2 r c)) :
    countCells size p g1 = countCells size p g2 := by
  unfold countCells
  congr 1
  apply Finset.filter_congr
  intro q hq
  have hq' := Finset.mem_product.mp hq
  rw [h q.1 q.2 (Finset.mem_range.mp hq'.1) (Finset.mem_range.mp hq'.2)]

/-- The next value of a cell is its current value, or the cell was a tree and burns, or it
was burning and is burned. -/
theorem update_forward (cfg : Config) (draws : Nat → Nat) (st : State) (r c : Nat)
    (hr : r < cfg.size) (hc : c < cfg.size) :
    (update cfg draws st).next r c = st.grid r c
      ∨ (st.grid r c = TREE ∧ (update cfg draws st).next r c = BURNING)
      ∨ (st.grid r c = BURNING ∧ (update cfg draws st).next r c = BURNED) := by
  by_cases hB : st.grid r c = BURNING
  · rw [(update_at_burning cfg draws st r c hr hc hB).1]
    split_ifs
    · exact Or.inr (Or.inr ⟨hB, rfl⟩)
    · exact Or.inl hB.symm
  · by_cases hT : st.grid r c = TREE
    · rw [(update_at_tree cfg draws st r c hr hc hT).1]
      split_ifs
      · exact Or.inr (Or.inl ⟨hT, rfl⟩)
      · exact Or.inl hT.symm
    · exact Or.inl (update_at_other cfg draws st r c hr hc hB hT).1

theorem update_empty_iff (cfg : Config) (draws : Nat → Nat) (st : State) (r c : Nat)
    (hr : r < cfg.size) (hc : c < cfg.size) :
    (update cfg draws st).next r c = EMPTY ↔ st.grid r c = EMPTY := by
  have hTE : ¬ (TREE = EMPTY) := by decide
  have hBE : ¬ (BURNING = EMPTY) := by decide
  have hDE : ¬ (BURNED = EMPTY) := by decide
  rcases update_forward cfg draws st r c hr hc with h | h | h
  · rw [h]
  · rw [h.1, h.2]
    exact ⟨fun hx => absurd hx hBE, fun hx => absurd hx hTE⟩
  · rw [h.1, h.2]
    exact ⟨fun hx => absurd hx hDE, fun hx => absurd hx hBE⟩

/-- C19: each cell of the next grid written by `update` is equal to the current cell, or is
the step `TREE → BURNING` or `BURNING → BURNED`, so its value never decreases; a cell of the
next grid is `EMPTY` exactly when the current cell is, a cell that is `TREE` in the next grid
was `TREE`, and the numbers of empty and of non-empty cells are the same before and after. -/
theorem C19_forward_only (cfg : Config) (draws : Nat → Nat) (st : State) :
    (∀ r c : Nat, r < cfg.size → c < cfg.size →
        ((update cfg draws st).next r c = st.grid r c
          ∨ (st.grid r c = TREE ∧ (update cfg draws st).next r c = BURNING)
          ∨ (st.grid r c = BURNING ∧ (update cfg draws st).next r c = BURNED))
        ∧ st.grid r c ≤ (update cfg draws st).next r c
        ∧ ((update cfg draws st).next r c = EMPTY ↔ st.grid r c = EMPTY)
        ∧ ((update cfg draws st).next r c = TREE → st.grid r c = TREE))
      ∧ countCells cfg.size isEmpty (update cfg draws st).next
          = countCells cfg.size isEmpty st.grid
      ∧ countCells cfg.size isNonEmpty (update cfg draws st).next
          = countCells cfg.size isNonEmpty st.grid := by
  have hBT : ¬ (BURNING = TREE) := by decide
  have hDT : ¬ (BURNED = TREE) := by decide
  refine ⟨?_, ?_, ?_⟩
  · intro r c hr hc
    have hf := update_forward cfg draws st r c hr hc
    refine ⟨hf, ?_, update_empty_iff cfg draws st r c hr hc, ?_⟩
    · rcases hf with h | h | h
      · rw [h]
      · rw [h.1, h.2]
        decide
      · rw [h.1, h.2]
        decide
    · intro hx
      rcases hf with h | h | h
      · rw [← h]
        exact hx
      · rw [h.2] at hx
        exact absurd hx hBT
      · rw [h.2] at hx
        exact absurd hx hDT
  · apply countCells_congr
    intro r c hr hc
    unfold isEmpty
    rw [decide_eq_decide]
    exact update_empty_iff cfg draws st r c hr hc
  · apply countCells_congr
    intro r c hr hc
    unfold isNonEmpty
    rw [decide_eq_decide]
    exact not_congr (update_empty_iff cfg draws st r c hr hc)

theorem C19_forward_only_witness :
    sampleState.grid (0 : Nat) (1 : Nat)
      ≤ (update defaultConfig (fun _ => 7) sampleState).next (0 : Nat) (1 : Nat) :=
  ((C19_forward_only defaultConfig (fun _ => 7) sampleState).1 0 1 (by decide)
    (by decide)).2.1

/-! ## A grid without fire -/

theorem nbInd_noBurning (size : Nat) (g : Grid) (hnb : noBurning size g) (i j : Int) :
    nbInd size g isBurning i j = 0 := by
  unfold nbInd
  rw [if_neg]
  intro h
  obtain ⟨h1, h2, h3, h4, h5⟩ := h
  have hi : ((i.toNat : Nat) : Int) = i := Int.toNat_of_nonneg h1
  have hj : ((j.toNat : Nat) : Int) = j := Int.toNat_of_nonneg h3
  have hcell := hnb i.toNat j.toNat (by omega) (by omega)
  rw [hi, hj] at hcell
  unfold isBurning at h5
  exact hcell (of_decide_eq_true h5)

theorem count_burning_zero (size : Nat) (g : Grid) (hnb : noBurning size g) (row col : Int) :
    count_burning_neighbors size g row col = 0 := by
  rw [count_burning_eq]
  unfold nbSum
  simp only [nbInd_noBurning size g hnb, add_zero]

/-- The pass of `update` at a cell that is not burning and does not roll only copies the
cell into `next`. -/
theorem update_cell_quiet (cfg : Config) (draws : Nat → Nat) (r c : Nat) (s : State)
    (hnB : s.grid r c ≠ BURNING)
    (hq : s.grid r c = TREE →
      ¬(count_tree_neighbors cfg.size s.grid r c > 0
        ∧ 100 * count_burning_neighbors cfg.size s.grid r c
            ≥ cfg.neighbor_effect * count_tree_neighbors cfg.size s.grid r c)) :
    update_cell cfg draws r c s = { s with next := setCell s.next r c (s.grid r c) } := by
  unfold update_cell
  dsimp only
  rw [if_neg hnB]
  by_cases hT : s.grid r c = TREE
  · rw [if_pos hT]
    by_cases ht : count_tree_neighbors cfg.size s.grid r c > 0
    · rw [if_pos ht, if_neg (fun h => hq hT ⟨ht, (gate_iff _ _ _ ht).mp h⟩), hT]
    · rw [if_neg ht, hT]
  · rw [if_neg hT]

theorem update_no_fire (cfg : Config) (draws : Nat → Nat) (st : State)
    (hne : 1 ≤ cfg.neighbor_effect) (hnb : noBurning cfg.size st.grid) :
    (update cfg draws st).grid = st.grid
      ∧ (update cfg draws st).burn_counter = st.burn_counter
      ∧ (update cfg draws st).changes = 0
      ∧ (update cfg draws st).rng = st.rng := by
  unfold update
  refine forRC_inv
    (fun s : State => s.grid = st.grid ∧ s.burn_counter = st.burn_counter ∧ s.changes = 0
      ∧ s.rng = st.rng)
    cfg.size (update_cell cfg draws) ?_ _ ⟨rfl, rfl, rfl, rfl⟩
  intro r c s hr hc hp
  obtain ⟨hg, hb, hch, hrng⟩ := hp
  have hnB : s.grid r c ≠ BURNING := by
    rw [hg]
    exact hnb r c hr hc
  have hq : s.grid r c = TREE →
      ¬(count_tree_neighbors cfg.size s.grid r c > 0
        ∧ 100 * count_burning_neighbors cfg.size s.grid r c
            ≥ cfg.neighbor_effect * count_tree_neighbors cfg.size s.grid r c) := by
    intro _ hx
    rw [hg, count_burning_zero cfg.size st.grid hnb] at hx
    have hpos : 0 < cfg.neighbor_effect * count_tree_neighbors cfg.size st.grid r c :=
      mul_pos (by omega) hx.1
    omega
  show (update_cell cfg draws r c s).grid = st.grid
    ∧ (update_cell cfg draws r c s).burn_counter = st.burn_counter
    ∧ (update_cell cfg draws r c s).changes = 0
    ∧ (update_cell cfg draws r c s).rng = st.rng
  rw [update_cell_quiet cfg draws r c s hnB hq]
  exact ⟨hg, hb, hch, hrng⟩

theorem update_no_fire_next (cfg : Config) (draws : Nat → Nat) (st : State)
    (hne : 1 ≤ cfg.neighbor_effect) (hnb : noBurning cfg.size st.grid) (r c : Nat)
    (hr : r < cfg.size) (hc : c < cfg.size) :
    (update cfg draws st).next r c = st.grid r c := by
  have hnB : st.grid r c ≠ BURNING := hnb r c hr hc
  by_cases hT : st.grid r c = TREE
  · rw [(update_at_tree cfg draws st r c hr hc hT).1, if_neg, hT]
    intro hx
    rw [count_burning_zero cfg.size st.grid hnb] at hx
    have hpos : 0 < cfg.neighbor_effect * count_tree_neighbors cfg.size st.grid r c :=
      mul_pos (by omega) hx.1
    omega
  · exact (update_at_other cfg draws st r c hr hc hnB hT).1

/-- C20: when `neighbor_effect ≥ 1` and the current grid holds no `BURNING` cell, `update`
writes the current grid to `next`, leaves every burn counter as it is, returns a change
count of 0 and takes no draw.  For `neighbor_effect = 0` this fails: in a grid of trees
without fire the tree at `(0, 0)` ignites when `catch_fire_percent = 100`. -/
theorem C20_no_fire_fixed_point (cfg : Config) (draws : Nat → Nat) (st : State)
    (hne : 1 ≤ cfg.neighbor_effect) (hnb : noBurning cfg.size st.grid) :
    (∀ r c : Nat, r < cfg.size → c < cfg.size →
        (update cfg draws st).next r c = st.grid r c)
      ∧ (update cfg draws st).burn_counter = st.burn_counter
      ∧ (update cfg draws st).changes = 0
      ∧ (update cfg draws st).rng = st.rng
      ∧ (noBurning zeroGateConfig.size forestState.grid
        ∧ (update zeroGateConfig draws forestState).next (0 : Nat) (0 : Nat) = BURNING) := by
  have h := update_no_fire cfg draws st hne hnb
  refine ⟨fun r c hr hc => update_no_fire_next cfg draws st hne hnb r c hr hc,
    h.2.1, h.2.2.1, h.2.2.2, ?_, ?_⟩
  · intro r c _ _
    show TREE ≠ BURNING
    decide
  · rw [(update_at_tree zeroGateConfig draws forestState 0 0 (by decide) (by decide)
      rfl).1, if_pos]
    refine ⟨by decide, by decide, ?_⟩
    have hm := Nat.mod_lt (draws (update_before zeroGateConfig draws 0 0 forestState).rng)
      (by decide : 100 > 0)
    show ((draws (update_before zeroGateConfig draws 0 0 forestState).rng % 100 : Nat) : Int)
      < 100
    omega

theorem C20_no_fire_fixed_point_witness :
    (∀ r c : Nat, r < defaultConfig.size → c < defaultConfig.size →
        (update defaultConfig (fun _ => 7) forestState).next r c = forestState.grid r c)
      ∧ (update defaultConfig (fun _ => 7) forestState).burn_counter
          = forestState.burn_counter
      ∧ (update defaultConfig (fun _ => 7) forestState).changes = 0
      ∧ (update defaultConfig (fun _ => 7) forestState).rng = forestState.rng
      ∧ (noBurning zeroGateConfig.size forestState.grid
        ∧ (update zeroGateConfig (fun _ => 7) forestState).next (0 : Nat) (0 : Nat)
            = BURNING) :=
  C20_no_fire_fixed_point defaultConfig (fun _ => 7) forestState (by decide)
    (fun _ _ _ _ => by
      show TREE ≠ BURNING
      decide)

/-! ## The burn counter of a burning cell -/

theorem cycle_mid_countersOk (cfg : Config) (draws : Nat → Nat) (st : State)
    (hok : countersOk cfg.size st) : countersOk cfg.size (cycle_mid cfg draws st) := by
  intro r c hr hc hB
  rcases cycle_mid_cell cfg draws st r c with h | h
  · rw [h.2]
    rw [h.1] at hB
    exact hok r c hr hc hB
  · rw [h.2.2]
    exact ⟨le_refl _, by decide⟩

theorem driver_cycle_countersOk (cfg : Config) (draws : Nat → Nat) (st : State)
    (hok : countersOk cfg.size st) : countersOk cfg.size (driver_cycle cfg draws st) :=
  (potential_step cfg draws (cycle_mid cfg draws st) (driver_cycle cfg draws st)
    (fun r c hr hc => driver_cycle_grid_at cfg draws st r c hr hc)
    (fun r c _ _ => by rw [driver_cycle_bc])
    (cycle_mid_countersOk cfg draws st hok)).1

theorem driver_cycles_countersOk (cfg : Config) (draws : Nat → Nat) (st : State)
    (hok : countersOk cfg.size st) (k : Nat) :
    countersOk cfg.size ((driver_cycle cfg draws)^[k] st) := by
  induction k with
  | zero => exact hok
  | succ n ih =>
    rw [Function.iterate_succ_apply']
    exact driver_cycle_countersOk cfg draws _ ih

/-- Without lightning, a driver cycle moves a burning cell one stage on. -/
theorem driver_cycle_burning (cfg : Config) (draws : Nat → Nat) (st : State) (r c : Nat)
    (hr : r < cfg.size) (hc : c < cfg.size) (hl : cfg.lightning_active = 0) (b : Int)
    (hB : st.grid r c = BURNING) (hb : st.burn_counter r c = b) :
    (driver_cycle cfg draws st).grid r c
        = (if b + 1 ≥ BURN_STAGES then BURNED else BURNING)
      ∧ (driver_cycle cfg draws st).burn_counter r c = b + 1 := by
  have hm := cycle_mid_off cfg draws st hl
  have hB2 : (cycle_mid cfg draws st).grid r c = BURNING := by rw [hm.1]; exact hB
  have h := update_at_burning cfg draws (cycle_mid cfg draws st) r c hr hc hB2
  rw [driver_cycle_grid_at cfg draws st r c hr hc, driver_cycle_bc, h.1, h.2, hm.2.1, hb]
  exact ⟨rfl, rfl⟩

/-- Without lightning, a cell that starts to burn in a driver cycle has burn counter 0. -/
theorem driver_cycle_ignites (cfg : Config) (draws : Nat → Nat) (st : State) (r c : Nat)
    (hr : r < cfg.size) (hc : c < cfg.size) (hl : cfg.lightning_active = 0)
    (hnB : st.grid r c ≠ BURNING) (hB : (driver_cycle cfg draws st).grid r c = BURNING) :
    (driver_cycle cfg draws st).burn_counter r c = 0 := by
  have hm := cycle_mid_off cfg draws st hl
  have hnB2 : (cycle_mid cfg draws st).grid r c ≠ BURNING := by rw [hm.1]; exact hnB
  rw [driver_cycle_grid_at cfg draws st r c hr hc] at hB
  rw [driver_cycle_bc, update_bc_change cfg draws _ r c hr hc, if_neg hnB2]
  by_cases hT : (cycle_mid cfg draws st).grid r c = TREE
  · rw [if_pos ⟨hT, hB⟩]
  · have h := (update_at_other cfg draws _ r c hr hc hnB2 hT).1
    rw [h] at hB
    exact absurd hB hnB2

/-- Without lightning, from a state whose burn counters are 0, a cell burns in exactly
three consecutive grids of the sequence of driver cycles, or in none. -/
theorem three_cycles_or_none (cfg : Config) (draws : Nat → Nat) (st : State) (r c : Nat)
    (hr : r < cfg.size) (hc : c < cfg.size) (hl : cfg.lightning_active = 0)
    (hzero : st.burn_counter r c = 0) :
    (∀ k : Nat, ((driver_cycle cfg draws)^[k] st).grid r c ≠ BURNING)
      ∨ ∃ k0 : Nat, ∀ k : Nat,
          ((driver_cycle cfg draws)^[k] st).grid r c = BURNING ↔ (k0 ≤ k ∧ k < k0 + 3) := by
  by_cases hex : ∃ k : Nat, ((driver_cycle cfg draws)^[k] st).grid r c = BURNING
  · right
    have hDB : ¬ (BURNED = BURNING) := by decide
    have hDT : BURNED ≠ TREE := by decide
    have hfirst := Nat.find_spec hex
    have hmin : ∀ k : Nat, k < Nat.find hex →
        ((driver_cycle cfg draws)^[k] st).grid r c ≠ BURNING :=
      fun k hk => Nat.find_min hex hk
    have hbc : ((driver_cycle cfg draws)^[Nat.find hex] st).burn_counter r c = 0 := by
      rcases Nat.eq_zero_or_pos (Nat.find hex) with h0 | hpos
      · rw [h0]
        exact hzero
      · obtain ⟨j, hj⟩ : ∃ j : Nat, Nat.find hex = j + 1 := ⟨Nat.find hex - 1, by omega⟩
        have hprev := hmin j (by omega)
        rw [hj, Function.iterate_succ_apply'] at hfirst ⊢
        exact driver_cycle_ignites cfg draws _ r c hr hc hl hprev hfirst
    have h1 := driver_cycle_burning cfg draws _ r c hr hc hl 0 hfirst hbc
    rw [← Function.iterate_succ_apply' (driver_cycle cfg draws)] at h1
    have g1 : ((driver_cycle cfg draws)^[Nat.find hex + 1] st).grid r c = BURNING := h1.1
    have h2 := driver_cycle_burning cfg draws _ r c hr hc hl (0 + 1) g1 h1.2
    rw [← Function.iterate_succ_apply' (driver_cycle cfg draws)] at h2
    have g2 : ((driver_cycle cfg draws)^[Nat.find hex + 1 + 1] st).grid r c = BURNING := h2.1
    have h3 := driver_cycle_burning cfg draws _ r c hr hc hl (0 + 1 + 1) g2 h2.2
    rw [← Function.iterate_succ_apply' (driver_cycle cfg draws)] at h3
    have g3 : ((driver_cycle cfg draws)^[Nat.find hex + 1 + 1 + 1] st).grid r c = BURNED :=
      h3.1
    refine ⟨Nat.find hex, ?_⟩
    intro k
    constructor
    · intro hk
      refine ⟨?_, ?_⟩
      · by_contra hlt
        exact hmin k (by omega) hk
      · by_contra hge
        obtain ⟨m, hm⟩ : ∃ m : Nat, k = m + (Nat.find hex + 1 + 1 + 1) :=
          ⟨k - (Nat.find hex + 1 + 1 + 1), by omega⟩
        rw [hm, Function.iterate_add_apply] at hk
        rw [stable_cycles cfg draws _ r c BURNED hr hc hDT (by decide) g3 m] at hk
        exact hDB hk
    · intro hk
      have hcases : k = Nat.find hex ∨ k = Nat.find hex + 1 ∨ k = Nat.find hex + 1 + 1 := by
        omega
      rcases hcases with e | e | e
      · rw [e]; exact hfirst
      · rw [e]; exact g1
      · rw [e]; exact g2
  · left
    intro k hk
    exact hex ⟨k, hk⟩

/-- C18: from a state in which every burn counter is 0, after any number of driver cycles
(lightning step, `update`, copy), for every configuration and all draws, every cell that is
`BURNING` in the current grid has a burn counter in `{0, 1, 2}`; and without lightning every
cell is `BURNING` in exactly three consecutive grids of the sequence of cycles, or in none. -/
theorem C18_burn_counter_invariant (cfg : Config) (draws : Nat → Nat) (st : State)
    (hzero : ∀ r c : Nat, r < cfg.size → c < cfg.size → st.burn_counter r c = 0) :
    (∀ (k r c : Nat), r < cfg.size → c < cfg.size →
        ((driver_cycle cfg draws)^[k] st).grid r c = BURNING →
        0 ≤ ((driver_cycle cfg draws)^[k] st).burn_counter r c
          ∧ ((driver_cycle cfg draws)^[k] st).burn_counter r c ≤ 2)
      ∧ (cfg.lightning_active = 0 → ∀ r c : Nat, r < cfg.size → c < cfg.size →
          ((∀ k : Nat, ((driver_cycle cfg draws)^[k] st).grid r c ≠ BURNING)
            ∨ ∃ k0 : Nat, ∀ k : Nat,
                ((driver_cycle cfg draws)^[k] st).grid r c = BURNING
                  ↔ (k0 ≤ k ∧ k < k0 + 3))) := by
  have hok : countersOk cfg.size st := by
    intro r c hr hc _
    rw [hzero r c hr hc]
    exact ⟨le_refl _, by decide⟩
  exact ⟨fun k r c hr hc hB => driver_cycles_countersOk cfg draws st hok k r c hr hc hB,
    fun hl r c hr hc => three_cycles_or_none cfg draws st r c hr hc hl (hzero r c hr hc)⟩

theorem C18_burn_counter_invariant_witness :
    (∀ k : Nat, ((driver_cycle defaultConfig (fun _ => 7))^[k] sampleState).grid
        (0 : Nat) (1 : Nat) ≠ BURNING)
      ∨ ∃ k0 : Nat, ∀ k : Nat,
          ((driver_cycle defaultConfig (fun _ => 7))^[k] sampleState).grid (0 : Nat) (1 : Nat)
              = BURNING
            ↔ (k0 ≤ k ∧ k < k0 + 3) :=
  (C18_burn_counter_invariant defaultConfig (fun _ => 7) sampleState
    (fun _ _ _ _ => rfl)).2 rfl 0 1 (by decide) (by decide)

/-! ## From ignition to burned, in cycle grids -/

/-- The lightning step does not strike when the `double` quotient of the draw rounds up to
`lightning_chance`, although the exact quotient is below it. -/
theorem lightning_rounding_miss (cfg : Config) (draws : Nat → Nat) (st : State)
    (hc : cfg.lightning_chance = 2147483647 / 4294967296)
    (hd : draws st.rng = 1073741823) :
    (lightning cfg draws st).grid = st.grid
      ∧ (lightning cfg draws st).burn_counter = st.burn_counter := by
  apply lightning_miss
  intro h
  have h2 := h.2.1
  rw [hd, double_div_rounds_up.1, hc] at h2
  exact lt_irrefl _ h2

/-- A driver cycle, with or without lightning, moves a burning cell one stage on. -/
theorem driver_cycle_burning_any (cfg : Config) (draws : Nat → Nat) (st : State) (r c : Nat)
    (hr : r < cfg.size) (hc : c < cfg.size) (b : Int)
    (hB : st.grid r c = BURNING) (hb : st.burn_counter r c = b) :
    (driver_cycle cfg draws st).grid r c
        = (if b + 1 ≥ BURN_STAGES then BURNED else BURNING)
      ∧ (driver_cycle cfg draws st).burn_counter r c = b + 1 := by
  have hBT : ¬ (BURNING = TREE) := by decide
  have hm : (cycle_mid cfg draws st).grid r c = BURNING
      ∧ (cycle_mid cfg draws st).burn_counter r c = b := by
    rcases cycle_mid_cell cfg draws st r c with h | h
    · exact ⟨h.1.trans hB, h.2.trans hb⟩
    · exact absurd (hB ▸ h.1) hBT
  have h := update_at_burning cfg draws (cycle_mid cfg draws st) r c hr hc hm.1
  rw [driver_cycle_grid_at cfg draws st r c hr hc, driver_cycle_bc, h.1, h.2, hm.2]
  exact ⟨rfl, rfl⟩

/-- A cell that is burning with counter 0 in a cycle grid burns in the next two cycle grids
and is burned in the third. -/
theorem driver_three_cycles (cfg : Config) (draws : Nat → Nat) (st : State) (r c : Nat)
    (hr : r < cfg.size) (hc : c < cfg.size)
    (hB : st.grid r c = BURNING) (h0 : st.burn_counter r c = 0) :
    (driver_cycle cfg draws st).grid r c = BURNING
      ∧ (driver_cycle cfg draws (driver_cycle cfg draws st)).grid r c = BURNING
      ∧ (driver_cycle cfg draws
          (driver_cycle cfg draws (driver_cycle cfg draws st))).grid r c = BURNED := by
  have h1 := driver_cycle_burning_any cfg draws st r c hr hc 0 hB h0
  have h2 := driver_cycle_burning_any cfg draws _ r c hr hc (0 + 1) h1.1 h1.2
  have h3 := driver_cycle_burning_any cfg draws _ r c hr hc (0 + 1 + 1) h2.1 h2.2
  exact ⟨h1.1, h2.1, h3.1⟩

/-- A tree struck by lightning in a pass is burning with counter 1 in the grid of the next
cycle, burning in the one after, and burned in the second one after. -/
theorem driver_struck_cycles (cfg : Config) (draws : Nat → Nat) (st : State) (r c : Nat)
    (hr : r < cfg.size) (hc : c < cfg.size)
    (hT : st.grid r c = TREE) (hS : (cycle_mid cfg draws st).grid r c = BURNING) :
    (driver_cycle cfg draws st).grid r c = BURNING
      ∧ (driver_cycle cfg draws st).burn_counter r c = 1
      ∧ (driver_cycle cfg draws (driver_cycle cfg draws st)).grid r c = BURNING
      ∧ (driver_cycle cfg draws
          (driver_cycle cfg draws (driver_cycle cfg draws st))).grid r c = BURNED := by
  have hTB : ¬ (TREE = BURNING) := by decide
  have hm0 : (cycle_mid cfg draws st).burn_counter r c = 0 := by
    rcases cycle_mid_cell cfg draws st r c with h | h
    · rw [h.1, hT] at hS
      exact absurd hS hTB
    · exact h.2.2
  have h := update_at_burning cfg draws (cycle_mid cfg draws st) r c hr hc hS
  have g1 : (driver_cycle cfg draws st).grid r c = BURNING := by
    rw [driver_cycle_grid_at cfg draws st r c hr hc, h.1, hm0]
    rfl
  have b1 : (driver_cycle cfg draws st).burn_counter r c = 1 := by
    rw [driver_cycle_bc, h.2, hm0]
    rfl
  have h2 := driver_cycle_burning_any cfg draws _ r c hr hc 1 g1 b1
  have h3 := driver_cycle_burning_any cfg draws _ r c hr hc (1 + 1) h2.1 h2.2
  exact ⟨g1, b1, h2.1, h3.1⟩

/-- Without lightning, from a state with burn counter 0 at the cell, the cell has burn
counter 0 in the first cycle grid in which it burns. -/
theorem first_burning_counter (cfg : Config) (draws : Nat → Nat) (st : State) (r c : Nat)
    (hr : r < cfg.size) (hc : c < cfg.size) (hl : cfg.lightning_active = 0)
    (hzero : st.burn_counter r c = 0) (k : Nat)
    (hB : ((driver_cycle cfg draws)^[k] st).grid r c = BURNING)
    (hfirst : ∀ j : Nat, j < k → ((driver_cycle cfg draws)^[j] st).grid r c ≠ BURNING) :
    ((driver_cycle cfg draws)^[k] st).burn_counter r c = 0 := by
  rcases Nat.eq_zero_or_pos k with h0 | hpos
  · rw [h0]
    exact hzero
  · obtain ⟨j, hj⟩ : ∃ j : Nat, k = j + 1 := ⟨k - 1, by omega⟩
    have hprev := hfirst j (by omega)
    rw [hj, Function.iterate_succ_apply'] at hB ⊢
    exact driver_cycle_ignites cfg draws _ r c hr hc hl hprev hB

theorem storm_strikes_forest :
    (cycle_mid stormConfig (fun _ => 0) forestState).grid (0 : Nat) (0 : Nat) = BURNING :=
  (lightning_strike stormConfig (fun _ => 0)
    { clear_next stormConfig.size forestState with changes := 0 }
    (by decide) (by norm_num [double_div, stormConfig, defaultConfig]) rfl).1

/-- C4 as stated fails: under `stormConfig` (lightning enabled) with all draws 0, the cell
`(0, 0)` of `forestState` is a tree in the grid of cycle 0, is first `BURNING` in the grid
of cycle 1 (struck by lightning in the first pass, and moved on by `update` in the same
pass), and is `BURNED` already in the grid of cycle 3, which is cycle 1 + 2. -/
theorem C4_counterexample :
    forestState.grid (0 : Nat) (0 : Nat) ≠ BURNING
      ∧ (driver_cycle stormConfig (fun _ => 0) forestState).grid (0 : Nat) (0 : Nat)
          = BURNING
      ∧ (driver_cycle stormConfig (fun _ => 0)
          (driver_cycle stormConfig (fun _ => 0)
            (driver_cycle stormConfig (fun _ => 0) forestState))).grid (0 : Nat) (0 : Nat)
          = BURNED := by
  have h := driver_struck_cycles stormConfig (fun _ => 0) forestState 0 0 (by decide)
    (by decide) rfl storm_strikes_forest
  refine ⟨?_, h.1, h.2.2.2⟩
  show TREE ≠ BURNING
  decide

/-- C4, amended: a cell that is `BURNING` with burn counter 0 is still `BURNING` with
counter 1 after one application of `update` (followed by the copy of `next` into `grid`),
still `BURNING` with counter 2 after two, and `BURNED` after the third, whatever the draws.
The burn counter is 0 after an ignition by `update`, after a lightning strike of a tree, and
in every cell when `run_sim` enters its loop.  So a cell that is `BURNING` with counter 0 in
the grid of a cycle is `BURNING` in the grids of the next two cycles and `BURNED` in the
third; with lightning disabled that is every cell in the first cycle grid in which it burns
(cycle `k`: burned in cycle `k + 3` and not earlier), whereas a tree struck by lightning is
first `BURNING` in a cycle grid with counter 1 and is `BURNED` two cycles later. -/
theorem C4_burn_three_cycles (cfg : Config) (draws : Nat → Nat) (st : State) (r c : Nat)
    (hr : r < cfg.size) (hc : c < cfg.size)
    (hB : st.grid r c = BURNING) (h0 : st.burn_counter r c = 0) :
    ((update_copy cfg draws st).grid r c = BURNING
      ∧ (update_copy cfg draws st).burn_counter r c = 1
      ∧ (update_copy cfg draws (update_copy cfg draws st)).grid r c = BURNING
      ∧ (update_copy cfg draws (update_copy cfg draws st)).burn_counter r c = 2
      ∧ (update_copy cfg draws
          (update_copy cfg draws (update_copy cfg draws st))).grid r c = BURNED)
      ∧ (∀ s : State, s.grid r c = TREE → (update cfg draws s).next r c = BURNING →
          (update cfg draws s).burn_counter r c = 0)
      ∧ (∀ s : State, s.grid r c = TREE → (lightning cfg draws s).grid r c = BURNING →
          (lightning cfg draws s).burn_counter r c = 0)
      ∧ (∀ (init : InitState) (next burn_counter : Grid),
          (run_start cfg init next burn_counter).burn_counter r c = 0)
      ∧ ((driver_cycle cfg draws st).grid r c = BURNING
        ∧ (driver_cycle cfg draws (driver_cycle cfg draws st)).grid r c = BURNING
        ∧ (driver_cycle cfg draws
            (driver_cycle cfg draws (driver_cycle cfg draws st))).grid r c = BURNED)
      ∧ (cfg.lightning_active = 0 → ∀ (s : State) (k : Nat), s.burn_counter r c = 0 →
          ((driver_cycle cfg draws)^[k] s).grid r c = BURNING →
          (∀ j : Nat, j < k → ((driver_cycle cfg draws)^[j] s).grid r c ≠ BURNING) →
          ((driver_cycle cfg draws)^[k] s).burn_counter r c = 0
            ∧ ((driver_cycle cfg draws)^[k + 1] s).grid r c = BURNING
            ∧ ((driver_cycle cfg draws)^[k + 2] s).grid r c = BURNING
            ∧ ((driver_cycle cfg draws)^[k + 3] s).grid r c = BURNED)
      ∧ (∀ s : State, s.grid r c = TREE → (cycle_mid cfg draws s).grid r c = BURNING →
          (driver_cycle cfg draws s).grid r c = BURNING
            ∧ (driver_cycle cfg draws s).burn_counter r c = 1
            ∧ (driver_cycle cfg draws (driver_cycle cfg draws s)).grid r c = BURNING
            ∧ (driver_cycle cfg draws
                (driver_cycle cfg draws (driver_cycle cfg draws s))).grid r c = BURNED) := by
  have step : ∀ (s : State) (k : Int), s.grid r c = BURNING → s.burn_counter r c = k →
      (update_copy cfg draws s).grid r c = (if k + 1 ≥ BURN_STAGES then BURNED else BURNING)
        ∧ (update_copy cfg draws s).burn_counter r c = k + 1 := by
    intro s k hs hk
    have h := update_at_burning cfg draws s r c hr hc hs
    rw [update_copy_grid_at cfg draws s r c hr hc, update_copy_bc, h.1, h.2, hk]
    exact ⟨rfl, rfl⟩
  have h1 := step st 0 hB h0
  have h2 := step _ 1 h1.1 h1.2
  have h3 := step _ 2 h2.1 h2.2
  refine ⟨⟨h1.1, h1.2, h2.1, h2.2, h3.1⟩, ?_, ?_, ?_,
    driver_three_cycles cfg draws st r c hr hc hB h0, ?_, ?_⟩
  · intro s hT hN
    have hTB : ¬ (TREE = BURNING) := by decide
    rw [update_bc_change cfg draws s r c hr hc, if_neg (by rw [hT]; exact hTB),
      if_pos ⟨hT, hN⟩]
  · intro s hT hN
    exact lightning_strike_counter cfg draws s r c hT hN
  · intro init next burn_counter
    exact run_start_counter cfg init next burn_counter r c hr hc
  · intro hl s k hz hBk hfirst
    have hc0 := first_burning_counter cfg draws s r c hr hc hl hz k hBk hfirst
    have h := driver_three_cycles cfg draws _ r c hr hc hBk hc0
    refine ⟨hc0, ?_, ?_, ?_⟩
    · rw [Function.iterate_succ_apply']
      exact h.1
    · rw [Function.iterate_succ_apply', Function.iterate_succ_apply']
      exact h.2.1
    · rw [Function.iterate_succ_apply', Function.iterate_succ_apply',
        Function.iterate_succ_apply']
      exact h.2.2
  · intro s hT hS
    exact driver_struck_cycles cfg draws s r c hr hc hT hS

theorem C4_burn_three_cycles_witness :
    (update_copy defaultConfig (fun _ => 7) sampleState).grid (0 : Nat) (1 : Nat) = BURNING
      ∧ (update_copy defaultConfig (fun _ => 7) sampleState).burn_counter (0 : Nat) (1 : Nat)
          = 1
      ∧ (update_copy defaultConfig (fun _ => 7)
          (update_copy defaultConfig (fun _ => 7) sampleState)).grid (0 : Nat) (1 : Nat)
          = BURNING
      ∧ (update_copy defaultConfig (fun _ => 7)
          (update_copy defaultConfig (fun _ => 7) sampleState)).burn_counter
            (0 : Nat) (1 : Nat) = 2
      ∧ (update_copy defaultConfig (fun _ => 7)
          (update_copy defaultConfig (fun _ => 7)
            (update_copy defaultConfig (fun _ => 7) sampleState))).grid (0 : Nat) (1 : Nat)
          = BURNED :=
  (C4_burn_three_cycles defaultConfig (fun _ => 7) sampleState 0 1 (by decide) (by decide)
    (by decide) (by decide)).1

end Wildfire
